import Mathlib

/-! # UDF manager of video-common: a shallow embedding

The definitions below follow `src/UDFLoader/src/udf_manager.cpp`
(`UdfManager::UdfManager`, `UdfManager::run`), `src/UDFLoader/src/native_udf_handle.cpp`
(`NativeUdfHandle::process`) and the declarations of `src/UDFLoader/include/eii/udf/frame.h`.

Conventions.
* A C++ pointer to a heap object is an address (`Nat`) together with the object; a pointer
  that may be `NULL` is an `Option`.
* A C++ call that may throw returns `Except Thrown _`; the value thrown keeps its C++ type,
  because a `catch` clause selects on it.
* What a function does to the outside world (calls of `process`, `delete frame`, queue
  operations, profiling annotations) is recorded, in program order, in a list of `Event`s.
* Collaborators whose code is not part of these sources (the queues, the profiling hook, the
  configuration library, the loader) are parameters.
-/

namespace VideoCommon

/-! ## Values thrown -/

/-- The value of a C++ `throw`, classified by the type a `catch` clause can select on. -/
inductive Thrown where
  /-- an object of a class derived from `std::exception`, with its `what()` -/
  | std_exception (what : String)
  /-- a string literal, `throw "..."`, of type `const char*` -/
  | c_string (msg : String)
  /-- a value of any other type -/
  | other (tag : Nat)
  deriving DecidableEq, Repr

/-! ## Frames (`frame.h`) -/

/-- The `EncodeType` enum of `frame.h`. -/
inductive EncodeType where
  | NONE
  | JPEG
  | PNG
  deriving DecidableEq, Repr

/-- The members of class `FrameMetaData` in `frame.h`. -/
structure FrameMetaData where
  m_img_handle : String
  m_width : Int
  m_height : Int
  m_channels : Int
  m_encode_type : EncodeType
  m_encode_level : Int
  deriving DecidableEq, Repr

/-- The members of class `FrameData` in `frame.h`. The three pointers are addresses;
`m_free_frame` is the address of the function that frees `m_frame`. -/
structure FrameData where
  m_meta : FrameMetaData
  m_frame : Nat
  m_data : Nat
  m_free_frame : Nat
  deriving DecidableEq, Repr

/-- The body of one element of a message envelope (`msg_envelope_elem_body_t`): a type tag
with the value it carries. A floating-point value is kept as an uninterpreted bit pattern,
a blob, array or object as the address of its body. -/
inductive MsgEnvElem where
  | integer (v : Int)
  | floating (bits : Nat)
  | string (s : String)
  | boolean (b : Bool)
  | blob (body : Nat)
  | array (body : Nat)
  | object (body : Nat)
  deriving DecidableEq, Repr

/-- A meta-data envelope (`msg_envelope_t`): its keys with their elements, in insertion
order. -/
abbrev MsgEnvelope := List (String × MsgEnvElem)

/-- The members of class `Frame` in `frame.h` that the code under study reads or writes:
`m_frames`, `m_meta_data` and `m_serialized`. -/
structure Frame where
  m_frames : List FrameData
  m_meta_data : MsgEnvelope
  m_serialized : Bool
  deriving DecidableEq, Repr

/-- A non-null `Frame*`: the address of the object and the object. -/
structure FramePtr where
  addr : Nat
  obj : Frame
  deriving DecidableEq, Repr

/-- Modelled from the spec: the lookup of view `index` shared by the accessors of `Frame`
that are not dimension getters (`frame.h` declares them, their bodies are missing). They fail
with `IllegalState` on a serialized frame and with `OutOfRange` when the frame has no view
`index`. -/
def Frame.live_view (f : Frame) (index : Nat) : Except Thrown FrameData :=
  if f.m_serialized then
    .error (.c_string "IllegalState")
  else
    match f.m_frames.get? index with
    | none => .error (.c_string "OutOfRange")
    | some v => .ok v

/-- Modelled from the spec: `Frame::get_encode_type(index)`, declared in `frame.h`. -/
def Frame.get_encode_type (f : Frame) (index : Nat) : Except Thrown EncodeType :=
  (f.live_view index).map (fun v => v.m_meta.m_encode_type)

/-- Modelled from the spec: `Frame::get_encode_level(index)`, declared in `frame.h`. -/
def Frame.get_encode_level (f : Frame) (index : Nat) : Except Thrown Int :=
  (f.live_view index).map (fun v => v.m_meta.m_encode_level)

/-- The `FrameMetaData::set_encoding` setter: both encoding members are overwritten. -/
def FrameData.set_encoding (v : FrameData) (enc_type : EncodeType) (enc_lvl : Int) :
    FrameData :=
  { v with m_meta := { v.m_meta with m_encode_type := enc_type, m_encode_level := enc_lvl } }

/-- Modelled from the spec: `Frame::set_encoding(enc_type, enc_lvl, index)`, declared in
`frame.h`. It mutates the encoding members of view `index` and nothing else; the frame is not
re-encoded. Which pairs of type and level the missing body refuses is the parameter
`rejects`. -/
def Frame.set_encoding (rejects : EncodeType → Int → Option Thrown) (f : Frame)
    (enc_type : EncodeType) (enc_lvl : Int) (index : Nat) : Except Thrown Frame :=
  match f.live_view index with
  | .error e => .error e
  | .ok v =>
    match rejects enc_type enc_lvl with
    | some e => .error e
    | none => .ok { f with m_frames := f.m_frames.set index (v.set_encoding enc_type enc_lvl) }

/-- The method `Frame::get_meta_data()`: by the note on its declaration in `frame.h`, `NULL`
once the frame has been serialized, the envelope otherwise. -/
def Frame.get_meta_data (f : Frame) : Option MsgEnvelope :=
  if f.m_serialized then none else some f.m_meta_data

/-- What the claims call the views of a frame: per view the payload pointer, width, height
and channels. -/
def Frame.payload_views (f : Frame) : List (Nat × Int × Int × Int) :=
  f.m_frames.map (fun v => (v.m_data, v.m_meta.m_width, v.m_meta.m_height, v.m_meta.m_channels))

/-! ## Profiling hook -/

/-- Modelled from the spec: the profiling hook (class `Profiling`, not part of these
sources): whether it is enabled, and the timestamp it writes. Time is not modelled, the
timestamp is a constant of the hook. -/
structure Profiling where
  enabled : Bool
  now : Int
  deriving DecidableEq, Repr

/-- Modelled from the spec: `Profiling::add_profiling_ts(meta_data, key)` writes the
timestamp into the envelope under `key`. -/
def Profiling.add_profiling_ts (p : Profiling) (env : MsgEnvelope) (key : String) :
    MsgEnvelope :=
  env ++ [(key, .integer p.now)]

/-- Modelled from the spec: the macro `DO_PROFILING(profile, meta_data, key)` applied to the
envelope of a frame: a no-op when profiling is disabled, else the timestamp is added under
`key`. A frame without an envelope is left as it is. -/
def DO_PROFILING (p : Profiling) (f : Frame) (key : String) : Frame :=
  if p.enabled then
    match f.get_meta_data with
    | none => f
    | some env => { f with m_meta_data := p.add_profiling_ts env key }
  else f

/-! ## Handles, queues, manager -/

/-- The `UdfRetCode` enum, by the names `UdfManager::run` switches on. The enum is declared
outside these sources; `unrecognised` stands for every value that is none of the four names,
which is what the `default:` label of that switch receives. -/
inductive UdfRetCode where
  | UDF_OK
  | UDF_DROP_FRAME
  | UDF_FRAME_MODIFIED
  | UDF_ERROR
  | unrecognised (code : Nat)
  deriving DecidableEq, Repr

/-- The `QueueRetCode` enum, by the two names `UdfManager::run` compares with; `other` is any
further value of the enum. -/
inductive QueueRetCode where
  | SUCCESS
  | QUEUE_FULL
  | other (code : Nat)
  deriving DecidableEq, Repr

/-- A loaded UDF (`UdfHandle`): its name, max-workers hint, the two profiling keys, and its
virtual `process(Frame*)`. `process` works on the frame object in place, so it maps the object
before the call to the return code and the object after the call, or throws. -/
structure UdfHandle where
  m_name : String
  m_max_workers : Int
  m_prof_entry_key : String
  m_prof_exit_key : String
  process : Frame → Except Thrown (UdfRetCode × Frame)

/-- Modelled from the spec: the output `FrameQueue` as the worker sees it. Whether the queue
is full and whether a blocking push goes through depends on the consumer, so the results of
`push` and `push_wait` for the frame at a given address are parameters. -/
structure FrameQueue where
  push : Nat → QueueRetCode
  push_wait : Nat → QueueRetCode

/-- Modelled from the spec: the `ThreadExecutor` (its class is not part of these sources):
the pool size it was constructed with and the number of `stop()` calls it received. -/
structure ThreadExecutor where
  max_workers : Int
  stop_calls : Nat
  deriving DecidableEq, Repr

/-- The members of `UdfManager` used by its constructor and by `run`. The queues are passed
to the functions that use them. `set_encoding_rejects` is the parameter of
`Frame.set_encoding`. -/
structure UdfManager where
  m_udfs : List UdfHandle
  m_profile : Profiling
  m_executor : ThreadExecutor
  m_stop : Bool
  m_service_name : String
  m_enc_type : EncodeType
  m_enc_lvl : Int
  m_udf_push_entry_key : String
  m_udf_push_block_key : String
  set_encoding_rejects : EncodeType → Int → Option Thrown

/-! ## The worker body, `UdfManager::run` -/

/-- What `run` does to the outside world, in program order. Frames are named by address,
handles by name. -/
inductive Event where
  /-- the call `frame->set_encoding(m_enc_type, m_enc_lvl)`, with whether it returned -/
  | set_encoding (frame : Nat) (enc_type : EncodeType) (enc_lvl : Int) (returned : Bool)
  /-- a timestamp written by `DO_PROFILING` under `key` -/
  | profiling (frame : Nat) (key : String)
  /-- a call `handle->process(frame)` that returned `ret` -/
  | process (frame : Nat) (udf : String) (ret : UdfRetCode)
  /-- a call `handle->process(frame)` that threw -/
  | process_threw (frame : Nat) (udf : String) (e : Thrown)
  /-- the statement `delete frame` -/
  | delete_frame (frame : Nat)
  /-- the call `m_udf_output_queue->push(frame)` and its result -/
  | push (frame : Nat) (r : QueueRetCode)
  /-- the call `m_udf_output_queue->push_wait(frame)` and its result -/
  | push_wait (frame : Nat) (r : QueueRetCode)
  deriving DecidableEq, Repr

/-- How a worker thread can end other than by leaving its loop. -/
inductive Fault where
  /-- an exception left `run`, which has no handler for it -/
  | uncaught (e : Thrown)
  /-- the local `frame` was `NULL` where `run` uses it as a frame -/
  | null_frame
  /-- the member `m_udf` of a native handle was `NULL` where `process` calls through it -/
  | null_udf
  deriving DecidableEq, Repr

/-- The locals of `run` that outlive one statement, with the effects so far: the local
`frame` (`none` is `NULL`), the local `ret`, the events, the frames now owned by the output
queue, and the fault that ended the thread, if any. -/
structure Worker where
  frame : Option Frame
  ret : UdfRetCode
  trace : List Event
  output : List FramePtr
  fault : Option Fault

/-- The state of a worker on entry to `run`: `UdfRetCode ret = UDF_OK`, nothing done yet. -/
def Worker.start : Worker :=
  { frame := none, ret := .UDF_OK, trace := [], output := [], fault := none }

/-- The `switch (ret)` of `run`: `delete frame; frame = NULL` for `UDF_DROP_FRAME`,
`UDF_ERROR` and the `default:` label, nothing for `UDF_FRAME_MODIFIED` and `UDF_OK`. -/
def check_ret (addr : Nat) (ret : UdfRetCode) (f : Frame) (w : Worker) : Worker :=
  match ret with
  | .UDF_DROP_FRAME => { w with frame := none, trace := w.trace ++ [.delete_frame addr] }
  | .UDF_ERROR => { w with frame := none, trace := w.trace ++ [.delete_frame addr] }
  | .UDF_FRAME_MODIFIED => { w with frame := some f }
  | .UDF_OK => { w with frame := some f }
  | .unrecognised _ => { w with frame := none, trace := w.trace ++ [.delete_frame addr] }

/-- The events of one `DO_PROFILING` on the frame at `addr`. -/
def profiling_events (p : Profiling) (addr : Nat) (key : String) : List Event :=
  if p.enabled then [.profiling addr key] else []

/-- The body of `for(auto handle : m_udfs)` for one handle: skipped when `frame` is `NULL`;
else, with profiling, entry timestamp, `ret = handle->process(frame)`, exit timestamp, and
without profiling the call alone; then the switch on `ret`. An exception thrown by `process`
is not handled in `run`. -/
def UdfManager.run_handle (m : UdfManager) (addr : Nat) (handle : UdfHandle) (w : Worker) :
    Worker :=
  match w.fault with
  | some _ => w
  | none =>
    match w.frame with
    | none => w
    | some f =>
      let f1 := DO_PROFILING m.m_profile f handle.m_prof_entry_key
      let entry := profiling_events m.m_profile addr handle.m_prof_entry_key
      match handle.process f1 with
      | .error e =>
        { w with frame := some f1,
                 trace := w.trace ++ entry ++ [.process_threw addr handle.m_name e],
                 fault := some (.uncaught e) }
      | .ok (ret, f2) =>
        let f3 := DO_PROFILING m.m_profile f2 handle.m_prof_exit_key
        let exit := profiling_events m.m_profile addr handle.m_prof_exit_key
        check_ret addr ret f3
          { w with ret := ret,
                   trace := w.trace ++ entry ++ [.process addr handle.m_name ret] ++ exit }

/-- The loop `for(auto handle : m_udfs)` of `run`, over the handles still to visit. -/
def UdfManager.run_handles (m : UdfManager) (addr : Nat) : List UdfHandle → Worker → Worker
  | [], w => w
  | handle :: rest, w => m.run_handles addr rest (m.run_handle addr handle w)

/-- The block `if (ret == UDF_OK) { ... }` of `run`: push-entry timestamp, `push`, and on
`QUEUE_FULL` the call of `push_wait`, `delete frame` when that did not return `SUCCESS`, and
the blocked-queue timestamp. A frame is owned by the output queue from the call that returned
`SUCCESS`. -/
def UdfManager.push_frame (m : UdfManager) (q : FrameQueue) (addr : Nat) (w : Worker) :
    Worker :=
  match w.fault with
  | some _ => w
  | none =>
    if w.ret = .UDF_OK then
      match w.frame with
      | none => { w with fault := some .null_frame }
      | some f =>
        let f1 := DO_PROFILING m.m_profile f m.m_udf_push_entry_key
        let entry := profiling_events m.m_profile addr m.m_udf_push_entry_key
        let ret_queue := q.push addr
        if ret_queue = .QUEUE_FULL then
          let ret_wait := q.push_wait addr
          let f2 := DO_PROFILING m.m_profile f1 m.m_udf_push_block_key
          let block := profiling_events m.m_profile addr m.m_udf_push_block_key
          if ret_wait ≠ .SUCCESS then
            { w with frame := some f2,
                     trace := w.trace ++ entry ++ [.push addr ret_queue, .push_wait addr ret_wait,
                       .delete_frame addr] ++ block }
          else
            { w with frame := some f2,
                     trace := w.trace ++ entry ++ [.push addr ret_queue, .push_wait addr ret_wait]
                       ++ block,
                     output := w.output ++ [{ addr := addr, obj := f2 }] }
        else if ret_queue = .SUCCESS then
          { w with frame := some f1,
                   trace := w.trace ++ entry ++ [.push addr ret_queue],
                   output := w.output ++ [{ addr := addr, obj := f1 }] }
        else
          { w with frame := some f1, trace := w.trace ++ entry ++ [.push addr ret_queue] }
    else w

/-- The guarded call of `set_encoding` in `run`: made when the encoding type or level of the
frame differs from the target of the manager; both handlers (`const char*` and `...`) log and
go on, so a failed call leaves the frame as it was. -/
def UdfManager.fix_encoding (m : UdfManager) (addr : Nat) (f : Frame) (enc_type : EncodeType)
    (enc_lvl : Int) : Frame × List Event :=
  if enc_type ≠ m.m_enc_type ∨ enc_lvl ≠ m.m_enc_lvl then
    match f.set_encoding m.set_encoding_rejects m.m_enc_type m.m_enc_lvl 0 with
    | .ok f1 => (f1, [.set_encoding addr m.m_enc_type m.m_enc_lvl true])
    | .error _ => (f, [.set_encoding addr m.m_enc_type m.m_enc_lvl false])
  else (f, [])

/-- One pass through the body of the `while` loop of `run` after `wait_for` returned true,
for the result of `m_udf_input_queue->pop()`: `continue` on `NULL`; else read the encoding,
fix it, run the handles, push. The local `ret` is the one left by the previous pass. -/
def UdfManager.process_frame (m : UdfManager) (q : FrameQueue) (w : Worker) :
    Option FramePtr → Worker
  | none => w
  | some p =>
    match p.obj.get_encode_type 0 with
    | .error e => { w with frame := some p.obj, fault := some (.uncaught e) }
    | .ok enc_type =>
      match p.obj.get_encode_level 0 with
      | .error e => { w with frame := some p.obj, fault := some (.uncaught e) }
      | .ok enc_lvl =>
        let fe := m.fix_encoding p.addr p.obj enc_type enc_lvl
        m.push_frame q p.addr
          (m.run_handles p.addr m.m_udfs { w with frame := some fe.1, trace := w.trace ++ fe.2 })

/-- What a worker observes at the head of one iteration of `while(!stop.load())`: the stop
flag set, or `wait_for(duration)` false, or `wait_for` true followed by the result of `pop()`
(`none` is `NULL`). -/
inductive Tick where
  | stop
  | timeout
  | popped (frame : Option FramePtr)
  deriving DecidableEq, Repr

/-- The loop `while(!stop.load())` of `run` over the observations of a worker. The loop is
left when the stop flag is seen; a fault ends the thread. -/
def UdfManager.run_loop (m : UdfManager) (q : FrameQueue) : List Tick → Worker → Worker
  | [], w => w
  | tick :: rest, w =>
    match w.fault with
    | some _ => w
    | none =>
      match tick with
      | .stop => w
      | .timeout => m.run_loop q rest w
      | .popped frame => m.run_loop q rest (m.process_frame q w frame)

/-- The worker body `UdfManager::run(tid, stop, varg)` from its entry. -/
def UdfManager.run (m : UdfManager) (q : FrameQueue) (ticks : List Tick) : Worker :=
  m.run_loop q ticks Worker.start

/-! ## Reading a trace -/

/-- The frame an event is about. -/
def Event.frame : Event → Nat
  | .set_encoding a _ _ _ => a
  | .profiling a _ => a
  | .process a _ _ => a
  | .process_threw a _ _ => a
  | .delete_frame a => a
  | .push a _ => a
  | .push_wait a _ => a

/-- A call of `process` in a trace: the name of the handle called and the code it returned
(`none` when the call threw). -/
def Event.call : Event → Option (String × Option UdfRetCode)
  | .process _ udf ret => some (udf, some ret)
  | .process_threw _ udf _ => some (udf, none)
  | _ => none

/-- The calls of `process` in a trace, in program order. -/
def calls (t : List Event) : List (String × Option UdfRetCode) :=
  t.filterMap Event.call

/-- The number of `delete frame` statements executed on the frame at `addr`. -/
def deletes (addr : Nat) (t : List Event) : Nat :=
  t.count (.delete_frame addr)

/-- The number of queue calls that handed the frame at `addr` to the output queue. -/
def handovers (addr : Nat) (t : List Event) : Nat :=
  t.count (.push addr .SUCCESS) + t.count (.push_wait addr .SUCCESS)

/-- Whether a trace has a call of `push` on the frame at `addr`. -/
def pushes (addr : Nat) (t : List Event) : List QueueRetCode :=
  t.filterMap (fun e => match e with
    | .push a r => if a = addr then some r else none
    | _ => none)

/-- The results of the `push_wait` calls on the frame at `addr` in a trace. -/
def push_waits (addr : Nat) (t : List Event) : List QueueRetCode :=
  t.filterMap (fun e => match e with
    | .push_wait a r => if a = addr then some r else none
    | _ => none)

/-- The codes for which the switch of `run` leaves the frame alone. -/
def UdfRetCode.keeps : UdfRetCode → Bool
  | .UDF_OK => true
  | .UDF_FRAME_MODIFIED => true
  | _ => false

/-- A frame as the queues hold it: not serialized and with a view 0. -/
def Frame.live (f : Frame) : Prop :=
  f.m_serialized = false ∧ f.m_frames ≠ []

instance (f : Frame) : Decidable f.live := by
  unfold Frame.live
  infer_instance

/-- The frames a worker takes from the input queue, in order: the non-null results of
`pop()` up to the first time it sees the stop flag. -/
def popped_frames : List Tick → List FramePtr
  | [] => []
  | .stop :: _ => []
  | .timeout :: rest => popped_frames rest
  | .popped none :: rest => popped_frames rest
  | .popped (some p) :: rest => p :: popped_frames rest

/-- The frame object on entry to the loop over the handles: the popped frame after the
guarded `set_encoding`. -/
def UdfManager.entry_frame (m : UdfManager) (p : FramePtr) : Frame :=
  match p.obj.get_encode_type 0, p.obj.get_encode_level 0 with
  | .ok enc_type, .ok enc_lvl => (m.fix_encoding p.addr p.obj enc_type enc_lvl).1
  | _, _ => p.obj

/-- The local `ret` after the loop over the handles on a frame taken by itself, that is with
`ret` equal to `UDF_OK` on entry as at the start of `run`. -/
def UdfManager.chain_ret (m : UdfManager) (p : FramePtr) : UdfRetCode :=
  (m.run_handles p.addr m.m_udfs { Worker.start with frame := some (m.entry_frame p) }).ret

/-- The frames the worker keeps for the output queue: those for which the test
`ret == UDF_OK` that guards the push block holds after the loop over the handles. -/
def UdfManager.keeps_frame (m : UdfManager) (p : FramePtr) : Bool :=
  decide (m.chain_ret p = .UDF_OK)

/-- The addresses of the frames on which a trace has a call of `push`, in program order. -/
def pushed_frames (t : List Event) : List Nat :=
  t.filterMap (fun e => match e with
    | .push a _ => some a
    | _ => none)

/-! ## The native handle, `NativeUdfHandle::process` -/

/-- The members of an OpenCV matrix header (`cv::Mat`) that `NativeUdfHandle::process` reads:
rows, columns, channels and the data pointer (0 is `NULL`). -/
structure Mat where
  rows : Int
  cols : Int
  channels : Int
  data : Nat
  deriving DecidableEq, Repr

/-- The library call `cv::Mat::empty()`: true when the matrix has no data pointer or no
element. -/
def Mat.empty (a : Mat) : Bool :=
  decide (a.data = 0) || decide (a.rows * a.cols = 0)

/-- The matrix `cv::Mat()` that `process` allocates for the output of the UDF. -/
def Mat.new : Mat :=
  { rows := 0, cols := 0, channels := 1, data := 0 }

/-- How a call `m_udf->process(*mat_frame, *output, meta_data)` ends: it returns a code,
having left `output` and the envelope in some state, or it throws. -/
inductive UdfOutcome where
  | returned (ret : UdfRetCode) (output : Mat) (meta_data : MsgEnvelope)
  | threw (e : Thrown)
  deriving DecidableEq, Repr

/-- A native UDF object (`BaseUdf`): its virtual `process(cv::Mat& frame, cv::Mat& output,
msg_envelope_t* meta)`, as a function of the input matrix, the output matrix as allocated
and the envelope (`none` is `NULL`). -/
structure BaseUdf where
  process : Mat → Mat → Option MsgEnvelope → UdfOutcome

/-- The members of `NativeUdfHandle`: those of the base class `UdfHandle` that are data, the
library handle and the UDF object (`none` is `NULL`). -/
structure NativeUdfHandle where
  m_name : String
  m_max_workers : Int
  m_prof_entry_key : String
  m_prof_exit_key : String
  m_lib_handle : Option Nat
  m_udf : Option BaseUdf

/-- Modelled from the spec: the lookup of view `index` by the dimension getters of `Frame`
(`get_width`, `get_height`, `get_channels`), which stay legal on a serialized frame and fail
with `OutOfRange` when the frame has no view `index`. -/
def Frame.dim_view (f : Frame) (index : Nat) : Except Thrown FrameData :=
  match f.m_frames.get? index with
  | none => .error (.c_string "OutOfRange")
  | some v => .ok v

/-- Modelled from the spec: `Frame::set_data(index, frame, free_frame, data, width, height,
channels)`, declared in `frame.h`: view `index` is replaced by a view over the new buffer
with the new dimensions (the deleter of the replaced view runs before the call returns); it
fails with `IllegalState` on a serialized frame and with `OutOfRange` when there is no view
`index`. -/
def Frame.set_data (f : Frame) (index frame free_frame data : Nat) (width height channels : Int) :
    Except Thrown Frame :=
  match f.live_view index with
  | .error e => .error e
  | .ok v =>
    let view : FrameData :=
      { m_meta := { v.m_meta with m_width := width, m_height := height, m_channels := channels },
        m_frame := frame, m_data := data, m_free_frame := free_frame }
    .ok { f with m_frames := f.m_frames.set index view }

/-- The handler `catch(const std::exception& exc)`: the values it selects. -/
def Thrown.is_std_exception : Thrown → Bool
  | .std_exception _ => true
  | _ => false

/-- The envelope of a frame after a UDF wrote to it through the pointer `get_meta_data()`
returned; a frame without an envelope is left as it is. -/
def Frame.with_meta_data (f : Frame) (env : MsgEnvelope) : Frame :=
  if f.m_serialized then f else { f with m_meta_data := env }

/-- The method `NativeUdfHandle::process(Frame* frame)`. `out_addr` is the address of the
matrix allocated by `new cv::Mat()` for the output, `free_fn` the address of
`free_native_cv_frame`. The getters are called outside the `try` block; inside it the UDF is
called and, when `output` is not empty and its data pointer is not that of the input matrix,
view 0 is replaced by `set_data`; the only handler is `catch(const std::exception&)`, which
sets `ret = UDF_ERROR`. Any other value thrown inside the block leaves `process`. -/
def NativeUdfHandle.process (h : NativeUdfHandle) (out_addr free_fn : Nat) (frame : Frame) :
    Except Fault (UdfRetCode × Frame) :=
  match frame.dim_view 0 with
  | .error e => .error (.uncaught e)
  | .ok v =>
    match frame.live_view 0 with
    | .error e => .error (.uncaught e)
    | .ok v0 =>
      let mat_frame : Mat :=
        { rows := v.m_meta.m_height, cols := v.m_meta.m_width,
          channels := v.m_meta.m_channels, data := v0.m_data }
      match h.m_udf with
      | none => .error .null_udf
      | some udf =>
        match udf.process mat_frame Mat.new frame.get_meta_data with
        | .threw e =>
          if e.is_std_exception then .ok (.UDF_ERROR, frame) else .error (.uncaught e)
        | .returned ret output meta_data =>
          let frame1 := frame.with_meta_data meta_data
          if !output.empty && output.data ≠ mat_frame.data then
            match frame1.set_data 0 out_addr free_fn output.data output.cols output.rows
                output.channels with
            | .error e =>
              if e.is_std_exception then .ok (.UDF_ERROR, frame1) else .error (.uncaught e)
            | .ok frame2 => .ok (ret, frame2)
          else .ok (ret, frame1)

/-! ## Construction, `UdfManager::UdfManager` -/

/-- A configuration value (`config_value_t`): its type tag with the body the tag selects. The
type is declared outside these sources; the tags are those the constructor tests
(`CVT_INTEGER`, `CVT_STRING`, `CVT_OBJECT`, `CVT_ARRAY`) and the remaining ones. -/
inductive ConfigValue where
  | integer (v : Int)
  | floating (bits : Nat)
  | string (s : String)
  | boolean (b : Bool)
  | object (fields : List (String × ConfigValue))
  | array (elems : List ConfigValue)
  | none

/-- A configuration (`config_t`): the object its `get_config_value` callback reads. -/
structure config_t where
  cfg : ConfigValue

/-- The library call `config_value_object_get(obj, key)`: the value under `key`, `NULL` when
there is none. -/
def config_value_object_get : ConfigValue → String → Option ConfigValue
  | .object fields, key => (fields.find? (fun kv => kv.1 == key)).map Prod.snd
  | _, _ => Option.none

/-- The library call `config_get(config, key)`. -/
def config_get (c : config_t) (key : String) : Option ConfigValue :=
  config_value_object_get c.cfg key

/-- The conversion of an integer to the C type `int` (32 bits, two's complement), as in the
assignment to `int max_workers`. -/
def to_int (v : Int) : Int :=
  (v + 2147483648) % 4294967296 - 2147483648

/-- The constant `DEFAULT_MAX_WORKERS`. -/
def DEFAULT_MAX_WORKERS : Int := 4

/-- The constant `RANDOM_STR_LENGTH`. -/
def RANDOM_STR_LENGTH : Nat := 5

/-- What the constructor calls outside these sources: the loader (`g_loader.load`),
`config_new` (`none` is `NULL`), the profiling hook it creates, the values drawn by
`generate_rand_string` (per call and per position, as `dis(gen)` returns them), and the
parameter of `Frame.set_encoding`. -/
structure Collaborators where
  load : String → config_t → Int → Option UdfHandle
  config_new : ConfigValue → Option config_t
  profiling : Profiling
  draw : Nat → Nat → Nat
  set_encoding_rejects : EncodeType → Int → Option Thrown

/-- One round of the loop of `generate_rand_string`: the value drawn from `[0, 255]` written
in hexadecimal, with a leading `0` when it has one digit. -/
def hex_byte (rc : Nat) : String :=
  let hex := String.mk (Nat.toDigits 16 (rc % 256))
  if hex.length < 2 then "0" ++ hex else hex

/-- The function `generate_rand_string(len)`, given the values its rounds draw. -/
def generate_rand_string (len : Nat) (draw : Nat → Nat) : String :=
  (List.range len).foldl (fun ss i => ss ++ hex_byte (draw i)) ""

/-- What the constructor does to the outside world, in program order. -/
inductive CtorStep where
  /-- the statement `new ThreadExecutor(max_workers, ...)`: the worker threads exist from
  here on -/
  | new_executor (max_workers : Int)
  /-- the statement `new Profiling()` -/
  | new_profiling
  /-- the call `g_loader.load(name, cfg, max_workers)` for the element at `index`, with whether it
  returned a handle -/
  | load (index : Nat) (name : String) (max_workers : Int) (loaded : Bool)
  deriving DecidableEq, Repr

/-- The profiling keys the constructor gives the handle at index `i` when profiling is
enabled. -/
def UdfHandle.with_prof_keys (handle : UdfHandle) (udf_name rand_str service_name : String)
    (i : Nat) : UdfHandle :=
  if i = 0 then
    { handle with
      m_prof_entry_key := udf_name ++ "_" ++ rand_str ++ "_" ++ service_name ++ "_first" ++ "_entry",
      m_prof_exit_key := udf_name ++ "_" ++ rand_str ++ "_" ++ service_name ++ "_first" ++ "_exit" }
  else
    { handle with
      m_prof_entry_key := udf_name ++ "_" ++ rand_str ++ "_" ++ service_name ++ "_entry",
      m_prof_exit_key := udf_name ++ "_" ++ rand_str ++ "_" ++ service_name ++ "_exit" }

/-- The body of the loop `for(int i = 0; i < len; i++)` of the constructor, for the result of
`config_value_array_get(udfs, i)`: the checks on the element, `config_new`, the call of the
loader with max-workers hint 1, and the profiling keys. Each failed check throws a string
literal. -/
def UdfManager.load_element (env : Collaborators) (service_name : String) (i : Nat) :
    Option ConfigValue → List CtorStep × Except Thrown UdfHandle
  | Option.none => ([], .error (.c_string "Failed to get configuration array element"))
  | some cfg_obj =>
    match cfg_obj with
    | .object _ =>
      match config_value_object_get cfg_obj "name" with
      | Option.none => ([], .error (.c_string "Failed to get UDF name"))
      | some (.string name) =>
        match env.config_new cfg_obj with
        | Option.none => ([], .error (.c_string "Failed to initialize configuration for UDF"))
        | some cfg =>
          match env.load name cfg 1 with
          | Option.none => ([.load i name 1 false], .error (.c_string "Failed to load UDF"))
          | some handle =>
            ([.load i name 1 true],
              .ok (if env.profiling.enabled then
                    handle.with_prof_keys name
                      (generate_rand_string RANDOM_STR_LENGTH (env.draw i)) service_name i
                  else handle))
      | some _ => ([], .error (.c_string "UDF name must be a string"))
    | _ => ([], .error (.c_string "UDF configuration must be objects"))

/-- The loop `for(int i = 0; i < len; i++)` of the constructor with `remaining` rounds to go
from index `i`; `m_udfs` holds the handles pushed so far. -/
def UdfManager.load_udfs (env : Collaborators) (service_name : String)
    (udfs : List ConfigValue) :
    Nat → Nat → List UdfHandle → List CtorStep × Except Thrown (List UdfHandle)
  | 0, _, m_udfs => ([], .ok m_udfs)
  | remaining + 1, i, m_udfs =>
    match UdfManager.load_element env service_name i (udfs.get? i) with
    | (steps, .error e) => (steps, .error e)
    | (steps, .ok handle) =>
      let r := UdfManager.load_udfs env service_name udfs remaining (i + 1) (m_udfs ++ [handle])
      (steps ++ r.1, r.2)

/-- The number of rounds of the loop of the constructor, `(int) config_value_array_len(udfs)`.
The cast to `int` is the identity on the length of every array that fits in memory. -/
def config_value_array_len (udfs : List ConfigValue) : Nat :=
  udfs.length

/-- The reading of `max_workers` in the constructor: the default when the key is absent, a
thrown string when the value is not an integer, else the value converted to `int`. -/
def UdfManager.read_max_workers (udf_cfg : config_t) : Except Thrown Int :=
  match config_get udf_cfg "max_workers" with
  | Option.none => .ok DEFAULT_MAX_WORKERS
  | some (.integer v) => .ok (to_int v)
  | some _ => .error (.c_string "\"max_jobs\" must be an integer")

/-- A run of the constructor: its steps and how it ended, by a thrown value or with the
manager. -/
structure Construction where
  steps : List CtorStep
  result : Except Thrown UdfManager

/-- The constructor `UdfManager::UdfManager(udf_cfg, input_queue, output_queue, service_name,
enc_type, enc_lvl)`: `udfs` is read and must be an array, `max_workers` is read, the executor
and the profiling hook are created, the elements of `udfs` are loaded in order, and the two
queue keys are set. -/
def UdfManager.new (env : Collaborators) (udf_cfg : config_t) (service_name : String)
    (enc_type : EncodeType) (enc_lvl : Int) : Construction :=
  match config_get udf_cfg "udfs" with
  | Option.none => { steps := [], result := .error (.c_string "Failed to get UDFs") }
  | some (.array elems) =>
    match UdfManager.read_max_workers udf_cfg with
    | .error e => { steps := [], result := .error e }
    | .ok max_workers =>
      let loaded :=
        UdfManager.load_udfs env service_name elems (config_value_array_len elems) 0 []
      { steps := [.new_executor max_workers, .new_profiling] ++ loaded.1,
        result :=
          match loaded.2 with
          | .error e => .error e
          | .ok m_udfs =>
            .ok { m_udfs := m_udfs, m_profile := env.profiling,
                  m_executor := { max_workers := max_workers, stop_calls := 0 },
                  m_stop := false, m_service_name := service_name,
                  m_enc_type := enc_type, m_enc_lvl := enc_lvl,
                  m_udf_push_entry_key := service_name ++ "_UDF_output_queue_ts",
                  m_udf_push_block_key := service_name ++ "_UDF_output_queue_blocked_ts",
                  set_encoding_rejects := env.set_encoding_rejects } }
  | some _ => { steps := [], result := .error (.c_string "\"udfs\" must be an array") }

/-- What the loop of the constructor pushes onto `m_udfs` for the element `e` at index `i`:
the handle the loader returned when called with the `name` of `e`, the configuration made of
`e` by `config_new`, and max-workers hint 1; with profiling enabled that handle has been
given its two profiling keys. -/
def UdfManager.pushed_for (env : Collaborators) (service_name : String) (i : Nat)
    (e : ConfigValue) (h : UdfHandle) : Prop :=
  ∃ name cfg handle, config_value_object_get e "name" = some (.string name) ∧
    env.config_new e = some cfg ∧ env.load name cfg 1 = some handle ∧
    h = if env.profiling.enabled then
          handle.with_prof_keys name (generate_rand_string RANDOM_STR_LENGTH (env.draw i))
            service_name i
        else handle

/-! ## Stopping the manager, `UdfManager::stop` -/

/-- Modelled from the spec: `ThreadExecutor::stop()` (its class is not part of these sources),
as far as the manager can tell: one more call received. -/
def ThreadExecutor.stop (e : ThreadExecutor) : ThreadExecutor :=
  { e with stop_calls := e.stop_calls + 1 }

/-- The method `UdfManager::stop()`: when `m_stop` is not yet set, it is set and the
executor is stopped; else nothing is done. -/
def UdfManager.stop (m : UdfManager) : UdfManager :=
  if !m.m_stop then { m with m_stop := true, m_executor := m.m_executor.stop } else m

/-! ## The loader, `UdfLoader` (`src/libs/UDFLoader/src/loader.cpp`) -/

/-- The back-ends a UDF handle can belong to: the native one (`NativeUdfHandle`) and the
embedded interpreter (`PythonUdfHandle`). -/
inductive Backend where
  | native
  | python
  deriving DecidableEq, Repr

/-- A handle as `UdfLoader::load` returns it: the class it was created from and the two
arguments of its constructor. -/
structure LoadedHandle where
  backend : Backend
  m_name : String
  m_max_workers : Int
  deriving DecidableEq, Repr

/-- What `UdfLoader::load` does, in program order: `new` of a handle class, the call of
`initialize(config)` on the handle with what it returned, `delete` of the handle. -/
inductive LoaderStep where
  | new_handle (backend : Backend) (name : String) (max_workers : Int)
  | init_call (backend : Backend) (config : config_t) (returned : Bool)
  | delete_handle (backend : Backend)

/-- What the two handle classes do when initialized for a name, a max-workers hint and a
configuration. `python` is modelled from the spec: `PythonUdfHandle::initialize` is not part
of these sources, and by the spec it returns false on every failure. `native` is what
`NativeUdfHandle::initialize` would return; `load` has no use for it. -/
structure Backends where
  native : String → Int → config_t → Bool
  python : String → Int → config_t → Bool

/-- A run of `UdfLoader::load`: its steps and the pointer it returns (`none` is `NULL`). -/
structure Loading where
  steps : List LoaderStep
  result : Option LoadedHandle

/-- The method `UdfLoader::load(name, config, max_workers)`: a `PythonUdfHandle` is created
and initialized; when `initialize` returns false the handle is deleted and `NULL` is
returned. No other handle class is tried (the source has a `TODO` for the native one). -/
def UdfLoader.load (b : Backends) (name : String) (config : config_t) (max_workers : Int) :
    Loading :=
  if b.python name max_workers config then
    { steps := [.new_handle .python name max_workers, .init_call .python config true],
      result := some { backend := .python, m_name := name, m_max_workers := max_workers } }
  else
    { steps := [.new_handle .python name max_workers, .init_call .python config false,
        .delete_handle .python],
      result := none }

/-- The process-wide state the constructor and destructor of `UdfLoader` act on: whether the
embedded interpreter is initialized (`Py_IsInitialized()`), how often `Py_Initialize` and
`Py_FinalizeEx` have been called, and how many `UdfLoader` objects are alive. -/
structure Interpreter where
  py_initialized : Bool
  py_initialize_calls : Nat
  py_finalize_calls : Nat
  live_loaders : Nat
  deriving DecidableEq, Repr

/-- The state of a process before any loader exists. -/
def Interpreter.start : Interpreter :=
  { py_initialized := false, py_initialize_calls := 0, py_finalize_calls := 0,
    live_loaders := 0 }

/-- The constructor `UdfLoader::UdfLoader()`: the interpreter is initialized unless it
already is. -/
def UdfLoader.ctor (s : Interpreter) : Interpreter :=
  if !s.py_initialized then
    { s with py_initialized := true, py_initialize_calls := s.py_initialize_calls + 1,
             live_loaders := s.live_loaders + 1 }
  else { s with live_loaders := s.live_loaders + 1 }

/-- The destructor `UdfLoader::~UdfLoader()`: `Py_FinalizeEx()` is called, whatever other
loaders exist; after that call the interpreter is not initialized. -/
def UdfLoader.dtor (s : Interpreter) : Interpreter :=
  { s with py_initialized := false, py_finalize_calls := s.py_finalize_calls + 1,
           live_loaders := s.live_loaders - 1 }

/-- A construction or a destruction of a loader. -/
inductive LoaderOp where
  | construct
  | destroy
  deriving DecidableEq, Repr

/-- A sequence of constructions and destructions of loaders, from a given state. -/
def run_loader_ops : List LoaderOp → Interpreter → Interpreter
  | [], s => s
  | .construct :: rest, s => run_loader_ops rest (UdfLoader.ctor s)
  | .destroy :: rest, s => run_loader_ops rest (UdfLoader.dtor s)

/-! ## Loading a native UDF, `NativeUdfHandle::initialize` -/

/-- What `NativeUdfHandle::initialize` finds outside the handle: the result of the base-class
`UdfHandle::initialize(config)` (its body is not part of these sources), the value of
`getenv("LD_LIBRARY_PATH")` (`none` is `NULL`), which files `access(file, F_OK)` finds, the
handle `dlopen` returns for a file and the address `dlsym` returns for a symbol (`none` is
`NULL`), and what the function at an address does when called as `initialize_udf(config)`:
it returns a pointer to a UDF object (`none` is `NULL`) or throws. -/
structure NativeWorld where
  base_initialize : config_t → Bool
  ld_library_path : Option String
  access : String → Bool
  dlopen : String → Option Nat
  dlsym : Nat → String → Option Nat
  initialize_udf : Nat → config_t → Except Thrown (Option BaseUdf)

/-- What `NativeUdfHandle::initialize` and the destructor do to the outside world, in program
order. -/
inductive NativeStep where
  /-- the call `access(file, F_OK)`, with whether the file exists -/
  | access (file : String) (found : Bool)
  /-- the call `dlopen(file, RTLD_LAZY)`, with the handle returned -/
  | dlopen (file : String) (lib : Option Nat)
  /-- the call `dlsym(lib, symbol)`, with whether the symbol was found -/
  | dlsym (lib : Nat) (symbol : String) (found : Bool)
  /-- the call `dlclose(lib)` -/
  | dlclose (lib : Nat)
  /-- the call of the function `initialize_udf` found in the library, with whether it
  returned -/
  | call_initialize_udf (fn : Nat) (returned : Bool)
  /-- the statement `delete m_udf` -/
  | delete_udf
  deriving DecidableEq, Repr

/-- The strings `std::getline(stream, path, delim)` yields in turn, for the characters still in
the stream and the characters of the string being read (last one first): every delimiter
ends a string, which may be empty; at the end of the stream the characters read, if any,
are a last string. -/
def getline_tokens (delim : Char) : List Char → List Char → List String
  | [], cur => if cur = [] then [] else [String.mk cur.reverse]
  | c :: cs, cur =>
    if c = delim then String.mk cur.reverse :: getline_tokens delim cs []
    else getline_tokens delim cs (c :: cur)

/-- The strings the loop `while(std::getline(stream, path, DELIM))` sees for a stream over
`s`. -/
def getline_split (s : String) (delim : Char) : List String :=
  getline_tokens delim s.toList []

/-- The loop `while(std::getline(stream, path, DELIM))` of `initialize` over the strings it
has still to see: an empty `path` is skipped; else `path/lib` is probed with `access`; the
first file found ends the loop. The result is the file found, if any. -/
def find_library (access : String → Bool) (lib : String) :
    List String → List NativeStep × Option String
  | [] => ([], none)
  | path :: rest =>
    if path = "" then find_library access lib rest
    else if access (path ++ "/" ++ lib) then
      ([.access (path ++ "/" ++ lib) true], some (path ++ "/" ++ lib))
    else
      (.access (path ++ "/" ++ lib) false :: (find_library access lib rest).1,
        (find_library access lib rest).2)

/-- A run of `NativeUdfHandle::initialize`: its steps, the members of the handle after it, and
how it ended, by a thrown value or by returning a `bool`. -/
structure NativeInit where
  steps : List NativeStep
  handle : NativeUdfHandle
  result : Except Thrown Bool

/-- The method `NativeUdfHandle::initialize(config)`. False when the base class fails; a
thrown string when `LD_LIBRARY_PATH` is not set; then the search for `lib<name>.so` along the
path, `dlopen` of the file found, `dlsym` of `initialize_udf` (with `dlclose` when it is
missing, `m_lib_handle` keeping its value), and the call of that function inside a `try`
block whose only handler is `catch(const std::exception&)`; the pointer returned becomes
`m_udf` and the result is true. -/
def NativeUdfHandle.initialize (h : NativeUdfHandle) (w : NativeWorld) (config : config_t) :
    NativeInit :=
  if !w.base_initialize config then { steps := [], handle := h, result := .ok false }
  else
    match w.ld_library_path with
    | none =>
      { steps := [], handle := h,
        result := .error
          (.c_string "Failed to retrieve LD_LIBRARY_PATH environmental variable") }
    | some ld_library_path =>
      let search := find_library w.access ("lib" ++ h.m_name ++ ".so")
        (getline_split ld_library_path ':')
      match search.2 with
      | none => { steps := search.1, handle := h, result := .ok false }
      | some lib =>
        match w.dlopen lib with
        | none =>
          { steps := search.1 ++ [.dlopen lib none],
            handle := { h with m_lib_handle := none }, result := .ok false }
        | some lib_handle =>
          match w.dlsym lib_handle "initialize_udf" with
          | none =>
            { steps := search.1 ++ [.dlopen lib (some lib_handle),
                .dlsym lib_handle "initialize_udf" false, .dlclose lib_handle],
              handle := { h with m_lib_handle := some lib_handle }, result := .ok false }
          | some fn =>
            match w.initialize_udf fn config with
            | .error e =>
              { steps := search.1 ++ [.dlopen lib (some lib_handle),
                  .dlsym lib_handle "initialize_udf" true, .call_initialize_udf fn false],
                handle := { h with m_lib_handle := some lib_handle },
                result := if e.is_std_exception then .ok false else .error e }
            | .ok udf =>
              { steps := search.1 ++ [.dlopen lib (some lib_handle),
                  .dlsym lib_handle "initialize_udf" true, .call_initialize_udf fn true],
                handle := { h with m_lib_handle := some lib_handle, m_udf := udf },
                result := .ok true }

/-- The files a run of `initialize` called `dlopen` on, in program order. -/
def opened_files (steps : List NativeStep) : List String :=
  steps.filterMap (fun s => match s with
    | .dlopen file _ => some file
    | _ => none)

/-! ## Constructors and views of `Frame` -/

/-- Modelled from the spec: the constructor `Frame(frame, free_frame, data, width, height,
channels, encode_type, encode_level)`, whose body is missing: a live frame with one view over
the buffer given. `img_handle` is the handle the constructor makes up for the view. -/
def Frame.new (img_handle : String) (frame free_frame data : Nat) (width height channels : Int)
    (encode_type : EncodeType) (encode_level : Int) : Frame :=
  { m_frames := [{ m_meta := { m_img_handle := img_handle, m_width := width,
                               m_height := height, m_channels := channels,
                               m_encode_type := encode_type, m_encode_level := encode_level },
                   m_frame := frame, m_data := data, m_free_frame := free_frame }],
    m_meta_data := [], m_serialized := false }

/-- Modelled from the spec: the constructor `Frame()`, whose body is missing; its
declaration in `frame.h` documents it as initializing an empty frame: a live frame without a
view. -/
def Frame.empty : Frame :=
  { m_frames := [], m_meta_data := [], m_serialized := false }

/-- The blobs of an envelope, in order. -/
def envelope_blobs (msg : MsgEnvelope) : List Nat :=
  msg.filterMap (fun kv => match kv.2 with
    | .blob body => some body
    | _ => none)

/-- Modelled from the spec: the deserializing constructor `Frame(msg)`, whose body is
missing: each blob of the envelope becomes a view whose deleter releases the envelope, and
the keys of the envelope are the meta-data of the frame. The dimensions and encoding of the
view made of the blob at index `i` are read from the envelope by the missing code; they are
the parameter `meta`. -/
def Frame.deserialize (msg : MsgEnvelope) (msg_addr release : Nat)
    (meta : Nat → FrameMetaData) : Frame :=
  { m_frames := (envelope_blobs msg).enum.map (fun ib =>
      { m_meta := meta ib.1, m_frame := msg_addr, m_data := ib.2, m_free_frame := release }),
    m_meta_data := msg, m_serialized := false }

/-- The method `Frame::get_number_of_frames()`, declared in `frame.h`: the number of frames in
the `Frame` object, that is the size of `m_frames`. -/
def Frame.get_number_of_frames (f : Frame) : Nat :=
  f.m_frames.length

/-- Modelled from the spec: `Frame::add_frame(frame, free_frame, data, width, height,
channels, encode_type, encode_level)`, declared in `frame.h`: a view over the buffer given
is appended; it fails with `IllegalState` on a serialized frame. -/
def Frame.add_frame (f : Frame) (img_handle : String) (frame free_frame data : Nat)
    (width height channels : Int) (encode_type : EncodeType) (encode_level : Int) :
    Except Thrown Frame :=
  if f.m_serialized then .error (.c_string "IllegalState")
  else
    .ok { f with m_frames := f.m_frames ++
      [{ m_meta := { m_img_handle := img_handle, m_width := width, m_height := height,
                     m_channels := channels, m_encode_type := encode_type,
                     m_encode_level := encode_level },
         m_frame := frame, m_data := data, m_free_frame := free_frame }] }

/-! ## Destruction, `UdfManager::~UdfManager` -/

/-- The two queues of a manager. -/
inductive QueueId where
  | input
  | output
  deriving DecidableEq, Repr

/-- What the destructor does to the outside world, in program order. Frames are named by
address, handles by name. -/
inductive DtorStep where
  /-- the call `m_executor->stop()` made by `this->stop()` -/
  | stop_executor
  /-- the statement `delete m_executor` -/
  | delete_executor
  /-- the statement `delete handle` of the loop over `m_udfs` -/
  | delete_handle (name : String)
  /-- the statement `delete m_profile` -/
  | delete_profile
  /-- a call `pop()` on a queue, with the pointer returned (`none` is `NULL`) -/
  | pop (queue : QueueId) (frame : Option Nat)
  /-- the statement `delete frame` -/
  | delete_frame (frame : Nat)
  /-- the statement `delete m_udf_input_queue` or `delete m_udf_output_queue` -/
  | delete_queue (queue : QueueId)
  /-- the call `config_destroy(m_config)` -/
  | config_destroy
  deriving DecidableEq, Repr

/-- The loop `while(!queue->empty()) { Frame* frame = queue->pop(); if (frame != NULL) delete
frame; }` of the destructor, over the pointers the queue holds (`none` is `NULL`). -/
def drain (queue : QueueId) : List (Option Nat) → List DtorStep
  | [] => []
  | none :: rest => .pop queue none :: drain queue rest
  | some frame :: rest => .pop queue (some frame) :: .delete_frame frame :: drain queue rest

/-- The destructor `UdfManager::~UdfManager()`, given the pointers the two queues hold when it
runs: `this->stop()`, `delete m_executor`, `delete handle` for every handle of `m_udfs`,
`delete m_profile`, then the input queue is emptied and deleted, then the output queue, then
`config_destroy`. The member `m_th` is `NULL` from the constructor on and nothing assigns it,
so the guarded `delete m_th` does not run. -/
def UdfManager.dtor (m : UdfManager) (input output : List (Option Nat)) : List DtorStep :=
  (if !m.m_stop then [.stop_executor] else []) ++
  [.delete_executor] ++
  m.m_udfs.map (fun handle => .delete_handle handle.m_name) ++
  [.delete_profile] ++
  drain .input input ++ [.delete_queue .input] ++
  drain .output output ++ [.delete_queue .output] ++
  [.config_destroy]

/-! ## The stop flag of a worker -/

/-- What the input queue gives a worker in one pass of the loop of `run`:
`wait_for(duration)` false, or true followed by the result of `pop()` (`none` is `NULL`). -/
inductive Wait where
  | timeout
  | popped (frame : Option FramePtr)
  deriving DecidableEq, Repr

/-- What the worker observes in a pass whose loop head read the flag as not set. -/
def Wait.tick : Wait → Tick
  | .timeout => .timeout
  | .popped frame => .popped frame

/-- The moment at which another thread sets the stop flag, relative to the passes of the loop
of `run` (counted from 0): before the loop head of a pass reads the flag; after that read,
while the worker is in `wait_for` or before it calls `pop` in that pass; or in that pass while
call number `call` (from 0) of `process` is in flight. -/
inductive Moment where
  | before_head (pass : Nat)
  | during_wait (pass : Nat)
  | during_call (pass : Nat) (call : Nat)
  deriving DecidableEq, Repr

/-- The value `stop.load()` returns at the loop head of pass `i`, the only place where `run`
reads the flag (`while(!stop.load())`): true when the flag was set before that read. -/
def Moment.stop_load : Moment → Nat → Bool
  | .before_head pass, i => decide (pass ≤ i)
  | .during_wait pass, i => decide (pass < i)
  | .during_call pass _, i => decide (pass < i)

/-- The first pass whose loop head follows the moment the flag is set. -/
def Moment.first_head : Moment → Nat
  | .before_head pass => pass
  | .during_wait pass => pass + 1
  | .during_call pass _ => pass + 1

/-- What a worker observes from pass `i` on when the flag is set at `set_at` and the input
queue gives `waits`: at each loop head the flag, and when it is not set what the queue
gives. -/
def observed (set_at : Moment) : Nat → List Wait → List Tick
  | _, [] => []
  | i, wait :: rest =>
    (if set_at.stop_load i then Tick.stop else wait.tick) :: observed set_at (i + 1) rest

/-! ## The worker body with the verdict reset per frame -/

/-- The variant of one pass of the loop that the worker body is compared with: as
`process_frame`, but with the local `ret` set to `UDF_OK` at the start of each frame. -/
def UdfManager.process_frame_reset (m : UdfManager) (q : FrameQueue) (w : Worker) :
    Option FramePtr → Worker
  | none => w
  | some p => m.process_frame q { w with ret := .UDF_OK } (some p)

/-- The loop of the variant: as `run_loop`, over `process_frame_reset`. -/
def UdfManager.run_loop_reset (m : UdfManager) (q : FrameQueue) : List Tick → Worker → Worker
  | [], w => w
  | tick :: rest, w =>
    match w.fault with
    | some _ => w
    | none =>
      match tick with
      | .stop => w
      | .timeout => m.run_loop_reset q rest w
      | .popped frame => m.run_loop_reset q rest (m.process_frame_reset q w frame)

/-- The variant of the worker body from its entry. -/
def UdfManager.run_reset (m : UdfManager) (q : FrameQueue) (ticks : List Tick) : Worker :=
  m.run_loop_reset q ticks Worker.start

/-! ## The life of a native handle -/

/-- The destructor `NativeUdfHandle::~NativeUdfHandle()`: `delete m_udf` when `m_udf` is not
`NULL`, then `dlclose(m_lib_handle)` when `m_lib_handle` is not `NULL`. -/
def NativeUdfHandle.dtor (h : NativeUdfHandle) : List NativeStep :=
  (match h.m_udf with
    | some _ => [.delete_udf]
    | none => []) ++
  (match h.m_lib_handle with
    | some lib => [.dlclose lib]
    | none => [])

/-- The steps of the whole life of a handle: those of `initialize(config)`, then those of the
destructor on the handle as `initialize` left it. -/
def NativeUdfHandle.life (h : NativeUdfHandle) (w : NativeWorld) (config : config_t) :
    List NativeStep :=
  ( NativeUdfHandle.initialize h w config).steps ++
    ( NativeUdfHandle.initialize h w config).handle.dtor

/-- The number of calls `dlclose(lib)` in a list of steps. -/
def closes (lib : Nat) (steps : List NativeStep) : Nat :=
  steps.count (.dlclose lib)

/-! ## The RealSense UDF (`sample_realsense.cpp`) -/

/-- The library call `msgbus_msg_envelope_get(meta, key, &out)`: the element under `key`;
`none` stands for a result other than `MSG_SUCCESS`. -/
def msgbus_msg_envelope_get (meta : MsgEnvelope) (key : String) : Option MsgEnvElem :=
  (meta.find? (fun kv => kv.1 == key)).map Prod.snd

/-- The tag test `type == MSG_ENV_DT_INT`. -/
def MsgEnvElem.is_int : MsgEnvElem → Bool
  | .integer _ => true
  | _ => false

/-- The tag test `type == MSG_ENV_DT_FLOATING`. -/
def MsgEnvElem.is_floating : MsgEnvElem → Bool
  | .floating _ => true
  | _ => false

/-- What a read of one member of the union `body` of an element yields: the value the element
carries when the member is the one its tag selects, else the bytes of another member, of
which the model keeps only the element they belong to. -/
inductive BodyRead (α : Type) where
  | value (v : α)
  | punned (elem : MsgEnvElem)
  deriving DecidableEq, Repr

/-- The read `elem->body.integer`, assigned to a member of type `int`. -/
def MsgEnvElem.body_integer : MsgEnvElem → BodyRead Int
  | .integer v => .value (to_int v)
  | elem => .punned elem

/-- The read `elem->body.floating`; the value is kept as the bit pattern the element
carries. -/
def MsgEnvElem.body_floating : MsgEnvElem → BodyRead Nat
  | .floating bits => .value bits
  | elem => .punned elem

/-- The members of `RealSenseUdf` that hold the intrinsics, and `m_frame_number`. -/
structure RealSenseUdf where
  m_depth_width : BodyRead Int
  m_depth_height : BodyRead Int
  m_depth_ppx : BodyRead Nat
  m_depth_ppy : BodyRead Nat
  m_depth_fx : BodyRead Nat
  m_depth_fy : BodyRead Nat
  m_depth_model : BodyRead Int
  m_color_width : BodyRead Int
  m_color_height : BodyRead Int
  m_color_ppx : BodyRead Nat
  m_color_ppy : BodyRead Nat
  m_color_fx : BodyRead Nat
  m_color_fy : BodyRead Nat
  m_color_model : BodyRead Int
  m_frame_number : Int
  deriving DecidableEq, Repr

/-- The constructor `RealSenseUdf(config)`: every member is zero. -/
def RealSenseUdf.new : RealSenseUdf :=
  { m_depth_width := .value 0, m_depth_height := .value 0, m_depth_ppx := .value 0,
    m_depth_ppy := .value 0, m_depth_fx := .value 0, m_depth_fy := .value 0,
    m_depth_model := .value 0, m_color_width := .value 0, m_color_height := .value 0,
    m_color_ppx := .value 0, m_color_ppy := .value 0, m_color_fx := .value 0,
    m_color_fy := .value 0, m_color_model := .value 0, m_frame_number := 0 }

/-- How a call of a member function of the UDF ends: the members as the call leaves them, and
the value it threw, if any. A member assigned before a `throw` keeps its new value. -/
structure RsRun where
  udf : RealSenseUdf
  thrown : Option Thrown
  deriving DecidableEq, Repr

/-- The first half of each block of `set_rs2_intrinsics_and_extrinsics`:
`ret = msgbus_msg_envelope_get(meta, key, &elem); if(ret != MSG_SUCCESS) throw missing;`,
followed by the rest of the function, `k`, for the element fetched. -/
def rs_fetch (meta : MsgEnvelope) (key missing : String) (u : RealSenseUdf)
    (k : MsgEnvElem → RsRun) : RsRun :=
  match msgbus_msg_envelope_get meta key with
  | none => { udf := u, thrown := some (.c_string missing) }
  | some elem => k elem

/-- The second half of each block: `else if(checked->type != TAG) throw wrong;`, for the
result of the tag test, followed by the rest of the function, `k`. -/
def rs_check (tag_ok : Bool) (wrong : String) (u : RealSenseUdf) (k : RsRun) : RsRun :=
  if tag_ok then k else { udf := u, thrown := some (.c_string wrong) }

/-- A block of the extrinsics: `elem = msgbus_msg_envelope_elem_array_get_at(arr, index);
if(elem == NULL) throw missing; else if(elem->type != MSG_ENV_DT_FLOATING) throw wrong;`,
followed by the rest of the function, `k`. The value read from `elem->body.floating` goes to
a local that is handed to librealsense and is not kept. -/
def rs_array_floating (array_get_at : MsgEnvElem → Nat → Option MsgEnvElem) (arr : MsgEnvElem)
    (index : Nat) (missing wrong : String) (u : RealSenseUdf) (k : RsRun) : RsRun :=
  match array_get_at arr index with
  | none => { udf := u, thrown := some (.c_string missing) }
  | some elem => if elem.is_floating then k else { udf := u, thrown := some (.c_string wrong) }

/-- The method `RealSenseUdf::set_rs2_intrinsics_and_extrinsics(meta)`, which does its work
on the first frame only (`m_frame_number < 1`). Each of the fourteen blocks of the intrinsics
fetches an element, tests the type of an element and assigns a member from the body of the
element fetched; the blocks for `rs2_depth_intrinsics_fy` and `rs2_color_intrinsics_fy` test
the type of `depth_intrinsics_ppy` and of `color_intrinsics_ppy`. Then come the two arrays of
the extrinsics, nine and three elements. `array_get_at` is the library call
`msgbus_msg_envelope_elem_array_get_at` (`none` is `NULL`). The calls into librealsense
between and after the reads (stream set-up, `register_extrinsics_to`, opening and starting the
sensors) are taken to return and leave the members modelled as they are. -/
def RealSenseUdf.set_rs2_intrinsics_and_extrinsics
    (array_get_at : MsgEnvElem → Nat → Option MsgEnvElem) (u : RealSenseUdf)
    (meta : MsgEnvelope) : RsRun :=
  if u.m_frame_number < 1 then
    rs_fetch meta "rs2_depth_intrinsics_width" "Failed to retrieve depth intrinsics width" u
      fun depth_intrinsics_width =>
    rs_check depth_intrinsics_width.is_int "depth instrinsics width must be an integer" u <|
    let u := { u with m_depth_width := depth_intrinsics_width.body_integer }
    rs_fetch meta "rs2_depth_intrinsics_height" "Failed to retrieve depth intrinsics height" u
      fun depth_intrinsics_height =>
    rs_check depth_intrinsics_height.is_int "depth intrinsics height must be an integer" u <|
    let u := { u with m_depth_height := depth_intrinsics_height.body_integer }
    rs_fetch meta "rs2_depth_intrinsics_ppx"
      "Failed to retrieve depth intrinsics x-principal-point" u
      fun depth_intrinsics_ppx =>
    rs_check depth_intrinsics_ppx.is_floating
      "depth intrinsics x-principal-point must be a floating" u <|
    let u := { u with m_depth_ppx := depth_intrinsics_ppx.body_floating }
    rs_fetch meta "rs2_depth_intrinsics_ppy"
      "Failed to retrieve depth intrinsics y-principal-point" u
      fun depth_intrinsics_ppy =>
    rs_check depth_intrinsics_ppy.is_floating
      "depth intrinsics y-principal-point must be a floating" u <|
    let u := { u with m_depth_ppy := depth_intrinsics_ppy.body_floating }
    rs_fetch meta "rs2_depth_intrinsics_fx" "Failed to retrieve depth intrinsics x-focal-point" u
      fun depth_intrinsics_fx =>
    rs_check depth_intrinsics_fx.is_floating
      "depth intrinsics x-focal-point must be a floating" u <|
    let u := { u with m_depth_fx := depth_intrinsics_fx.body_floating }
    rs_fetch meta "rs2_depth_intrinsics_fy" "Failed to retrieve depth intrinsics y-focal-point" u
      fun depth_intrinsics_fy =>
    rs_check depth_intrinsics_ppy.is_floating
      "color intrinsics y-focal-point must be a floating" u <|
    let u := { u with m_depth_fy := depth_intrinsics_fy.body_floating }
    rs_fetch meta "rs2_depth_intrinsics_model" "Failed to retrieve depth intrinsics model" u
      fun depth_intrinsics_model =>
    rs_check depth_intrinsics_model.is_int "depth intrinsics model must be an integer" u <|
    let u := { u with m_depth_model := depth_intrinsics_model.body_integer }
    rs_fetch meta "rs2_color_intrinsics_width" "Failed to retrieve color intrinsics width" u
      fun color_intrinsics_width =>
    rs_check color_intrinsics_width.is_int "Color frame height must be a floating" u <|
    let u := { u with m_color_width := color_intrinsics_width.body_integer }
    rs_fetch meta "rs2_color_intrinsics_height" "Failed to retrieve color intrinsics height" u
      fun color_intrinsics_height =>
    rs_check color_intrinsics_height.is_int "color intrinsics height must be a floating" u <|
    let u := { u with m_color_height := color_intrinsics_height.body_integer }
    rs_fetch meta "rs2_color_intrinsics_ppx"
      "Failed to retrieve color intrinsics x-principal-point" u
      fun color_intrinsics_ppx =>
    rs_check color_intrinsics_ppx.is_floating
      "color intrinsics x-principal-point must be a floating" u <|
    let u := { u with m_color_ppx := color_intrinsics_ppx.body_floating }
    rs_fetch meta "rs2_color_intrinsics_ppy"
      "Failed to retrieve color intrinsics y-principal-point" u
      fun color_intrinsics_ppy =>
    rs_check color_intrinsics_ppy.is_floating
      "color intrinsics y-principal-point must be a floating" u <|
    let u := { u with m_color_ppy := color_intrinsics_ppy.body_floating }
    rs_fetch meta "rs2_color_intrinsics_fx" "Failed to retrieve color intrinsics x-focal-point" u
      fun color_intrinsics_fx =>
    rs_check color_intrinsics_fx.is_floating
      "color intrinsics x-focal-point must be a floating" u <|
    let u := { u with m_color_fx := color_intrinsics_fx.body_floating }
    rs_fetch meta "rs2_color_intrinsics_fy" "Failed to retrieve color intrinsics y-focal-point" u
      fun color_intrinsics_fy =>
    rs_check color_intrinsics_ppy.is_floating
      "color intrinsics y-focal-point must be a floating" u <|
    let u := { u with m_color_fy := color_intrinsics_fy.body_floating }
    rs_fetch meta "rs2_color_intrinsics_model" "Failed to retrieve color intrinsics model" u
      fun color_intrinsics_model =>
    rs_check color_intrinsics_model.is_int "depth intrinsics model must be an integer" u <|
    let u := { u with m_color_model := color_intrinsics_model.body_integer }
    rs_fetch meta "rotation_arr" "Failed to retrieve rs2 extrinsics rotation array" u
      fun rotation_arr =>
    rs_array_floating array_get_at rotation_arr 0
      "Failed to retrieve rs2 extrinsics rotation array element1"
      "rotation array value must be a floating" u <|
    rs_array_floating array_get_at rotation_arr 1
      "Failed to retrieve rs2 extrinsics rotation array element2"
      "rotation array value must be a floating" u <|
    rs_array_floating array_get_at rotation_arr 2
      "Failed to retrieve rs2 extrinsics rotation array element3"
      "rotation array value must be a floating" u <|
    rs_array_floating array_get_at rotation_arr 3
      "Failed to retrieve rs2 extrinsics rotation array element4"
      "rotation array value must be a floating" u <|
    rs_array_floating array_get_at rotation_arr 4
      "Failed to retrieve rs2 extrinsics rotation array element5"
      "rotation array value must be a floating" u <|
    rs_array_floating array_get_at rotation_arr 5
      "Failed to retrieve rs2 extrinsics rotation array element6"
      "rotation array value must be a floating" u <|
    rs_array_floating array_get_at rotation_arr 6
      "Failed to retrieve rs2 extrinsics rotation array element7"
      "rotation array value must be a floating" u <|
    rs_array_floating array_get_at rotation_arr 7
      "Failed to retrieve rs2 extrinsics rotation array element8"
      "rotation array value must be a floating" u <|
    rs_array_floating array_get_at rotation_arr 8
      "Failed to retrieve rs2 extrinsics rotation array element9"
      "rotation array value must be a floating" u <|
    rs_fetch meta "translation_arr" "Failed to retrieve rs2 extrinsics translation array" u
      fun translation_arr =>
    rs_array_floating array_get_at translation_arr 0
      "Failed to retrieve rs2 extrinsics translation array element1"
      "translation array value must be a floating" u <|
    rs_array_floating array_get_at translation_arr 1
      "Failed to retrieve rs2 extrinsics translation array element2"
      "translation array value must be a floating" u <|
    rs_array_floating array_get_at translation_arr 2
      "Failed to retrieve rs2 extrinsics translation array element3"
      "translation array value must be a floating" u <|
    { udf := u, thrown := none }
  else { udf := u, thrown := none }

/-! ## Sample values -/

/-- A 2x3 view of one channel, not encoded, whose buffer and payload are at address `d`. -/
def sample_view (d : Nat) : FrameData :=
  { m_meta := { m_img_handle := "img", m_width := 2, m_height := 3, m_channels := 1,
                m_encode_type := .NONE, m_encode_level := 0 },
    m_frame := d, m_data := d, m_free_frame := 0 }

/-- A live frame at address `a` with the single view `sample_view a` and an empty envelope. -/
def sample_frame (a : Nat) : FramePtr :=
  { addr := a, obj := { m_frames := [sample_view a], m_meta_data := [], m_serialized := false } }

/-- A handle whose `process` returns `ret` and leaves the frame as it is. -/
def const_udf (name : String) (ret : UdfRetCode) : UdfHandle :=
  { m_name := name, m_max_workers := 1, m_prof_entry_key := name ++ "_entry",
    m_prof_exit_key := name ++ "_exit", process := fun f => .ok (ret, f) }

/-- A manager for service `svc` over the given handles, with target encoding `NONE` at
level 0, a pool of 4 workers and a `set_encoding` that accepts every level. -/
def sample_manager (udfs : List UdfHandle) (profiling : Bool) : UdfManager :=
  { m_udfs := udfs, m_profile := { enabled := profiling, now := 0 },
    m_executor := { max_workers := 4, stop_calls := 0 }, m_stop := false,
    m_service_name := "svc", m_enc_type := .NONE, m_enc_lvl := 0,
    m_udf_push_entry_key := "svc_UDF_output_queue_ts",
    m_udf_push_block_key := "svc_UDF_output_queue_blocked_ts",
    set_encoding_rejects := fun _ _ => none }

/-- An output queue that is never full. -/
def open_queue : FrameQueue :=
  { push := fun _ => .SUCCESS, push_wait := fun _ => .SUCCESS }

/-- An output queue that is full and whose blocking push fails. -/
def stuck_queue : FrameQueue :=
  { push := fun _ => .QUEUE_FULL, push_wait := fun _ => .other 2 }

/-- A native UDF whose `process` throws `e` on every frame. -/
def throwing_udf (e : Thrown) : BaseUdf :=
  { process := fun _ _ _ => .threw e }

/-- A native handle named `udf` around the given UDF object. -/
def sample_native (udf : BaseUdf) : NativeUdfHandle :=
  { m_name := "udf", m_max_workers := 1, m_prof_entry_key := "", m_prof_exit_key := "",
    m_lib_handle := some 1, m_udf := some udf }

/-- Collaborators of the constructor: a loader that finds every UDF but the one named
`missing`, a `config_new` that succeeds, profiling off. -/
def sample_collaborators : Collaborators :=
  { load := fun name _ max_workers =>
      if name = "missing" then Option.none
      else some { const_udf name .UDF_OK with m_max_workers := max_workers },
    config_new := fun cfg => some { cfg := cfg },
    profiling := { enabled := false, now := 0 },
    draw := fun _ _ => 0,
    set_encoding_rejects := fun _ _ => Option.none }

/-- A configuration object with the given `udfs` array and, optionally, `max_workers`. -/
def sample_config (udfs : List ConfigValue) (max_workers : Option ConfigValue) : config_t :=
  { cfg := .object (("udfs", .array udfs) ::
      (match max_workers with
        | Option.none => []
        | some v => [("max_workers", v)])) }

/-- The tag test `type == CVT_ARRAY`. -/
def ConfigValue.is_array : ConfigValue → Bool
  | .array _ => true
  | _ => false

/-- The tag test `type == CVT_INTEGER`. -/
def ConfigValue.is_integer : ConfigValue → Bool
  | .integer _ => true
  | _ => false

/-- The tag test `type == CVT_OBJECT`. -/
def ConfigValue.is_object : ConfigValue → Bool
  | .object _ => true
  | _ => false

/-- The tag test `type == CVT_STRING`. -/
def ConfigValue.is_string : ConfigValue → Bool
  | .string _ => true
  | _ => false

/-- An element of `udfs` the constructor cannot load: it is not an object, or has no `name`,
or a `name` that is not a string, or the loader returns `NULL` for it. -/
def unloadable (env : Collaborators) (e : ConfigValue) : Prop :=
  e.is_object = false ∨
  config_value_object_get e "name" = Option.none ∨
  (∃ v, config_value_object_get e "name" = some v ∧ v.is_string = false) ∨
  (∃ name, config_value_object_get e "name" = some (.string name) ∧
    ∀ cfg, env.config_new e = some cfg → env.load name cfg 1 = Option.none)

/-- The collaborators `sample_collaborators` with profiling on and the draws of the random
string for the element at index `i` being `16 * i`, `16 * i + 1`, and so on. -/
def sample_collaborators_profiling : Collaborators :=
  { sample_collaborators with
    profiling := { enabled := true, now := 0 },
    draw := fun i k => 16 * i + k }

/-- The manager, if any, that the constructor builds from a `udfs` array of objects that
carry the given names; when it throws, a manager without handles. -/
def sample_built (env : Collaborators) (names : List String) : UdfManager :=
  match (UdfManager.new env
      (sample_config (names.map (fun n => .object [("name", .string n)])) Option.none)
      "svc" .NONE 0).result with
  | .ok m => m
  | .error _ => sample_manager [] false

/-- A world for `initialize` with the given value of `LD_LIBRARY_PATH`, in which the only
library file is `/opt/udfs/libudf.so`, `dlopen` and `dlsym` succeed, and `initialize_udf`
returns a UDF object. -/
def sample_world (ld_library_path : Option String) : NativeWorld :=
  { base_initialize := fun _ => true,
    ld_library_path := ld_library_path,
    access := fun file => decide (file = "/opt/udfs/libudf.so"),
    dlopen := fun _ => some 7,
    dlsym := fun _ _ => some 9,
    initialize_udf := fun _ _ => .ok (some (throwing_udf (.std_exception "not implemented"))) }

/-- A native handle named `udf` as its constructor leaves it: no library, no UDF object. -/
def fresh_native : NativeUdfHandle :=
  { m_name := "udf", m_max_workers := 1, m_prof_entry_key := "", m_prof_exit_key := "",
    m_lib_handle := none, m_udf := none }

/-- A native UDF that returns `ret` and leaves `output` as the given matrix. -/
def output_udf (ret : UdfRetCode) (output : Mat) : BaseUdf :=
  { process := fun _ _ meta_data => .returned ret output (meta_data.getD []) }

/-! ## Reading a trace, a list of steps, an envelope -/

/-- The calls of `set_encoding` in a trace, in program order: the frame, the arguments and
whether the call returned. -/
def set_encodings (t : List Event) : List (Nat × EncodeType × Int × Bool) :=
  t.filterMap (fun e => match e with
    | .set_encoding a enc_type enc_lvl returned => some (a, enc_type, enc_lvl, returned)
    | _ => none)

/-- A world for `initialize` as `sample_world` with path `/opt/udfs`, but in which
`initialize_udf` returns `NULL`. -/
def null_world : NativeWorld :=
  { sample_world (some "/opt/udfs") with initialize_udf := fun _ _ => .ok none }

/-- A world for `initialize` as `sample_world` with path `/opt/udfs`, but in which the library
has no symbol `initialize_udf`. -/
def bare_world : NativeWorld :=
  { sample_world (some "/opt/udfs") with dlsym := fun _ _ => none }

/-- An envelope with the fourteen intrinsics, each of the type the UDF expects but for the two
y-focal-points, which are the elements given, and with the two arrays of the extrinsics, at
addresses 1 and 2. -/
def sample_rs_meta (depth_fy color_fy : MsgEnvElem) : MsgEnvelope :=
  [("rs2_depth_intrinsics_width", .integer 640), ("rs2_depth_intrinsics_height", .integer 480),
   ("rs2_depth_intrinsics_ppx", .floating 11), ("rs2_depth_intrinsics_ppy", .floating 12),
   ("rs2_depth_intrinsics_fx", .floating 13), ("rs2_depth_intrinsics_fy", depth_fy),
   ("rs2_depth_intrinsics_model", .integer 0),
   ("rs2_color_intrinsics_width", .integer 640), ("rs2_color_intrinsics_height", .integer 480),
   ("rs2_color_intrinsics_ppx", .floating 21), ("rs2_color_intrinsics_ppy", .floating 22),
   ("rs2_color_intrinsics_fx", .floating 23), ("rs2_color_intrinsics_fy", color_fy),
   ("rs2_color_intrinsics_model", .integer 0),
   ("rotation_arr", .array 1), ("translation_arr", .array 2)]

/-- The elements of the two arrays of `sample_rs_meta`: nine floating values in the array at
address 1, three in the array at address 2. -/
def sample_array_get_at (arr : MsgEnvElem) (index : Nat) : Option MsgEnvElem :=
  if arr = .array 1 ∧ index < 9 then some (.floating (30 + index))
  else if arr = .array 2 ∧ index < 3 then some (.floating (40 + index))
  else none

/-- The string that the blocks for the two y-focal-points throw when their type test
fails. -/
def fy_type_error : Thrown :=
  .c_string "color intrinsics y-focal-point must be a floating"

/-- A manager over the handle `a`, which returns `UDF_OK`, with target encoding `JPEG` at
level 50 and a `set_encoding` that refuses every change. -/
def strict_manager : UdfManager :=
  { sample_manager [const_udf "a" .UDF_OK] false with
    m_enc_type := .JPEG, m_enc_lvl := 50,
    set_encoding_rejects := fun _ _ => some (.c_string "Failed to set encoding") }

/-! # Theorems -/

/-! ## The loop over the handles -/

theorem run_handle_idle (m : UdfManager) (addr : Nat) (h : UdfHandle) (w : Worker)
    (hw : w.frame = none ∨ w.fault ≠ none) : m.run_handle addr h w = w := by
  unfold UdfManager.run_handle
  rcases hw with hw | hw
  · cases hf : w.fault <;> simp [hw]
  · cases hf : w.fault with
    | none => exact absurd hf hw
    | some _ => rfl

theorem run_handles_idle (m : UdfManager) (addr : Nat) (hs : List UdfHandle) (w : Worker)
    (hw : w.frame = none ∨ w.fault ≠ none) : m.run_handles addr hs w = w := by
  induction hs with
  | nil => rfl
  | cons h rest ih => simp [UdfManager.run_handles, run_handle_idle m addr h w hw, ih]

theorem calls_profiling_events (p : Profiling) (addr : Nat) (key : String) :
    calls (profiling_events p addr key) = [] := by
  unfold profiling_events calls
  split <;> simp [Event.call]

theorem calls_append (s t : List Event) : calls (s ++ t) = calls s ++ calls t := by
  simp [calls]

/-- One visit of the loop body with a live frame makes exactly one call of `process`, on this
handle; when the call threw or returned a code that does not keep the frame, the worker is
left with no frame or with a fault. -/
theorem run_handle_active (m : UdfManager) (addr : Nat) (h : UdfHandle) (w : Worker) (f : Frame)
    (hf : w.frame = some f) (hn : w.fault = none) :
    ∃ evs r, (m.run_handle addr h w).trace = w.trace ++ evs ∧
      calls evs = [(h.m_name, r)] ∧ (∀ e ∈ evs, e.frame = addr) ∧
      (r ≠ some .UDF_OK → r ≠ some .UDF_FRAME_MODIFIED →
        (m.run_handle addr h w).frame = none ∨ (m.run_handle addr h w).fault ≠ none) ∧
      (r = some .UDF_OK ∨ r = some .UDF_FRAME_MODIFIED →
        (m.run_handle addr h w).frame ≠ none ∧ (m.run_handle addr h w).fault = none) := by
  unfold UdfManager.run_handle
  simp only [hn, hf]
  cases hp : h.process (DO_PROFILING m.m_profile f h.m_prof_entry_key) with
  | error e =>
    refine ⟨profiling_events m.m_profile addr h.m_prof_entry_key ++
      [.process_threw addr h.m_name e], none, ?_, ?_, ?_, ?_, by simp⟩
    · simp
    · rw [calls_append, calls_profiling_events]; simp [calls, Event.call]
    · intro e he
      simp only [List.mem_append, List.mem_singleton] at he
      rcases he with he | he
      · unfold profiling_events at he
        split at he
        · simp at he; subst he; rfl
        · simp at he
      · subst he; rfl
    · intro _ _; right; simp
  | ok res =>
    obtain ⟨ret, f2⟩ := res
    have hev : ∀ e ∈ profiling_events m.m_profile addr h.m_prof_entry_key ++
        [Event.process addr h.m_name ret] ++
        profiling_events m.m_profile addr h.m_prof_exit_key, e.frame = addr := by
      intro e he
      simp only [List.mem_append, List.mem_singleton] at he
      rcases he with (he | he) | he
      · unfold profiling_events at he
        split at he
        · simp at he; subst he; rfl
        · simp at he
      · subst he; rfl
      · unfold profiling_events at he
        split at he
        · simp at he; subst he; rfl
        · simp at he
    obtain ⟨body, hbody⟩ : ∃ b, b = profiling_events m.m_profile addr h.m_prof_entry_key ++
        [Event.process addr h.m_name ret] ++
        profiling_events m.m_profile addr h.m_prof_exit_key := ⟨_, rfl⟩
    have hcalls : calls body = [(h.m_name, some ret)] := by
      rw [hbody, calls_append, calls_append, calls_profiling_events, calls_profiling_events]
      simp [calls, Event.call]
    rw [← hbody] at hev
    have hdel : ∀ e ∈ body ++ [Event.delete_frame addr], e.frame = addr := by
      intro e he
      rcases List.mem_append.mp he with he | he
      · exact hev e he
      · simp at he; subst he; rfl
    have hcd : calls (body ++ [Event.delete_frame addr]) = [(h.m_name, some ret)] := by
      rw [calls_append, hcalls]; simp [calls, Event.call]
    cases ret with
    | UDF_OK =>
      refine ⟨body, some .UDF_OK, ?_, hcalls, hev, ?_, ?_⟩
      · simp [check_ret, hbody]
      · intro h1; exact absurd rfl h1
      · intro _; simp [check_ret, hn]
    | UDF_FRAME_MODIFIED =>
      refine ⟨body, some .UDF_FRAME_MODIFIED, ?_, hcalls, hev, ?_, ?_⟩
      · simp [check_ret, hbody]
      · intro _ h2; exact absurd rfl h2
      · intro _; simp [check_ret, hn]
    | UDF_DROP_FRAME =>
      refine ⟨body ++ [.delete_frame addr], some .UDF_DROP_FRAME, ?_, hcd, hdel, ?_, by simp⟩
      · simp [check_ret, hbody]
      · intro _ _; left; simp [check_ret]
    | UDF_ERROR =>
      refine ⟨body ++ [.delete_frame addr], some .UDF_ERROR, ?_, hcd, hdel, ?_, by simp⟩
      · simp [check_ret, hbody]
      · intro _ _; left; simp [check_ret]
    | unrecognised c =>
      refine ⟨body ++ [.delete_frame addr], some (.unrecognised c), ?_, hcd, hdel, ?_, by simp⟩
      · simp [check_ret, hbody]
      · intro _ _; left; simp [check_ret]

theorem mem_profiling_events (p : Profiling) (addr : Nat) (key : String) (e : Event)
    (he : e ∈ profiling_events p addr key) : e = .profiling addr key := by
  unfold profiling_events at he
  split at he
  · simpa using he
  · simp at he

/-- The loop over the handles extends the trace by events on the frame at `addr` whose calls
of `process` name an initial segment of the handles, in list order; a call that threw or
returned a code other than `UDF_OK` and `UDF_FRAME_MODIFIED` is the last call. -/
theorem run_handles_calls (m : UdfManager) (addr : Nat) (hs : List UdfHandle) (w : Worker) :
    ∃ evs, (m.run_handles addr hs w).trace = w.trace ++ evs ∧
      (calls evs).map Prod.fst <+: hs.map (fun h => h.m_name) ∧
      (∀ pre c post, calls evs = pre ++ c :: post →
        c.2 ≠ some .UDF_OK → c.2 ≠ some .UDF_FRAME_MODIFIED → post = []) ∧
      (∀ e ∈ evs, e.frame = addr) ∧
      (w.frame ≠ none → w.fault = none →
        (∀ c ∈ calls evs, c.2 = some .UDF_OK ∨ c.2 = some .UDF_FRAME_MODIFIED) →
        (calls evs).map Prod.fst = hs.map (fun h => h.m_name)) := by
  induction hs generalizing w with
  | nil =>
    refine ⟨[], by simp [UdfManager.run_handles], by simp [calls], ?_, by simp,
      by simp [calls]⟩
    intro pre c post hc
    simp [calls] at hc
  | cons h rest ih =>
    by_cases hidle : w.frame = none ∨ w.fault ≠ none
    · refine ⟨[], by simp [run_handles_idle m addr (h :: rest) w hidle], by simp [calls], ?_,
        by simp, ?_⟩
      · intro pre c post hc
        simp [calls] at hc
      · intro h1 h2
        rcases hidle with hi | hi
        · exact absurd hi h1
        · exact absurd h2 hi
    · have hfr : ∃ f, w.frame = some f := by
        cases hwf : w.frame with
        | none => exact absurd (Or.inl hwf) hidle
        | some f => exact ⟨f, rfl⟩
      obtain ⟨f, hf⟩ := hfr
      have hn : w.fault = none := by
        by_contra hne
        exact hidle (Or.inr hne)
      obtain ⟨evs1, r, ht1, hc1, hfr1, hidle1, hkeep1⟩ := run_handle_active m addr h w f hf hn
      obtain ⟨evs2, ht2, hpre2, hlast2, hfr2, hall2⟩ := ih (m.run_handle addr h w)
      refine ⟨evs1 ++ evs2, ?_, ?_, ?_, ?_, ?_⟩
      · simp only [UdfManager.run_handles]
        rw [ht2, ht1, List.append_assoc]
      · rw [calls_append, hc1]
        simpa using hpre2
      · intro pre c post hc hk1 hk2
        rw [calls_append, hc1] at hc
        cases pre with
        | nil =>
          simp only [List.nil_append, List.singleton_append, List.cons.injEq] at hc
          obtain ⟨hce, hpost⟩ := hc
          have hr1 : r ≠ some .UDF_OK := by rw [← hce] at hk1; exact hk1
          have hr2 : r ≠ some .UDF_FRAME_MODIFIED := by rw [← hce] at hk2; exact hk2
          have hstop := run_handles_idle m addr rest _ (hidle1 hr1 hr2)
          rw [hstop] at ht2
          have he2 : evs2 = [] := by simpa using ht2
          rw [← hpost, he2]
          rfl
        | cons c0 pre1 =>
          simp only [List.singleton_append, List.cons_append, List.cons.injEq] at hc
          exact hlast2 pre1 c post hc.2 hk1 hk2
      · intro e he
        rcases List.mem_append.mp he with he | he
        · exact hfr1 e he
        · exact hfr2 e he
      · intro _ _ hall
        rw [calls_append, hc1] at hall ⊢
        have hr : r = some .UDF_OK ∨ r = some .UDF_FRAME_MODIFIED :=
          hall (h.m_name, r) (by simp)
        obtain ⟨hk1, hk2⟩ := hkeep1 hr
        have hrest := hall2 hk1 hk2 (fun c hc => hall c (by simp [hc]))
        simp [hrest]

theorem push_frame_of_fault (m : UdfManager) (q : FrameQueue) (addr : Nat) (w : Worker)
    (hw : w.fault ≠ none) : m.push_frame q addr w = w := by
  unfold UdfManager.push_frame
  cases hf : w.fault with
  | none => exact absurd hf hw
  | some _ => rfl

theorem push_frame_of_ret (m : UdfManager) (q : FrameQueue) (addr : Nat) (w : Worker)
    (hw : w.ret ≠ .UDF_OK) : m.push_frame q addr w = w := by
  unfold UdfManager.push_frame
  cases hf : w.fault <;> simp [hw]

theorem push_frame_null (m : UdfManager) (q : FrameQueue) (addr : Nat) (w : Worker)
    (hn : w.fault = none) (hr : w.ret = .UDF_OK) (hf : w.frame = none) :
    m.push_frame q addr w = { w with fault := some .null_frame } := by
  unfold UdfManager.push_frame
  simp [hn, hr, hf]

theorem push_frame_success (m : UdfManager) (q : FrameQueue) (addr : Nat) (w : Worker)
    (f : Frame) (hn : w.fault = none) (hr : w.ret = .UDF_OK) (hf : w.frame = some f)
    (hq : q.push addr = .SUCCESS) :
    m.push_frame q addr w =
      { w with frame := some (DO_PROFILING m.m_profile f m.m_udf_push_entry_key),
               trace := w.trace ++ profiling_events m.m_profile addr m.m_udf_push_entry_key ++
                 [.push addr .SUCCESS],
               output := w.output ++
                 [{ addr := addr, obj := DO_PROFILING m.m_profile f m.m_udf_push_entry_key }] } := by
  unfold UdfManager.push_frame
  simp [hn, hr, hf, hq]

theorem push_frame_refused (m : UdfManager) (q : FrameQueue) (addr : Nat) (w : Worker)
    (f : Frame) (hn : w.fault = none) (hr : w.ret = .UDF_OK) (hf : w.frame = some f)
    (hq1 : q.push addr ≠ .SUCCESS) (hq2 : q.push addr ≠ .QUEUE_FULL) :
    m.push_frame q addr w =
      { w with frame := some (DO_PROFILING m.m_profile f m.m_udf_push_entry_key),
               trace := w.trace ++ profiling_events m.m_profile addr m.m_udf_push_entry_key ++
                 [.push addr (q.push addr)] } := by
  unfold UdfManager.push_frame
  simp [hn, hr, hf, hq1, hq2]

theorem push_frame_full_success (m : UdfManager) (q : FrameQueue) (addr : Nat) (w : Worker)
    (f : Frame) (hn : w.fault = none) (hr : w.ret = .UDF_OK) (hf : w.frame = some f)
    (hq : q.push addr = .QUEUE_FULL) (hpw : q.push_wait addr = .SUCCESS) :
    m.push_frame q addr w =
      { w with frame := some (DO_PROFILING m.m_profile
                 (DO_PROFILING m.m_profile f m.m_udf_push_entry_key) m.m_udf_push_block_key),
               trace := w.trace ++ profiling_events m.m_profile addr m.m_udf_push_entry_key ++
                 [.push addr .QUEUE_FULL, .push_wait addr .SUCCESS] ++
                 profiling_events m.m_profile addr m.m_udf_push_block_key,
               output := w.output ++
                 [{ addr := addr, obj := DO_PROFILING m.m_profile
                     (DO_PROFILING m.m_profile f m.m_udf_push_entry_key)
                     m.m_udf_push_block_key }] } := by
  unfold UdfManager.push_frame
  simp [hn, hr, hf, hq, hpw]

theorem push_frame_full_failed (m : UdfManager) (q : FrameQueue) (addr : Nat) (w : Worker)
    (f : Frame) (hn : w.fault = none) (hr : w.ret = .UDF_OK) (hf : w.frame = some f)
    (hq : q.push addr = .QUEUE_FULL) (hpw : q.push_wait addr ≠ .SUCCESS) :
    m.push_frame q addr w =
      { w with frame := some (DO_PROFILING m.m_profile
                 (DO_PROFILING m.m_profile f m.m_udf_push_entry_key) m.m_udf_push_block_key),
               trace := w.trace ++ profiling_events m.m_profile addr m.m_udf_push_entry_key ++
                 [.push addr .QUEUE_FULL, .push_wait addr (q.push_wait addr),
                   .delete_frame addr] ++
                 profiling_events m.m_profile addr m.m_udf_push_block_key } := by
  unfold UdfManager.push_frame
  simp [hn, hr, hf, hq, hpw]

/-- The six ways through the push block. -/
theorem push_frame_cases (q : FrameQueue) (addr : Nat) (w : Worker) :
    w.fault ≠ none ∨ w.ret ≠ .UDF_OK ∨
    (w.fault = none ∧ w.ret = .UDF_OK ∧
      (w.frame = none ∨ ∃ f, w.frame = some f ∧
        (q.push addr = .SUCCESS ∨
         (q.push addr ≠ .SUCCESS ∧ q.push addr ≠ .QUEUE_FULL) ∨
         (q.push addr = .QUEUE_FULL ∧ q.push_wait addr = .SUCCESS) ∨
         (q.push addr = .QUEUE_FULL ∧ q.push_wait addr ≠ .SUCCESS)))) := by
  by_cases h1 : w.fault = none
  · by_cases h2 : w.ret = .UDF_OK
    · right; right
      refine ⟨h1, h2, ?_⟩
      cases h3 : w.frame with
      | none => left; rfl
      | some f =>
        right
        refine ⟨f, rfl, ?_⟩
        by_cases h4 : q.push addr = .SUCCESS
        · left; exact h4
        · by_cases h5 : q.push addr = .QUEUE_FULL
          · by_cases h6 : q.push_wait addr = .SUCCESS
            · right; right; left; exact ⟨h5, h6⟩
            · right; right; right; exact ⟨h5, h6⟩
          · right; left; exact ⟨h4, h5⟩
    · right; left; exact h2
  · left; exact h1

/-- The push block extends the trace by events on the frame at `addr`, none of them a call
of `process`. -/
theorem push_frame_events (m : UdfManager) (q : FrameQueue) (addr : Nat) (w : Worker) :
    ∃ evs, (m.push_frame q addr w).trace = w.trace ++ evs ∧ calls evs = [] ∧
      (∀ e ∈ evs, e.frame = addr) := by
  have hentry := calls_profiling_events m.m_profile addr m.m_udf_push_entry_key
  have hblock := calls_profiling_events m.m_profile addr m.m_udf_push_block_key
  have hme := mem_profiling_events m.m_profile addr m.m_udf_push_entry_key
  have hmb := mem_profiling_events m.m_profile addr m.m_udf_push_block_key
  rcases push_frame_cases q addr w with h | h | ⟨hn, hr, h | ⟨f, hf, h | h | h | h⟩⟩
  · exact ⟨[], by simp [push_frame_of_fault m q addr w h], rfl, by simp⟩
  · exact ⟨[], by simp [push_frame_of_ret m q addr w h], rfl, by simp⟩
  · exact ⟨[], by simp [push_frame_null m q addr w hn hr h], rfl, by simp⟩
  · refine ⟨profiling_events m.m_profile addr m.m_udf_push_entry_key ++ [.push addr .SUCCESS],
      by simp [push_frame_success m q addr w f hn hr hf h], ?_, ?_⟩
    · rw [calls_append, hentry]; simp [calls, Event.call]
    · intro e he
      rcases List.mem_append.mp he with he | he
      · rw [hme e he]; rfl
      · simp at he; rw [he]; rfl
  · refine ⟨profiling_events m.m_profile addr m.m_udf_push_entry_key ++
      [.push addr (q.push addr)],
      by simp [push_frame_refused m q addr w f hn hr hf h.1 h.2], ?_, ?_⟩
    · rw [calls_append, hentry]; simp [calls, Event.call]
    · intro e he
      rcases List.mem_append.mp he with he | he
      · rw [hme e he]; rfl
      · simp at he; rw [he]; rfl
  · refine ⟨profiling_events m.m_profile addr m.m_udf_push_entry_key ++
      [.push addr .QUEUE_FULL, .push_wait addr .SUCCESS] ++
      profiling_events m.m_profile addr m.m_udf_push_block_key,
      by simp [push_frame_full_success m q addr w f hn hr hf h.1 h.2], ?_, ?_⟩
    · rw [calls_append, calls_append, hentry, hblock]; simp [calls, Event.call]
    · intro e he
      simp only [List.mem_append, List.mem_cons, List.mem_singleton,
        List.not_mem_nil, or_false] at he
      rcases he with (he | he | he) | he
      · rw [hme e he]; rfl
      · rw [he]; rfl
      · rw [he]; rfl
      · rw [hmb e he]; rfl
  · refine ⟨profiling_events m.m_profile addr m.m_udf_push_entry_key ++
      [.push addr .QUEUE_FULL, .push_wait addr (q.push_wait addr), .delete_frame addr] ++
      profiling_events m.m_profile addr m.m_udf_push_block_key,
      by simp [push_frame_full_failed m q addr w f hn hr hf h.1 h.2], ?_, ?_⟩
    · rw [calls_append, calls_append, hentry, hblock]; simp [calls, Event.call]
    · intro e he
      simp only [List.mem_append, List.mem_cons, List.mem_singleton,
        List.not_mem_nil, or_false] at he
      rcases he with (he | he | he | he) | he
      · rw [hme e he]; rfl
      · rw [he]; rfl
      · rw [he]; rfl
      · rw [he]; rfl
      · rw [hmb e he]; rfl

/-- The guarded `set_encoding` adds at most one event, on the frame at `addr`, that is not a
call of `process`. -/
theorem fix_encoding_events (m : UdfManager) (addr : Nat) (f : Frame) (t : EncodeType)
    (l : Int) :
    calls (m.fix_encoding addr f t l).2 = [] ∧
      ∀ e ∈ (m.fix_encoding addr f t l).2, e.frame = addr := by
  unfold UdfManager.fix_encoding
  split
  · split <;> simp [calls, Event.call, Event.frame]
  · simp [calls]

theorem live_view_of_live (f : Frame) (hf : f.live) :
    ∃ v, f.live_view 0 = .ok v ∧ f.m_frames.head? = some v := by
  obtain ⟨hs, hv⟩ := hf
  cases hfr : f.m_frames with
  | nil => exact absurd hfr hv
  | cons v rest => exact ⟨v, by simp [Frame.live_view, hs, hfr], by simp⟩

theorem process_frame_type_error (m : UdfManager) (q : FrameQueue) (w : Worker) (p : FramePtr)
    (e : Thrown) (ht : p.obj.get_encode_type 0 = .error e) :
    m.process_frame q w (some p) = { w with frame := some p.obj, fault := some (.uncaught e) } := by
  simp [UdfManager.process_frame, ht]

theorem process_frame_level_error (m : UdfManager) (q : FrameQueue) (w : Worker) (p : FramePtr)
    (t : EncodeType) (e : Thrown) (ht : p.obj.get_encode_type 0 = .ok t)
    (hl : p.obj.get_encode_level 0 = .error e) :
    m.process_frame q w (some p) = { w with frame := some p.obj, fault := some (.uncaught e) } := by
  simp [UdfManager.process_frame, ht, hl]

theorem process_frame_ok (m : UdfManager) (q : FrameQueue) (w : Worker) (p : FramePtr)
    (t : EncodeType) (l : Int) (ht : p.obj.get_encode_type 0 = .ok t)
    (hl : p.obj.get_encode_level 0 = .ok l) :
    m.process_frame q w (some p) =
      m.push_frame q p.addr (m.run_handles p.addr m.m_udfs
        { w with frame := some (m.fix_encoding p.addr p.obj t l).1,
                 trace := w.trace ++ (m.fix_encoding p.addr p.obj t l).2 }) := by
  simp [UdfManager.process_frame, ht, hl]

/-- One pass of the worker body extends the trace by the events of the guarded
`set_encoding`, of the loop over the handles and of the push block, in this order. -/
theorem process_frame_trace (m : UdfManager) (q : FrameQueue) (w : Worker) (p : FramePtr) :
    ∃ evs, (m.process_frame q w (some p)).trace = w.trace ++ evs ∧
      (∀ e ∈ evs, e.frame = p.addr) ∧
      (calls evs).map Prod.fst <+: m.m_udfs.map (fun h => h.m_name) ∧
      (∀ pre c post, calls evs = pre ++ c :: post →
        c.2 ≠ some .UDF_OK → c.2 ≠ some .UDF_FRAME_MODIFIED → post = []) ∧
      (w.fault = none → p.obj.live →
        (∀ c ∈ calls evs, c.2 = some .UDF_OK ∨ c.2 = some .UDF_FRAME_MODIFIED) →
        (calls evs).map Prod.fst = m.m_udfs.map (fun h => h.m_name)) := by
  cases ht : p.obj.get_encode_type 0 with
  | error e =>
    rw [process_frame_type_error m q w p e ht]
    refine ⟨[], by simp, by simp, by simp [calls], ?_, ?_⟩
    · intro pre c post hc
      simp [calls] at hc
    · intro _ hlive
      obtain ⟨v, hv⟩ := live_view_of_live p.obj hlive
      simp [Frame.get_encode_type, hv, Except.map] at ht
  | ok enc_type =>
    cases hl : p.obj.get_encode_level 0 with
    | error e =>
      rw [process_frame_level_error m q w p enc_type e ht hl]
      refine ⟨[], by simp, by simp, by simp [calls], ?_, ?_⟩
      · intro pre c post hc
        simp [calls] at hc
      · intro _ hlive
        obtain ⟨v, hv⟩ := live_view_of_live p.obj hlive
        simp [Frame.get_encode_level, hv, Except.map] at hl
    | ok enc_lvl =>
      rw [process_frame_ok m q w p enc_type enc_lvl ht hl]
      obtain ⟨hfc, hff⟩ := fix_encoding_events m p.addr p.obj enc_type enc_lvl
      obtain ⟨evs1, ht1, hpre1, hlast1, hfr1, hall1⟩ := run_handles_calls m p.addr m.m_udfs
        { w with frame := some (m.fix_encoding p.addr p.obj enc_type enc_lvl).1,
                 trace := w.trace ++ (m.fix_encoding p.addr p.obj enc_type enc_lvl).2 }
      obtain ⟨evs2, ht2, hc2, hfr2⟩ := push_frame_events m q p.addr
        (m.run_handles p.addr m.m_udfs
          { w with frame := some (m.fix_encoding p.addr p.obj enc_type enc_lvl).1,
                   trace := w.trace ++ (m.fix_encoding p.addr p.obj enc_type enc_lvl).2 })
      have hcalls : calls ((m.fix_encoding p.addr p.obj enc_type enc_lvl).2 ++ evs1 ++ evs2) =
          calls evs1 := by
        rw [calls_append, calls_append, hfc, hc2]; simp
      refine ⟨(m.fix_encoding p.addr p.obj enc_type enc_lvl).2 ++ evs1 ++ evs2,
        ?_, ?_, ?_, ?_, ?_⟩
      · rw [ht2, ht1]; simp
      · intro e he
        rcases List.mem_append.mp he with he | he
        · rcases List.mem_append.mp he with he | he
          · exact hff e he
          · exact hfr1 e he
        · exact hfr2 e he
      · rw [hcalls]; exact hpre1
      · rw [hcalls]; exact hlast1
      · rw [hcalls]
        intro hn _ hall
        exact hall1 (by simp) hn hall

/-- C1. For every frame and every list of handles, one pass of the worker body calls
`process` on an initial segment of the handle list, in list order, each handle at most once;
once a call has returned `UDF_DROP_FRAME`, `UDF_ERROR` or an unrecognised code, no later
handle is called on that frame; and when every call returned `UDF_OK` or
`UDF_FRAME_MODIFIED`, the segment is the whole list. -/
theorem run_calls_handles_in_list_order (m : UdfManager) (q : FrameQueue) (w : Worker)
    (p : FramePtr) :
    ∃ evs, (m.process_frame q w (some p)).trace = w.trace ++ evs ∧
      (∀ e ∈ evs, e.frame = p.addr) ∧
      (calls evs).map Prod.fst <+: m.m_udfs.map (fun h => h.m_name) ∧
      (∀ pre udf ret post, calls evs = pre ++ (udf, some ret) :: post →
        (ret = .UDF_DROP_FRAME ∨ ret = .UDF_ERROR ∨ ∃ code, ret = .unrecognised code) →
        post = []) ∧
      (w.fault = none → p.obj.live →
        (∀ c ∈ calls evs, c.2 = some .UDF_OK ∨ c.2 = some .UDF_FRAME_MODIFIED) →
        (calls evs).map Prod.fst = m.m_udfs.map (fun h => h.m_name)) := by
  obtain ⟨evs, ht, hfr, hpre, hlast, hall⟩ := process_frame_trace m q w p
  refine ⟨evs, ht, hfr, hpre, ?_, hall⟩
  intro pre udf ret post hc hret
  refine hlast pre (udf, some ret) post hc ?_ ?_
  · rcases hret with h | h | ⟨c, h⟩ <;> simp [h]
  · rcases hret with h | h | ⟨c, h⟩ <;> simp [h]

/-! ## What the loop over the handles leaves behind -/

theorem deletes_append (addr : Nat) (s t : List Event) :
    deletes addr (s ++ t) = deletes addr s + deletes addr t := by
  simp [deletes]

theorem deletes_profiling_events (p : Profiling) (a addr : Nat) (key : String) :
    deletes a (profiling_events p addr key) = 0 := by
  unfold deletes profiling_events
  split <;> simp

theorem no_queue_profiling_events (p : Profiling) (addr : Nat) (key : String) (a : Nat)
    (r : QueueRetCode) :
    Event.push a r ∉ profiling_events p addr key ∧
      Event.push_wait a r ∉ profiling_events p addr key := by
  constructor <;> intro h <;> have h1 := mem_profiling_events p addr key _ h <;> cases h1

/-- One visit of the loop body with a live frame: the call returned a keeping code and the
frame is still there; or it returned another code and the frame was deleted, once; or it
threw. No queue operation is made. -/
theorem run_handle_outcome (m : UdfManager) (addr : Nat) (h : UdfHandle) (w : Worker) (f : Frame)
    (hf : w.frame = some f) (hn : w.fault = none) :
    ∃ evs, (m.run_handle addr h w).trace = w.trace ++ evs ∧
      (m.run_handle addr h w).output = w.output ∧
      (∀ a r, Event.push a r ∉ evs ∧ Event.push_wait a r ∉ evs) ∧
      ((∃ r, (r = .UDF_OK ∨ r = .UDF_FRAME_MODIFIED) ∧ calls evs = [(h.m_name, some r)] ∧
          (m.run_handle addr h w).frame ≠ none ∧ (m.run_handle addr h w).fault = none ∧
          (m.run_handle addr h w).ret = r ∧ deletes addr evs = 0) ∨
       (∃ r, r ≠ .UDF_OK ∧ r ≠ .UDF_FRAME_MODIFIED ∧ calls evs = [(h.m_name, some r)] ∧
          (m.run_handle addr h w).frame = none ∧ (m.run_handle addr h w).fault = none ∧
          (m.run_handle addr h w).ret = r ∧ deletes addr evs = 1) ∨
       (∃ e, calls evs = [(h.m_name, none)] ∧
          (m.run_handle addr h w).fault = some (.uncaught e) ∧ deletes addr evs = 0)) := by
  have hqe := no_queue_profiling_events m.m_profile addr h.m_prof_entry_key
  have hqx := no_queue_profiling_events m.m_profile addr h.m_prof_exit_key
  have hde := deletes_profiling_events m.m_profile addr addr h.m_prof_entry_key
  have hdx := deletes_profiling_events m.m_profile addr addr h.m_prof_exit_key
  have hce := calls_profiling_events m.m_profile addr h.m_prof_entry_key
  have hcx := calls_profiling_events m.m_profile addr h.m_prof_exit_key
  unfold UdfManager.run_handle
  simp only [hn, hf]
  cases hp : h.process (DO_PROFILING m.m_profile f h.m_prof_entry_key) with
  | error e =>
    refine ⟨profiling_events m.m_profile addr h.m_prof_entry_key ++
      [.process_threw addr h.m_name e], by simp, by simp, ?_, ?_⟩
    · intro a r
      simp only [List.mem_append, List.mem_singleton, not_or]
      exact ⟨⟨(hqe a r).1, by simp⟩, ⟨(hqe a r).2, by simp⟩⟩
    · right; right
      refine ⟨e, ?_, by simp, ?_⟩
      · rw [calls_append, hce]; simp [calls, Event.call]
      · rw [deletes_append, hde]; simp [deletes]
  | ok res =>
    obtain ⟨ret, f2⟩ := res
    obtain ⟨body, hbody⟩ : ∃ b, b = profiling_events m.m_profile addr h.m_prof_entry_key ++
        [Event.process addr h.m_name ret] ++
        profiling_events m.m_profile addr h.m_prof_exit_key := ⟨_, rfl⟩
    have hcalls : calls body = [(h.m_name, some ret)] := by
      rw [hbody, calls_append, calls_append, hce, hcx]
      simp [calls, Event.call]
    have hdel : deletes addr body = 0 := by
      rw [hbody, deletes_append, deletes_append, hde, hdx]; simp [deletes]
    have hq : ∀ a r, Event.push a r ∉ body ∧ Event.push_wait a r ∉ body := by
      intro a r
      rw [hbody]
      simp only [List.mem_append, List.mem_singleton, not_or]
      exact ⟨⟨⟨(hqe a r).1, by simp⟩, (hqx a r).1⟩, ⟨⟨(hqe a r).2, by simp⟩, (hqx a r).2⟩⟩
    have hcd : calls (body ++ [Event.delete_frame addr]) = [(h.m_name, some ret)] := by
      rw [calls_append, hcalls]; simp [calls, Event.call]
    have hdd : deletes addr (body ++ [Event.delete_frame addr]) = 1 := by
      rw [deletes_append, hdel]; simp [deletes]
    have hqd : ∀ a r, Event.push a r ∉ body ++ [Event.delete_frame addr] ∧
        Event.push_wait a r ∉ body ++ [Event.delete_frame addr] := by
      intro a r
      simp only [List.mem_append, List.mem_singleton, not_or]
      exact ⟨⟨(hq a r).1, by simp⟩, ⟨(hq a r).2, by simp⟩⟩
    cases ret with
    | UDF_OK =>
      refine ⟨body, by simp [check_ret, hbody], by simp [check_ret], hq, Or.inl ?_⟩
      exact ⟨.UDF_OK, by simp, hcalls, by simp [check_ret], by simp [check_ret, hn],
        by simp [check_ret], hdel⟩
    | UDF_FRAME_MODIFIED =>
      refine ⟨body, by simp [check_ret, hbody], by simp [check_ret], hq, Or.inl ?_⟩
      exact ⟨.UDF_FRAME_MODIFIED, by simp, hcalls, by simp [check_ret],
        by simp [check_ret, hn], by simp [check_ret], hdel⟩
    | UDF_DROP_FRAME =>
      refine ⟨body ++ [.delete_frame addr], by simp [check_ret, hbody], by simp [check_ret],
        hqd, Or.inr (Or.inl ?_)⟩
      exact ⟨.UDF_DROP_FRAME, by simp, by simp, hcd, by simp [check_ret],
        by simp [check_ret, hn], by simp [check_ret], hdd⟩
    | UDF_ERROR =>
      refine ⟨body ++ [.delete_frame addr], by simp [check_ret, hbody], by simp [check_ret],
        hqd, Or.inr (Or.inl ?_)⟩
      exact ⟨.UDF_ERROR, by simp, by simp, hcd, by simp [check_ret],
        by simp [check_ret, hn], by simp [check_ret], hdd⟩
    | unrecognised c =>
      refine ⟨body ++ [.delete_frame addr], by simp [check_ret, hbody], by simp [check_ret],
        hqd, Or.inr (Or.inl ?_)⟩
      exact ⟨.unrecognised c, by simp, by simp, hcd, by simp [check_ret],
        by simp [check_ret, hn], by simp [check_ret], hdd⟩

/-- The loop over the handles, entered with a live frame, ends in one of three ways.
Kept: every handle was called and returned `UDF_OK` or `UDF_FRAME_MODIFIED`, the frame is
still there, and `ret` is the code of the last call (the value on entry for an empty list).
Dropped: the last call returned another code, which is `ret`, and the frame was deleted
exactly once. Threw: the last call threw. In each case the calls before the last one returned
keeping codes, the loop made no queue operation and left the output queue alone. -/
theorem run_handles_outcome (m : UdfManager) (addr : Nat) (hs : List UdfHandle) (w : Worker)
    (f : Frame) (hf : w.frame = some f) (hn : w.fault = none) :
    ∃ evs, (m.run_handles addr hs w).trace = w.trace ++ evs ∧
      (m.run_handles addr hs w).output = w.output ∧
      (∀ a r, Event.push a r ∉ evs ∧ Event.push_wait a r ∉ evs) ∧
      (((∀ c ∈ calls evs, c.2 = some .UDF_OK ∨ c.2 = some .UDF_FRAME_MODIFIED) ∧
          (calls evs).map Prod.fst = hs.map (fun h => h.m_name) ∧
          (m.run_handles addr hs w).frame ≠ none ∧ (m.run_handles addr hs w).fault = none ∧
          deletes addr evs = 0 ∧
          ((hs = [] ∧ (m.run_handles addr hs w).ret = w.ret) ∨
            ∃ init udf, calls evs = init ++ [(udf, some (m.run_handles addr hs w).ret)])) ∨
       (∃ init udf r, calls evs = init ++ [(udf, some r)] ∧
          (∀ c ∈ init, c.2 = some .UDF_OK ∨ c.2 = some .UDF_FRAME_MODIFIED) ∧
          r ≠ .UDF_OK ∧ r ≠ .UDF_FRAME_MODIFIED ∧
          (m.run_handles addr hs w).frame = none ∧ (m.run_handles addr hs w).fault = none ∧
          (m.run_handles addr hs w).ret = r ∧ deletes addr evs = 1) ∨
       (∃ init udf e, calls evs = init ++ [(udf, none)] ∧
          (∀ c ∈ init, c.2 = some .UDF_OK ∨ c.2 = some .UDF_FRAME_MODIFIED) ∧
          (m.run_handles addr hs w).fault = some (.uncaught e) ∧ deletes addr evs = 0)) := by
  induction hs generalizing w f with
  | nil =>
    refine ⟨[], by simp [UdfManager.run_handles], by simp [UdfManager.run_handles], by simp,
      Or.inl ?_⟩
    simp [UdfManager.run_handles, calls, deletes, hf, hn]
  | cons h rest ih =>
    obtain ⟨evs1, ht1, ho1, hq1, hcase1⟩ := run_handle_outcome m addr h w f hf hn
    simp only [UdfManager.run_handles]
    rcases hcase1 with ⟨r, hr, hc1, hfr1, hfa1, hret1, hd1⟩ |
        ⟨r, hr1, hr2, hc1, hfr1, hfa1, hret1, hd1⟩ | ⟨e, hc1, hfa1, hd1⟩
    · -- the call kept the frame: go on with the rest of the list
      obtain ⟨f1, hf1⟩ : ∃ f1, (m.run_handle addr h w).frame = some f1 := by
        cases hfr : (m.run_handle addr h w).frame with
        | none => exact absurd hfr hfr1
        | some f1 => exact ⟨f1, rfl⟩
      obtain ⟨evs2, ht2, ho2, hq2, hcase2⟩ := ih (m.run_handle addr h w) f1 hf1 hfa1
      have hkeep : (h.m_name, some r).2 = some UdfRetCode.UDF_OK ∨
          (h.m_name, some r).2 = some UdfRetCode.UDF_FRAME_MODIFIED := by
        rcases hr with hr | hr <;> simp [hr]
      refine ⟨evs1 ++ evs2, by rw [ht2, ht1, List.append_assoc], by rw [ho2, ho1], ?_, ?_⟩
      · intro a r0
        simp only [List.mem_append, not_or]
        exact ⟨⟨(hq1 a r0).1, (hq2 a r0).1⟩, ⟨(hq1 a r0).2, (hq2 a r0).2⟩⟩
      · rcases hcase2 with ⟨hall, hnames, hfr2, hfa2, hd2, hret2⟩ |
            ⟨init, udf, r2, hc2, hinit, hr21, hr22, hfr2, hfa2, hret2, hd2⟩ |
            ⟨init, udf, e, hc2, hinit, hfa2, hd2⟩
        · left
          refine ⟨?_, ?_, hfr2, hfa2, ?_, Or.inr ?_⟩
          · intro c hc
            rw [calls_append, hc1] at hc
            rcases List.mem_append.mp hc with hc | hc
            · simp only [List.mem_singleton] at hc
              rw [hc]; exact hkeep
            · exact hall c hc
          · rw [calls_append, hc1]; simp [hnames]
          · rw [deletes_append, hd1, hd2]
          · rcases hret2 with ⟨hnil, hret2⟩ | ⟨init, udf, hc2⟩
            · refine ⟨[], h.m_name, ?_⟩
              have hcn : calls evs2 = [] := by
                rw [hnil] at hnames
                simpa using hnames
              rw [calls_append, hc1, hcn, hret2, hret1]
              rfl
            · refine ⟨(h.m_name, some r) :: init, udf, ?_⟩
              rw [calls_append, hc1, hc2]
              rfl
        · right; left
          refine ⟨(h.m_name, some r) :: init, udf, r2, ?_, ?_, hr21, hr22, hfr2, hfa2, hret2, ?_⟩
          · rw [calls_append, hc1, hc2]; rfl
          · intro c hc
            rcases List.mem_cons.mp hc with hc | hc
            · rw [hc]; exact hkeep
            · exact hinit c hc
          · rw [deletes_append, hd1, hd2]
        · right; right
          refine ⟨(h.m_name, some r) :: init, udf, e, ?_, ?_, hfa2, ?_⟩
          · rw [calls_append, hc1, hc2]; rfl
          · intro c hc
            rcases List.mem_cons.mp hc with hc | hc
            · rw [hc]; exact hkeep
            · exact hinit c hc
          · rw [deletes_append, hd1, hd2]
    · -- the call dropped the frame: the rest of the list is skipped
      have hstop := run_handles_idle m addr rest _ (Or.inl hfr1)
      rw [hstop]
      refine ⟨evs1, ht1, ho1, hq1, Or.inr (Or.inl ?_)⟩
      exact ⟨[], h.m_name, r, by simpa using hc1, by simp, hr1, hr2, hfr1, hfa1, hret1, hd1⟩
    · -- the call threw
      have hstop := run_handles_idle m addr rest (m.run_handle addr h w)
        (Or.inr (by rw [hfa1]; simp))
      rw [hstop]
      refine ⟨evs1, ht1, ho1, hq1, Or.inr (Or.inr ?_)⟩
      exact ⟨[], h.m_name, e, by simpa using hc1, by simp, hfa1, hd1⟩

/-! ## OK and FRAME_MODIFIED -/

/-- C2 (the code at the failing input). With one handle that returns `UDF_OK` the frame is
handed to the output queue; with the same handle returning `UDF_FRAME_MODIFIED` the worker
makes the call and nothing else: the frame is not pushed. -/
theorem frame_modified_last_is_not_pushed :
    ((sample_manager [const_udf "udf" .UDF_OK] false).run open_queue
        [.popped (some (sample_frame 1))]).output = [sample_frame 1] ∧
    ((sample_manager [const_udf "udf" .UDF_FRAME_MODIFIED] false).run open_queue
        [.popped (some (sample_frame 1))]).output = [] ∧
    ((sample_manager [const_udf "udf" .UDF_FRAME_MODIFIED] false).run open_queue
        [.popped (some (sample_frame 1))]).trace =
      [.process 1 "udf" .UDF_FRAME_MODIFIED] := by
  decide

/-- C3 (the code at the failing input). A frame whose last verdict is `UDF_FRAME_MODIFIED` is
neither handed to the output queue nor deleted, and the worker is still running. -/
theorem frame_modified_last_is_leaked :
    handovers 1 ((sample_manager [const_udf "udf" .UDF_FRAME_MODIFIED] false).run open_queue
        [.popped (some (sample_frame 1))]).trace = 0 ∧
    deletes 1 ((sample_manager [const_udf "udf" .UDF_FRAME_MODIFIED] false).run open_queue
        [.popped (some (sample_frame 1))]).trace = 0 ∧
    ((sample_manager [const_udf "udf" .UDF_FRAME_MODIFIED] false).run open_queue
        [.popped (some (sample_frame 1))]).fault = none := by
  decide

/-! ## Dropped frames -/

theorem fix_encoding_quiet (m : UdfManager) (addr : Nat) (f : Frame) (t : EncodeType)
    (l : Int) (a : Nat) :
    deletes a (m.fix_encoding addr f t l).2 = 0 ∧
      ∀ r, Event.push a r ∉ (m.fix_encoding addr f t l).2 ∧
        Event.push_wait a r ∉ (m.fix_encoding addr f t l).2 := by
  unfold UdfManager.fix_encoding
  split
  · split <;> simp [deletes]
  · simp [deletes]

/-- C4. When, in one pass of a running worker, some call of `process` returns
`UDF_DROP_FRAME` or `UDF_ERROR`, the pass deletes the frame exactly once, makes no `push` and
no `push_wait`, leaves the output queue as it was, and the worker goes on with the next
iteration of its loop. -/
theorem dropped_frame_deleted_once_and_loop_goes_on (m : UdfManager) (q : FrameQueue)
    (w : Worker) (p : FramePtr) (evs : List Event) (hw : w.fault = none)
    (ht : (m.process_frame q w (some p)).trace = w.trace ++ evs)
    (hdrop : ∃ udf, (udf, some UdfRetCode.UDF_DROP_FRAME) ∈ calls evs ∨
      (udf, some UdfRetCode.UDF_ERROR) ∈ calls evs) :
    deletes p.addr evs = 1 ∧
      (∀ a r, Event.push a r ∉ evs ∧ Event.push_wait a r ∉ evs) ∧
      (m.process_frame q w (some p)).output = w.output ∧
      (m.process_frame q w (some p)).fault = none ∧
      ∀ rest, m.run_loop q (.popped (some p) :: rest) w =
        m.run_loop q rest (m.process_frame q w (some p)) := by
  have hloop : ∀ rest, m.run_loop q (.popped (some p) :: rest) w =
      m.run_loop q rest (m.process_frame q w (some p)) := by
    intro rest
    simp [UdfManager.run_loop, hw]
  obtain ⟨udf, hdrop⟩ := hdrop
  cases hgt : p.obj.get_encode_type 0 with
  | error e =>
    rw [process_frame_type_error m q w p e hgt] at ht
    have he : evs = [] := by simpa using ht
    rw [he] at hdrop
    simp [calls] at hdrop
  | ok enc_type =>
    cases hgl : p.obj.get_encode_level 0 with
    | error e =>
      rw [process_frame_level_error m q w p enc_type e hgt hgl] at ht
      have he : evs = [] := by simpa using ht
      rw [he] at hdrop
      simp [calls] at hdrop
    | ok enc_lvl =>
      rw [process_frame_ok m q w p enc_type enc_lvl hgt hgl] at ht ⊢
      obtain ⟨hfc, _⟩ := fix_encoding_events m p.addr p.obj enc_type enc_lvl
      obtain ⟨hfd, hfq⟩ := fix_encoding_quiet m p.addr p.obj enc_type enc_lvl p.addr
      obtain ⟨evs1, ht1, ho1, hq1, hcase⟩ := run_handles_outcome m p.addr m.m_udfs
        { w with frame := some (m.fix_encoding p.addr p.obj enc_type enc_lvl).1,
                 trace := w.trace ++ (m.fix_encoding p.addr p.obj enc_type enc_lvl).2 }
        (m.fix_encoding p.addr p.obj enc_type enc_lvl).1 rfl hw
      rcases hcase with ⟨hall, _, _, _, _, _⟩ |
          ⟨init, udf1, r, hc, hinit, hr1, hr2, hfr, hfa, hret, hd⟩ |
          ⟨init, udf1, e, hc, hinit, hfa, hd⟩
      · -- every call kept the frame: no call returned a dropping code
        exfalso
        have hpush := push_frame_events m q p.addr (m.run_handles p.addr m.m_udfs
          { w with frame := some (m.fix_encoding p.addr p.obj enc_type enc_lvl).1,
                   trace := w.trace ++ (m.fix_encoding p.addr p.obj enc_type enc_lvl).2 })
        obtain ⟨evs2, ht2, hc2, _⟩ := hpush
        rw [ht2, ht1] at ht
        have he : evs = (m.fix_encoding p.addr p.obj enc_type enc_lvl).2 ++ evs1 ++ evs2 := by
          simp only [List.append_assoc] at ht
          simp only [List.append_assoc]
          exact (List.append_cancel_left ht).symm
        have hce : calls evs = calls evs1 := by
          rw [he, calls_append, calls_append, hfc, hc2]; simp
        rw [hce] at hdrop
        rcases hdrop with h | h
        · have := hall _ h
          simp at this
        · have := hall _ h
          simp at this
      · -- the last call dropped the frame
        have hne : (m.run_handles p.addr m.m_udfs
            { w with frame := some (m.fix_encoding p.addr p.obj enc_type enc_lvl).1,
                     trace := w.trace ++ (m.fix_encoding p.addr p.obj enc_type enc_lvl).2 }).ret
            ≠ .UDF_OK := by rw [hret]; exact hr1
        rw [push_frame_of_ret m q p.addr _ hne] at ht ⊢
        rw [ht1] at ht
        have he : evs = (m.fix_encoding p.addr p.obj enc_type enc_lvl).2 ++ evs1 := by
          simp only [List.append_assoc] at ht
          exact (List.append_cancel_left ht).symm
        refine ⟨?_, ?_, ho1, hfa, ?_⟩
        · rw [he, deletes_append, hfd, hd]
        · intro a r0
          obtain ⟨_, hfqa⟩ := fix_encoding_quiet m p.addr p.obj enc_type enc_lvl a
          rw [he]
          simp only [List.mem_append, not_or]
          exact ⟨⟨(hfqa r0).1, (hq1 a r0).1⟩, ⟨(hfqa r0).2, (hq1 a r0).2⟩⟩
        · intro rest
          rw [hloop rest, process_frame_ok m q w p enc_type enc_lvl hgt hgl,
            push_frame_of_ret m q p.addr _ hne]
      · -- the last call threw: no call returned a dropping code
        exfalso
        have hne : (m.run_handles p.addr m.m_udfs
            { w with frame := some (m.fix_encoding p.addr p.obj enc_type enc_lvl).1,
                     trace := w.trace ++ (m.fix_encoding p.addr p.obj enc_type enc_lvl).2 }).fault
            ≠ none := by rw [hfa]; simp
        rw [push_frame_of_fault m q p.addr _ hne, ht1] at ht
        have he : evs = (m.fix_encoding p.addr p.obj enc_type enc_lvl).2 ++ evs1 := by
          simp only [List.append_assoc] at ht
          exact (List.append_cancel_left ht).symm
        have hce : calls evs = init ++ [(udf1, none)] := by
          rw [he, calls_append, hfc, hc]; simp
        rw [hce] at hdrop
        rcases hdrop with h | h
        · rcases List.mem_append.mp h with h | h
          · have := hinit _ h
            simp at this
          · simp at h
        · rcases List.mem_append.mp h with h | h
          · have := hinit _ h
            simp at this
          · simp at h

/-- C4, at a concrete input: the second of three handles returns `UDF_DROP_FRAME`. -/
theorem dropped_frame_deleted_once_and_loop_goes_on_witness :
    deletes 1 [Event.process 1 "a" .UDF_OK, .process 1 "b" .UDF_DROP_FRAME, .delete_frame 1]
        = 1 ∧
      (sample_manager [const_udf "a" .UDF_OK, const_udf "b" .UDF_DROP_FRAME,
          const_udf "c" .UDF_OK] false).run_loop open_queue
          [.popped (some (sample_frame 1)), .popped (some (sample_frame 2))] Worker.start =
        (sample_manager [const_udf "a" .UDF_OK, const_udf "b" .UDF_DROP_FRAME,
          const_udf "c" .UDF_OK] false).run_loop open_queue [.popped (some (sample_frame 2))]
          ((sample_manager [const_udf "a" .UDF_OK, const_udf "b" .UDF_DROP_FRAME,
            const_udf "c" .UDF_OK] false).process_frame open_queue Worker.start
            (some (sample_frame 1))) :=
  have h := dropped_frame_deleted_once_and_loop_goes_on
    (sample_manager [const_udf "a" .UDF_OK, const_udf "b" .UDF_DROP_FRAME,
      const_udf "c" .UDF_OK] false) open_queue Worker.start (sample_frame 1)
    [Event.process 1 "a" .UDF_OK, .process 1 "b" .UDF_DROP_FRAME, .delete_frame 1]
    rfl (by decide) ⟨"b", Or.inl (by decide)⟩
  ⟨h.1, h.2.2.2.2 [.popped (some (sample_frame 2))]⟩

/-! ## The push block -/

/-- C8. For a frame kept for the output queue (no fault, `ret == UDF_OK`, `frame` not
`NULL`), the first queue operation of the push block is the non-blocking `push`, made once.
`push_wait` is called if and only if that `push` returned `QUEUE_FULL`; the frame is deleted
if and only if `push_wait` was called and returned something other than `SUCCESS`, and then
once; when `push` returns `SUCCESS` nothing follows it, neither `push_wait` nor the
blocked-queue timestamp. -/
theorem push_block_protocol (m : UdfManager) (q : FrameQueue) (addr : Nat) (w : Worker)
    (f : Frame) (hn : w.fault = none) (hr : w.ret = .UDF_OK) (hf : w.frame = some f) :
    ∃ rest, (m.push_frame q addr w).trace =
        w.trace ++ profiling_events m.m_profile addr m.m_udf_push_entry_key ++
          Event.push addr (q.push addr) :: rest ∧
      (∀ a r, Event.push a r ∉ rest) ∧
      ((∃ r, Event.push_wait addr r ∈ rest) ↔ q.push addr = .QUEUE_FULL) ∧
      (∀ a r, Event.push_wait a r ∈ rest → a = addr ∧ r = q.push_wait addr) ∧
      (Event.delete_frame addr ∈ rest ↔
        ∃ r, Event.push_wait addr r ∈ rest ∧ r ≠ .SUCCESS) ∧
      deletes addr rest ≤ 1 ∧
      (q.push addr = .SUCCESS → rest = []) := by
  have hmb := mem_profiling_events m.m_profile addr m.m_udf_push_block_key
  have hdb := deletes_profiling_events m.m_profile addr addr m.m_udf_push_block_key
  rcases push_frame_cases q addr w with h | h | ⟨_, _, h | ⟨f1, hf1, h | h | h | h⟩⟩
  · exact absurd hn h
  · exact absurd hr h
  · rw [hf] at h; cases h
  · refine ⟨[], ?_, by simp, ?_, by simp, by simp, by simp [deletes], by simp⟩
    · rw [push_frame_success m q addr w f1 hn hr hf1 h, h]
    · simp [h]
  · refine ⟨[], ?_, by simp, ?_, by simp, by simp, by simp [deletes], by simp⟩
    · rw [push_frame_refused m q addr w f1 hn hr hf1 h.1 h.2]
    · simp [h.2]
  · refine ⟨Event.push_wait addr .SUCCESS ::
        profiling_events m.m_profile addr m.m_udf_push_block_key, ?_, ?_, ?_, ?_, ?_, ?_, ?_⟩
    · rw [push_frame_full_success m q addr w f1 hn hr hf1 h.1 h.2, h.1]
      simp
    · intro a r hmem
      rcases List.mem_cons.mp hmem with hm | hm
      · cases hm
      · have := hmb _ hm; cases this
    · simp [h.1]
    · intro a r hmem
      rcases List.mem_cons.mp hmem with hm | hm
      · cases hm; exact ⟨rfl, h.2.symm⟩
      · have := hmb _ hm; cases this
    · constructor
      · intro hmem
        rcases List.mem_cons.mp hmem with hm | hm
        · cases hm
        · have := hmb _ hm; cases this
      · rintro ⟨r, hmem, hne⟩
        rcases List.mem_cons.mp hmem with hm | hm
        · cases hm; exact absurd rfl hne
        · have := hmb _ hm; cases this
    · have : deletes addr (Event.push_wait addr .SUCCESS ::
          profiling_events m.m_profile addr m.m_udf_push_block_key) = 0 := by
        have := deletes_append addr [Event.push_wait addr .SUCCESS]
          (profiling_events m.m_profile addr m.m_udf_push_block_key)
        rw [hdb] at this
        simpa [deletes] using this
      omega
    · intro hs; rw [h.1] at hs; cases hs
  · refine ⟨Event.push_wait addr (q.push_wait addr) :: Event.delete_frame addr ::
        profiling_events m.m_profile addr m.m_udf_push_block_key, ?_, ?_, ?_, ?_, ?_, ?_, ?_⟩
    · rw [push_frame_full_failed m q addr w f1 hn hr hf1 h.1 h.2, h.1]
      simp
    · intro a r hmem
      rcases List.mem_cons.mp hmem with hm | hm
      · cases hm
      · rcases List.mem_cons.mp hm with hm | hm
        · cases hm
        · have := hmb _ hm; cases this
    · simp [h.1]
    · intro a r hmem
      rcases List.mem_cons.mp hmem with hm | hm
      · cases hm; exact ⟨rfl, rfl⟩
      · rcases List.mem_cons.mp hm with hm | hm
        · cases hm
        · have := hmb _ hm; cases this
    · constructor
      · intro _
        exact ⟨q.push_wait addr, by simp, h.2⟩
      · intro _
        simp
    · have : deletes addr (Event.push_wait addr (q.push_wait addr) :: Event.delete_frame addr ::
          profiling_events m.m_profile addr m.m_udf_push_block_key) = 1 := by
        have := deletes_append addr
          [Event.push_wait addr (q.push_wait addr), Event.delete_frame addr]
          (profiling_events m.m_profile addr m.m_udf_push_block_key)
        rw [hdb] at this
        simpa [deletes] using this
      omega
    · intro hs; rw [h.1] at hs; cases hs

/-- C8, at a concrete input: a queue that is full and whose blocking push fails. -/
theorem push_block_protocol_witness :
    ∃ rest, ((sample_manager [] true).push_frame stuck_queue 1
        { Worker.start with frame := some (sample_frame 1).obj }).trace =
        [] ++ profiling_events (sample_manager [] true).m_profile 1
            (sample_manager [] true).m_udf_push_entry_key ++
          Event.push 1 (stuck_queue.push 1) :: rest ∧
      (∀ a r, Event.push a r ∉ rest) ∧
      ((∃ r, Event.push_wait 1 r ∈ rest) ↔ stuck_queue.push 1 = .QUEUE_FULL) ∧
      (∀ a r, Event.push_wait a r ∈ rest → a = 1 ∧ r = stuck_queue.push_wait 1) ∧
      (Event.delete_frame 1 ∈ rest ↔ ∃ r, Event.push_wait 1 r ∈ rest ∧ r ≠ .SUCCESS) ∧
      deletes 1 rest ≤ 1 ∧
      (stuck_queue.push 1 = .SUCCESS → rest = []) :=
  push_block_protocol (sample_manager [] true) stuck_queue 1
    { Worker.start with frame := some (sample_frame 1).obj } (sample_frame 1).obj rfl rfl rfl

/-! ## The loop over the handles depends on the frame only -/

theorem run_handle_threw (m : UdfManager) (addr : Nat) (h : UdfHandle) (w : Worker) (f : Frame)
    (e : Thrown) (hf : w.frame = some f) (hn : w.fault = none)
    (hp : h.process (DO_PROFILING m.m_profile f h.m_prof_entry_key) = .error e) :
    m.run_handle addr h w =
      { w with frame := some (DO_PROFILING m.m_profile f h.m_prof_entry_key),
               trace := w.trace ++ profiling_events m.m_profile addr h.m_prof_entry_key ++
                 [.process_threw addr h.m_name e],
               fault := some (.uncaught e) } := by
  unfold UdfManager.run_handle
  simp only [hn, hf, hp]

theorem run_handle_returned (m : UdfManager) (addr : Nat) (h : UdfHandle) (w : Worker)
    (f f2 : Frame) (ret : UdfRetCode) (hf : w.frame = some f) (hn : w.fault = none)
    (hp : h.process (DO_PROFILING m.m_profile f h.m_prof_entry_key) = .ok (ret, f2)) :
    m.run_handle addr h w =
      check_ret addr ret (DO_PROFILING m.m_profile f2 h.m_prof_exit_key)
        { w with ret := ret,
                 trace := w.trace ++ profiling_events m.m_profile addr h.m_prof_entry_key ++
                   [.process addr h.m_name ret] ++
                   profiling_events m.m_profile addr h.m_prof_exit_key } := by
  unfold UdfManager.run_handle
  simp only [hn, hf, hp]

/-- One visit of the loop body from two worker states with the same `frame` and fault gives
the same `frame`, fault and new events; it gives the same `ret` when the states agree on
`ret`, or when the call was made and returned. -/
theorem run_handle_congr (m : UdfManager) (addr : Nat) (h : UdfHandle) (w w' : Worker)
    (hfr : w.frame = w'.frame) (hfa : w.fault = w'.fault) :
    (m.run_handle addr h w).frame = (m.run_handle addr h w').frame ∧
      (m.run_handle addr h w).fault = (m.run_handle addr h w').fault ∧
      (w.ret = w'.ret ∨ (w.frame ≠ none ∧ w.fault = none ∧ (m.run_handle addr h w).fault = none) →
        (m.run_handle addr h w).ret = (m.run_handle addr h w').ret) ∧
      ∃ evs, (m.run_handle addr h w).trace = w.trace ++ evs ∧
        (m.run_handle addr h w').trace = w'.trace ++ evs := by
  by_cases hidle : w.frame = none ∨ w.fault ≠ none
  · have hidle' : w'.frame = none ∨ w'.fault ≠ none := by
      rw [← hfr, ← hfa]; exact hidle
    rw [run_handle_idle m addr h w hidle, run_handle_idle m addr h w' hidle']
    refine ⟨hfr, hfa, ?_, [], by simp, by simp⟩
    rintro (h1 | ⟨h2, h3, _⟩)
    · exact h1
    · rcases hidle with hi | hi
      · exact absurd hi h2
      · exact absurd h3 hi
  · have hn : w.fault = none := by
      by_contra hne
      exact hidle (Or.inr hne)
    have hn' : w'.fault = none := by rw [← hfa]; exact hn
    cases hf : w.frame with
    | none => exact absurd (Or.inl hf) hidle
    | some f =>
      have hf' : w'.frame = some f := by rw [← hfr]; exact hf
      cases hp : h.process (DO_PROFILING m.m_profile f h.m_prof_entry_key) with
      | error e =>
        rw [run_handle_threw m addr h w f e hf hn hp, run_handle_threw m addr h w' f e hf' hn' hp]
        refine ⟨rfl, rfl, ?_, profiling_events m.m_profile addr h.m_prof_entry_key ++
          [.process_threw addr h.m_name e], by simp, by simp⟩
        rintro (h1 | ⟨_, _, h3⟩)
        · exact h1
        · simp at h3
      | ok res =>
        obtain ⟨ret, f2⟩ := res
        rw [run_handle_returned m addr h w f f2 ret hf hn hp,
          run_handle_returned m addr h w' f f2 ret hf' hn' hp]
        cases ret <;> simp [check_ret, hn, hn']

theorem run_handles_fault_of_fault (m : UdfManager) (addr : Nat) (hs : List UdfHandle)
    (w : Worker) (hw : w.fault ≠ none) : (m.run_handles addr hs w).fault ≠ none := by
  rw [run_handles_idle m addr hs w (Or.inr hw)]
  exact hw

/-- The loop over the handles from two worker states with the same `frame` and fault gives the
same `frame`, fault and new events; it gives the same `ret` when the states agree on `ret`,
or when the list is not empty, the loop was entered with a frame and no call threw. -/
theorem run_handles_congr (m : UdfManager) (addr : Nat) (hs : List UdfHandle) (w w' : Worker)
    (hfr : w.frame = w'.frame) (hfa : w.fault = w'.fault) :
    (m.run_handles addr hs w).frame = (m.run_handles addr hs w').frame ∧
      (m.run_handles addr hs w).fault = (m.run_handles addr hs w').fault ∧
      (w.ret = w'.ret ∨ (hs ≠ [] ∧ w.frame ≠ none ∧ w.fault = none ∧
          (m.run_handles addr hs w).fault = none) →
        (m.run_handles addr hs w).ret = (m.run_handles addr hs w').ret) ∧
      ∃ evs, (m.run_handles addr hs w).trace = w.trace ++ evs ∧
        (m.run_handles addr hs w').trace = w'.trace ++ evs := by
  induction hs generalizing w w' with
  | nil =>
    refine ⟨hfr, hfa, ?_, [], by simp [UdfManager.run_handles], by simp [UdfManager.run_handles]⟩
    rintro (h1 | ⟨h2, _⟩)
    · exact h1
    · exact absurd rfl h2
  | cons h rest ih =>
    obtain ⟨sfr, sfa, sret, sevs, st, st'⟩ := run_handle_congr m addr h w w' hfr hfa
    obtain ⟨ifr, ifa, iret, ievs, it, it'⟩ :=
      ih (m.run_handle addr h w) (m.run_handle addr h w') sfr sfa
    simp only [UdfManager.run_handles]
    refine ⟨ifr, ifa, ?_, sevs ++ ievs, by rw [it, st, List.append_assoc],
      by rw [it', st', List.append_assoc]⟩
    intro hcond
    apply iret
    left
    apply sret
    rcases hcond with h1 | ⟨_, h2, h3, h4⟩
    · exact Or.inl h1
    · right
      refine ⟨h2, h3, ?_⟩
      by_contra hne
      exact run_handles_fault_of_fault m addr rest _ hne h4

/-- When no handle of the list throws, the loop over the handles ends without a fault. -/
theorem run_handles_no_throw (m : UdfManager) (addr : Nat) (hs : List UdfHandle) (w : Worker)
    (hnt : ∀ h ∈ hs, ∀ f, ∃ r f1, h.process f = .ok (r, f1)) (hn : w.fault = none) :
    (m.run_handles addr hs w).fault = none := by
  induction hs generalizing w with
  | nil => simpa [UdfManager.run_handles] using hn
  | cons h rest ih =>
    simp only [UdfManager.run_handles]
    apply ih _ (fun h1 hh1 => hnt h1 (List.mem_cons_of_mem _ hh1))
    cases hfr : w.frame with
    | none => rw [run_handle_idle m addr h w (Or.inl hfr)]; exact hn
    | some f =>
      obtain ⟨r, f1, hp⟩ := hnt h (List.mem_cons_self _ _)
        (DO_PROFILING m.m_profile f h.m_prof_entry_key)
      rw [run_handle_returned m addr h w f f1 r hfr hn hp]
      cases r <;> simp [check_ret, hn]

/-- When every handle of the list returns `UDF_OK` on every frame, the loop over the handles
leaves `ret` at `UDF_OK` if it was so on entry. -/
theorem run_handles_all_ok (m : UdfManager) (addr : Nat) (hs : List UdfHandle) (w : Worker)
    (hok : ∀ h ∈ hs, ∀ f, ∃ f1, h.process f = .ok (.UDF_OK, f1)) (hr : w.ret = .UDF_OK) :
    (m.run_handles addr hs w).ret = .UDF_OK := by
  induction hs generalizing w with
  | nil => simpa [UdfManager.run_handles] using hr
  | cons h rest ih =>
    simp only [UdfManager.run_handles]
    apply ih _ (fun h1 hh1 => hok h1 (List.mem_cons_of_mem _ hh1))
    by_cases hidle : w.frame = none ∨ w.fault ≠ none
    · rw [run_handle_idle m addr h w hidle]; exact hr
    · have hn : w.fault = none := by
        by_contra hne
        exact hidle (Or.inr hne)
      cases hfr : w.frame with
      | none => exact absurd (Or.inl hfr) hidle
      | some f =>
        obtain ⟨f1, hp⟩ := hok h (List.mem_cons_self _ _)
          (DO_PROFILING m.m_profile f h.m_prof_entry_key)
        rw [run_handle_returned m addr h w f f1 .UDF_OK hfr hn hp]
        simp [check_ret]

/-! ## The worker body leaves the views alone -/

theorem DO_PROFILING_payload (p : Profiling) (f : Frame) (key : String) :
    (DO_PROFILING p f key).payload_views = f.payload_views := by
  unfold DO_PROFILING
  split
  · split <;> rfl
  · rfl

theorem set_encoding_payload (rejects : EncodeType → Int → Option Thrown) (f f1 : Frame)
    (t : EncodeType) (l : Int) (h : f.set_encoding rejects t l 0 = .ok f1) :
    f1.payload_views = f.payload_views := by
  unfold Frame.set_encoding at h
  cases hv : f.live_view 0 with
  | error e => rw [hv] at h; cases h
  | ok v =>
    rw [hv] at h
    cases hr : rejects t l with
    | some e => rw [hr] at h; cases h
    | none =>
      rw [hr] at h
      simp only [Except.ok.injEq] at h
      rw [← h]
      unfold Frame.live_view at hv
      split at hv
      · cases hv
      · cases hfr : f.m_frames with
        | nil => rw [hfr] at hv; simp at hv
        | cons v0 rest =>
          rw [hfr] at hv
          simp at hv
          simp [Frame.payload_views, hfr, FrameData.set_encoding, hv]

theorem fix_encoding_payload (m : UdfManager) (addr : Nat) (f : Frame) (t : EncodeType)
    (l : Int) : (m.fix_encoding addr f t l).1.payload_views = f.payload_views := by
  unfold UdfManager.fix_encoding
  split
  · cases h : f.set_encoding m.set_encoding_rejects m.m_enc_type m.m_enc_lvl 0 with
    | error e => rfl
    | ok f1 => exact set_encoding_payload _ f f1 _ _ h
  · rfl

theorem getters_of_live (f : Frame) (hf : f.live) :
    ∃ t l, f.get_encode_type 0 = .ok t ∧ f.get_encode_level 0 = .ok l := by
  obtain ⟨v, hv, _⟩ := live_view_of_live f hf
  exact ⟨v.m_meta.m_encode_type, v.m_meta.m_encode_level,
    by simp [Frame.get_encode_type, hv, Except.map],
    by simp [Frame.get_encode_level, hv, Except.map]⟩

theorem pushed_frames_append (s t : List Event) :
    pushed_frames (s ++ t) = pushed_frames s ++ pushed_frames t := by
  simp [pushed_frames]

theorem pushed_frames_profiling_events (p : Profiling) (addr : Nat) (key : String) :
    pushed_frames (profiling_events p addr key) = [] := by
  unfold profiling_events pushed_frames
  split <;> simp

theorem pushed_frames_fix_encoding (m : UdfManager) (addr : Nat) (f : Frame) (t : EncodeType)
    (l : Int) : pushed_frames (m.fix_encoding addr f t l).2 = [] := by
  unfold UdfManager.fix_encoding
  split
  · split <;> simp [pushed_frames]
  · simp [pushed_frames]

/-- One pass of a running worker with an empty handle list and `ret == UDF_OK`, on a live
frame: no call of `process`, one `push` of the frame, and the frame the output queue gets
has the views of the popped frame. -/
theorem process_frame_empty (m : UdfManager) (q : FrameQueue) (w : Worker) (p : FramePtr)
    (hempty : m.m_udfs = []) (hlive : p.obj.live) (hn : w.fault = none)
    (hr : w.ret = .UDF_OK) :
    (m.process_frame q w (some p)).fault = none ∧
      (m.process_frame q w (some p)).ret = .UDF_OK ∧
      (∃ evs, (m.process_frame q w (some p)).trace = w.trace ++ evs ∧ calls evs = [] ∧
        pushed_frames evs = [p.addr]) ∧
      ((m.process_frame q w (some p)).output = w.output ∨
        ∃ f1, (m.process_frame q w (some p)).output = w.output ++ [{ addr := p.addr, obj := f1 }] ∧
          f1.payload_views = p.obj.payload_views) ∧
      (q.push p.addr = .SUCCESS →
        ∃ f1, (m.process_frame q w (some p)).output = w.output ++ [{ addr := p.addr, obj := f1 }] ∧
          f1.payload_views = p.obj.payload_views) := by
  obtain ⟨t, l, hgt, hgl⟩ := getters_of_live p.obj hlive
  rw [process_frame_ok m q w p t l hgt hgl, hempty]
  simp only [UdfManager.run_handles]
  obtain ⟨w0, hw0⟩ : ∃ w0 : Worker, w0 = { w with
      frame := some (m.fix_encoding p.addr p.obj t l).1,
      trace := w.trace ++ (m.fix_encoding p.addr p.obj t l).2 } := ⟨_, rfl⟩
  rw [← hw0]
  have h0n : w0.fault = none := by rw [hw0]; exact hn
  have h0r : w0.ret = .UDF_OK := by rw [hw0]; exact hr
  have h0f : w0.frame = some (m.fix_encoding p.addr p.obj t l).1 := by rw [hw0]
  have h0t : w0.trace = w.trace ++ (m.fix_encoding p.addr p.obj t l).2 := by rw [hw0]
  have h0o : w0.output = w.output := by rw [hw0]
  have hfc := (fix_encoding_events m p.addr p.obj t l).1
  have hfp := pushed_frames_fix_encoding m p.addr p.obj t l
  have hpay := fix_encoding_payload m p.addr p.obj t l
  have hce := calls_profiling_events m.m_profile p.addr m.m_udf_push_entry_key
  have hcb := calls_profiling_events m.m_profile p.addr m.m_udf_push_block_key
  have hpe := pushed_frames_profiling_events m.m_profile p.addr m.m_udf_push_entry_key
  have hpb := pushed_frames_profiling_events m.m_profile p.addr m.m_udf_push_block_key
  rcases push_frame_cases q p.addr w0 with h | h | ⟨_, _, h | ⟨f1, hf1, h | h | h | h⟩⟩
  · exact absurd h0n h
  · exact absurd h0r h
  · rw [h0f] at h; cases h
  · rw [push_frame_success m q p.addr w0 f1 h0n h0r hf1 h]
    rw [h0f] at hf1
    simp only [Option.some.injEq] at hf1
    have hv : (DO_PROFILING m.m_profile f1 m.m_udf_push_entry_key).payload_views =
        p.obj.payload_views := by rw [DO_PROFILING_payload, ← hf1, hpay]
    refine ⟨h0n, h0r, ⟨(m.fix_encoding p.addr p.obj t l).2 ++
        (profiling_events m.m_profile p.addr m.m_udf_push_entry_key ++
          [Event.push p.addr .SUCCESS]),
        by rw [h0t]; simp only [List.append_assoc], ?_, ?_⟩,
      Or.inr ⟨_, by rw [h0o], hv⟩, fun _ => ⟨_, by rw [h0o], hv⟩⟩
    · simp only [calls_append, hfc, hce]; simp [calls, Event.call]
    · simp only [pushed_frames_append, hfp, hpe]; simp [pushed_frames]
  · rw [push_frame_refused m q p.addr w0 f1 h0n h0r hf1 h.1 h.2]
    refine ⟨h0n, h0r, ⟨(m.fix_encoding p.addr p.obj t l).2 ++
        (profiling_events m.m_profile p.addr m.m_udf_push_entry_key ++
          [Event.push p.addr (q.push p.addr)]),
        by rw [h0t]; simp only [List.append_assoc], ?_, ?_⟩,
      Or.inl h0o, fun hs => absurd hs h.1⟩
    · simp only [calls_append, hfc, hce]; simp [calls, Event.call]
    · simp only [pushed_frames_append, hfp, hpe]; simp [pushed_frames]
  · rw [push_frame_full_success m q p.addr w0 f1 h0n h0r hf1 h.1 h.2]
    rw [h0f] at hf1
    simp only [Option.some.injEq] at hf1
    have hv : (DO_PROFILING m.m_profile (DO_PROFILING m.m_profile f1 m.m_udf_push_entry_key)
        m.m_udf_push_block_key).payload_views = p.obj.payload_views := by
      rw [DO_PROFILING_payload, DO_PROFILING_payload, ← hf1, hpay]
    refine ⟨h0n, h0r, ⟨(m.fix_encoding p.addr p.obj t l).2 ++
        (profiling_events m.m_profile p.addr m.m_udf_push_entry_key ++
          ([Event.push p.addr .QUEUE_FULL, Event.push_wait p.addr .SUCCESS] ++
            profiling_events m.m_profile p.addr m.m_udf_push_block_key)),
        by rw [h0t]; simp only [List.append_assoc], ?_, ?_⟩,
      Or.inr ⟨_, by rw [h0o], hv⟩, fun hs => ?_⟩
    · simp only [calls_append, hfc, hce, hcb]; simp [calls, Event.call]
    · simp only [pushed_frames_append, hfp, hpe, hpb]; simp [pushed_frames]
    · rw [h.1] at hs; cases hs
  · rw [push_frame_full_failed m q p.addr w0 f1 h0n h0r hf1 h.1 h.2]
    refine ⟨h0n, h0r, ⟨(m.fix_encoding p.addr p.obj t l).2 ++
        (profiling_events m.m_profile p.addr m.m_udf_push_entry_key ++
          ([Event.push p.addr .QUEUE_FULL, Event.push_wait p.addr (q.push_wait p.addr),
              Event.delete_frame p.addr] ++
            profiling_events m.m_profile p.addr m.m_udf_push_block_key)),
        by rw [h0t]; simp only [List.append_assoc], ?_, ?_⟩,
      Or.inl h0o, fun hs => ?_⟩
    · simp only [calls_append, hfc, hce, hcb]; simp [calls, Event.call]
    · simp only [pushed_frames_append, hfp, hpe, hpb]; simp [pushed_frames]
    · rw [h.1] at hs; cases hs

theorem run_loop_stop (m : UdfManager) (q : FrameQueue) (rest : List Tick) (w : Worker) :
    m.run_loop q (.stop :: rest) w = w := by
  unfold UdfManager.run_loop
  cases w.fault <;> rfl

theorem run_loop_timeout (m : UdfManager) (q : FrameQueue) (rest : List Tick) (w : Worker)
    (hn : w.fault = none) : m.run_loop q (.timeout :: rest) w = m.run_loop q rest w := by
  simp [UdfManager.run_loop, hn]

theorem run_loop_popped (m : UdfManager) (q : FrameQueue) (rest : List Tick) (w : Worker)
    (frame : Option FramePtr) (hn : w.fault = none) :
    m.run_loop q (.popped frame :: rest) w = m.run_loop q rest (m.process_frame q w frame) := by
  simp [UdfManager.run_loop, hn]

/-- The loop of a worker with an empty handle list, from a running state with
`ret == UDF_OK`, over live frames. -/
theorem run_loop_empty (m : UdfManager) (q : FrameQueue) (ticks : List Tick) (w : Worker)
    (hempty : m.m_udfs = []) (hlive : ∀ p ∈ popped_frames ticks, p.obj.live)
    (hn : w.fault = none) (hr : w.ret = .UDF_OK) :
    (m.run_loop q ticks w).fault = none ∧
      calls (m.run_loop q ticks w).trace = calls w.trace ∧
      pushed_frames (m.run_loop q ticks w).trace =
        pushed_frames w.trace ++ (popped_frames ticks).map (fun p => p.addr) ∧
      (∀ x ∈ (m.run_loop q ticks w).output, x ∈ w.output ∨
        ∃ p ∈ popped_frames ticks, x.addr = p.addr ∧
          x.obj.payload_views = p.obj.payload_views) ∧
      ((∀ a, q.push a = .SUCCESS) →
        (m.run_loop q ticks w).output.map (fun x => (x.addr, x.obj.payload_views)) =
          w.output.map (fun x => (x.addr, x.obj.payload_views)) ++
            (popped_frames ticks).map (fun p => (p.addr, p.obj.payload_views))) := by
  induction ticks generalizing w with
  | nil => simp [UdfManager.run_loop, popped_frames, hn]
  | cons tick rest ih =>
    cases tick with
    | stop =>
      rw [run_loop_stop]
      simp [popped_frames, hn]
    | timeout =>
      rw [run_loop_timeout m q rest w hn]
      exact ih w (by simpa [popped_frames] using hlive) hn hr
    | popped frame =>
      rw [run_loop_popped m q rest w frame hn]
      cases frame with
      | none =>
        exact ih w (by simpa [popped_frames] using hlive) hn hr
      | some p =>
        have hp : p.obj.live := hlive p (by simp [popped_frames])
        have hrest : ∀ p1 ∈ popped_frames rest, p1.obj.live := by
          intro p1 hp1
          exact hlive p1 (by simp [popped_frames, hp1])
        obtain ⟨sn, sr, ⟨evs, st, sc, sp⟩, so, sq⟩ := process_frame_empty m q w p hempty hp hn hr
        obtain ⟨in1, ic, ip, io, iq⟩ := ih (m.process_frame q w (some p)) hrest sn sr
        refine ⟨in1, ?_, ?_, ?_, ?_⟩
        · rw [ic, st, calls_append, sc]; simp
        · rw [ip, st, pushed_frames_append, sp]; simp [popped_frames]
        · intro x hx
          rcases io x hx with h1 | ⟨p1, hp1, h1⟩
          · rcases so with h2 | ⟨f1, h2, h3⟩
            · left; rw [h2] at h1; exact h1
            · rw [h2] at h1
              rcases List.mem_append.mp h1 with h4 | h4
              · left; exact h4
              · right
                simp only [List.mem_singleton] at h4
                exact ⟨p, by simp [popped_frames], by rw [h4], by rw [h4]; exact h3⟩
          · right
            exact ⟨p1, by simp [popped_frames, hp1], h1⟩
        · intro hq
          obtain ⟨f1, h2, h3⟩ := sq (hq p.addr)
          rw [iq hq, h2]
          simp [popped_frames, h3]

/-- C6. With an empty handle list and live frames in the input queue, the worker calls no
UDF, calls `push` once on every frame it pops, in the order popped, and ends without a
fault; every frame the output queue owns is a popped frame with its views (payload pointer,
width, height, channels) unchanged; and when the queue is never full the output queue holds
exactly the popped frames, in order, with their views unchanged. -/
theorem empty_chain_passes_frames_through (m : UdfManager) (q : FrameQueue) (ticks : List Tick)
    (hempty : m.m_udfs = []) (hlive : ∀ p ∈ popped_frames ticks, p.obj.live) :
    calls (m.run q ticks).trace = [] ∧
      pushed_frames (m.run q ticks).trace = (popped_frames ticks).map (fun p => p.addr) ∧
      (m.run q ticks).fault = none ∧
      (∀ x ∈ (m.run q ticks).output, ∃ p ∈ popped_frames ticks, x.addr = p.addr ∧
        x.obj.payload_views = p.obj.payload_views) ∧
      ((∀ a, q.push a = .SUCCESS) →
        (m.run q ticks).output.map (fun x => (x.addr, x.obj.payload_views)) =
          (popped_frames ticks).map (fun p => (p.addr, p.obj.payload_views))) := by
  obtain ⟨h1, h2, h3, h4, h5⟩ := run_loop_empty m q ticks Worker.start hempty hlive rfl rfl
  refine ⟨by simpa [UdfManager.run, Worker.start, calls] using h2,
    by simpa [UdfManager.run, Worker.start, pushed_frames] using h3, h1, ?_, ?_⟩
  · intro x hx
    rcases h4 x hx with h | h
    · simp [Worker.start] at h
    · exact h
  · intro hq
    simpa [UdfManager.run, Worker.start] using h5 hq

/-- C6, at a concrete input: three frames, a timeout and a `NULL` pop in between. -/
theorem empty_chain_passes_frames_through_witness :
    ((sample_manager [] true).run open_queue
        [.popped (some (sample_frame 1)), .timeout, .popped (some (sample_frame 2)),
          .popped none, .popped (some (sample_frame 3))]).output.map
        (fun x => (x.addr, x.obj.payload_views)) =
      [(1, [(1, 2, 3, 1)]), (2, [(2, 2, 3, 1)]), (3, [(3, 2, 3, 1)])] :=
  (empty_chain_passes_frames_through (sample_manager [] true) open_queue
    [.popped (some (sample_frame 1)), .timeout, .popped (some (sample_frame 2)),
      .popped none, .popped (some (sample_frame 3))] rfl (by decide)).2.2.2.2 (fun _ => rfl)

/-! ## Order of the output with one worker -/

theorem entry_frame_of_getters (m : UdfManager) (p : FramePtr) (t : EncodeType) (l : Int)
    (hgt : p.obj.get_encode_type 0 = .ok t) (hgl : p.obj.get_encode_level 0 = .ok l) :
    m.entry_frame p = (m.fix_encoding p.addr p.obj t l).1 := by
  simp [UdfManager.entry_frame, hgt, hgl]

/-- One pass of a running worker on a live frame, with handles that do not throw and an output
queue that is never full: the frame joins the output queue if and only if the worker keeps
it, and the worker is still running. At the head of every iteration `ret` is `UDF_OK` when the
handle list is empty. -/
theorem process_frame_accepting (m : UdfManager) (q : FrameQueue) (w : Worker) (p : FramePtr)
    (hq : ∀ a, q.push a = .SUCCESS) (hlive : p.obj.live)
    (hnt : ∀ h ∈ m.m_udfs, ∀ f, ∃ r f1, h.process f = .ok (r, f1))
    (hn : w.fault = none) (hinv : m.m_udfs = [] → w.ret = .UDF_OK) :
    (m.process_frame q w (some p)).fault = none ∧
      (m.m_udfs = [] → (m.process_frame q w (some p)).ret = .UDF_OK) ∧
      (m.process_frame q w (some p)).output.map (fun x => x.addr) =
        w.output.map (fun x => x.addr) ++ (if m.keeps_frame p then [p.addr] else []) := by
  obtain ⟨t, l, hgt, hgl⟩ := getters_of_live p.obj hlive
  rw [process_frame_ok m q w p t l hgt hgl]
  obtain ⟨w0, hw0⟩ : ∃ w0 : Worker, w0 = { w with
      frame := some (m.fix_encoding p.addr p.obj t l).1,
      trace := w.trace ++ (m.fix_encoding p.addr p.obj t l).2 } := ⟨_, rfl⟩
  rw [← hw0]
  have h0n : w0.fault = none := by rw [hw0]; exact hn
  have h0r : w0.ret = w.ret := by rw [hw0]
  have h0f : w0.frame = some (m.fix_encoding p.addr p.obj t l).1 := by rw [hw0]
  have h0o : w0.output = w.output := by rw [hw0]
  have han := run_handles_no_throw m p.addr m.m_udfs w0 hnt h0n
  -- the code left in `ret` is the one the frame gets when taken by itself
  have hret : (m.run_handles p.addr m.m_udfs w0).ret = m.chain_ret p := by
    unfold UdfManager.chain_ret
    rw [entry_frame_of_getters m p t l hgt hgl]
    refine (run_handles_congr m p.addr m.m_udfs w0
      { Worker.start with frame := some (m.fix_encoding p.addr p.obj t l).1 }
      (by rw [h0f]) (by rw [h0n]; rfl)).2.2.1 ?_
    by_cases he : m.m_udfs = []
    · left; rw [h0r, hinv he]; rfl
    · right; exact ⟨he, by rw [h0f]; simp, h0n, han⟩
  obtain ⟨evs, _, ho, _, hcase⟩ := run_handles_outcome m p.addr m.m_udfs w0 _ h0f h0n
  have hinv1 : m.m_udfs = [] → (m.run_handles p.addr m.m_udfs w0).ret = .UDF_OK := by
    intro he
    rw [he]
    simp only [UdfManager.run_handles]
    rw [h0r]; exact hinv he
  by_cases hk : (m.run_handles p.addr m.m_udfs w0).ret = .UDF_OK
  · have hkeep : m.keeps_frame p = true := by
      unfold UdfManager.keeps_frame
      rw [← hret]; simp [hk]
    have hfr : ∃ f1, (m.run_handles p.addr m.m_udfs w0).frame = some f1 := by
      rcases hcase with ⟨_, _, hfr, _⟩ | ⟨_, _, r, _, _, hr1, _, _, _, hr, _⟩ |
          ⟨_, _, e, _, _, hfa, _⟩
      · cases hx : (m.run_handles p.addr m.m_udfs w0).frame with
        | none => exact absurd hx hfr
        | some f1 => exact ⟨f1, rfl⟩
      · rw [hr] at hk; exact absurd hk hr1
      · rw [hfa] at han; cases han
    obtain ⟨f1, hf1⟩ := hfr
    rw [push_frame_success m q p.addr _ f1 han hk hf1 (hq p.addr)]
    refine ⟨han, fun _ => hk, ?_⟩
    simp [hkeep, ho, h0o]
  · have hkeep : m.keeps_frame p = false := by
      unfold UdfManager.keeps_frame
      rw [← hret]; simp [hk]
    rw [push_frame_of_ret m q p.addr _ hk]
    refine ⟨han, hinv1, ?_⟩
    simp [hkeep, ho, h0o]

/-- The loop of a running worker over live frames, with handles that do not throw and an
output queue that is never full, appends to the output queue the popped frames it keeps, in
the order popped. -/
theorem run_loop_accepting (m : UdfManager) (q : FrameQueue) (ticks : List Tick) (w : Worker)
    (hq : ∀ a, q.push a = .SUCCESS) (hlive : ∀ p ∈ popped_frames ticks, p.obj.live)
    (hnt : ∀ h ∈ m.m_udfs, ∀ f, ∃ r f1, h.process f = .ok (r, f1))
    (hn : w.fault = none) (hinv : m.m_udfs = [] → w.ret = .UDF_OK) :
    (m.run_loop q ticks w).output.map (fun x => x.addr) =
      w.output.map (fun x => x.addr) ++
        ((popped_frames ticks).filter (fun p => m.keeps_frame p)).map (fun p => p.addr) := by
  induction ticks generalizing w with
  | nil => simp [UdfManager.run_loop, popped_frames]
  | cons tick rest ih =>
    cases tick with
    | stop =>
      rw [run_loop_stop]
      simp [popped_frames]
    | timeout =>
      rw [run_loop_timeout m q rest w hn]
      exact ih w (by simpa [popped_frames] using hlive) hn hinv
    | popped frame =>
      rw [run_loop_popped m q rest w frame hn]
      cases frame with
      | none => exact ih w (by simpa [popped_frames] using hlive) hn hinv
      | some p =>
        have hp : p.obj.live := hlive p (by simp [popped_frames])
        have hrest : ∀ p1 ∈ popped_frames rest, p1.obj.live := by
          intro p1 hp1
          exact hlive p1 (by simp [popped_frames, hp1])
        obtain ⟨sn, sr, so⟩ := process_frame_accepting m q w p hq hp hnt hn hinv
        rw [ih (m.process_frame q w (some p)) hrest sn sr, so]
        by_cases hk : m.keeps_frame p = true
        · simp [popped_frames, hk]
        · simp [popped_frames, hk]

/-- C7. One worker, live frames popped in FIFO order, handles that do not throw and an output
queue that never rejects: the frames handed to the output queue are the popped frames the
worker keeps (those that leave the loop over the handles with `ret == UDF_OK`), in the order
popped; and when every handle returns `UDF_OK` on every frame, they are all the popped
frames, in the order popped. -/
theorem single_worker_output_in_input_order (m : UdfManager) (q : FrameQueue)
    (ticks : List Tick) (hq : ∀ a, q.push a = .SUCCESS)
    (hlive : ∀ p ∈ popped_frames ticks, p.obj.live)
    (hnt : ∀ h ∈ m.m_udfs, ∀ f, ∃ r f1, h.process f = .ok (r, f1)) :
    (m.run q ticks).output.map (fun x => x.addr) =
        ((popped_frames ticks).filter (fun p => m.keeps_frame p)).map (fun p => p.addr) ∧
      ((∀ h ∈ m.m_udfs, ∀ f, ∃ f1, h.process f = .ok (.UDF_OK, f1)) →
        (m.run q ticks).output.map (fun x => x.addr) =
          (popped_frames ticks).map (fun p => p.addr)) := by
  have hmain := run_loop_accepting m q ticks Worker.start hq hlive hnt rfl (fun _ => rfl)
  have hmain1 : (m.run q ticks).output.map (fun x => x.addr) =
      ((popped_frames ticks).filter (fun p => m.keeps_frame p)).map (fun p => p.addr) := by
    simpa [UdfManager.run, Worker.start] using hmain
  refine ⟨hmain1, ?_⟩
  intro hok
  rw [hmain1]
  have hall : ∀ p ∈ popped_frames ticks, m.keeps_frame p = true := by
    intro p _
    have hr := run_handles_all_ok m p.addr m.m_udfs
      { Worker.start with frame := some (m.entry_frame p) } hok rfl
    unfold UdfManager.keeps_frame UdfManager.chain_ret
    simp [hr]
  rw [List.filter_eq_self.mpr hall]

/-- C7, at a concrete input: four frames through the chain of one identity UDF. -/
theorem single_worker_output_in_input_order_witness :
    ((sample_manager [const_udf "id" .UDF_OK] false).run open_queue
        [.popped (some (sample_frame 1)), .popped (some (sample_frame 2)),
          .popped (some (sample_frame 3)), .popped (some (sample_frame 4))]).output.map
        (fun x => x.addr) = [1, 2, 3, 4] :=
  (single_worker_output_in_input_order (sample_manager [const_udf "id" .UDF_OK] false)
    open_queue
    [.popped (some (sample_frame 1)), .popped (some (sample_frame 2)),
      .popped (some (sample_frame 3)), .popped (some (sample_frame 4))]
    (fun _ => rfl) (by decide)
    (fun h hh f => by
      simp only [sample_manager, List.mem_singleton] at hh
      subst hh
      exact ⟨.UDF_OK, f, rfl⟩)).2
    (fun h hh f => by
      simp only [sample_manager, List.mem_singleton] at hh
      subst hh
      exact ⟨f, rfl⟩)

/-! ## Exceptions in the native handle -/

/-- What `NativeUdfHandle::process` does when the UDF throws on a live frame: a value of a
class derived from `std::exception` is turned into `UDF_ERROR` with the frame as it was; any
other value leaves `process`. -/
theorem native_process_threw (h : NativeUdfHandle) (udf : BaseUdf) (out_addr free_fn : Nat)
    (frame : Frame) (e : Thrown) (hudf : h.m_udf = some udf) (hlive : frame.live)
    (hthrow : ∀ a b c, udf.process a b c = .threw e) :
    h.process out_addr free_fn frame =
      if e.is_std_exception then .ok (.UDF_ERROR, frame) else .error (.uncaught e) := by
  obtain ⟨v, hv, hh⟩ := live_view_of_live frame hlive
  have hd : frame.dim_view 0 = .ok v := by
    unfold Frame.dim_view
    cases hfr : frame.m_frames with
    | nil => rw [hfr] at hh; simp at hh
    | cons v0 rest => rw [hfr] at hh; simp at hh; simp [hh]
  unfold NativeUdfHandle.process
  simp only [hd, hv, hudf, hthrow]

/-- C5 (the code at the failing input). A UDF that throws a string literal, as the RealSense
UDF of this repository does, makes `NativeUdfHandle::process` end by that exception, not by
returning `UDF_ERROR`; a UDF that throws a `std::exception` gets `UDF_ERROR` and an untouched
frame; and a worker that calls a handle whose `process` lets the string escape ends with an
uncaught exception, the frames behind it never popped. -/
theorem native_process_lets_string_escape :
    (sample_native (throwing_udf (.c_string "Failed to retrieve depth intrinsics width"))).process
        100 200 (sample_frame 1).obj =
      .error (.uncaught (.c_string "Failed to retrieve depth intrinsics width")) ∧
    (sample_native (throwing_udf (.std_exception "bad"))).process 100 200 (sample_frame 1).obj =
      .ok (.UDF_ERROR, (sample_frame 1).obj) ∧
    ((sample_manager [{ const_udf "bad" .UDF_OK with
          process := fun _ => .error (.c_string "Failed to retrieve depth intrinsics width") }]
        false).run open_queue
        [.popped (some (sample_frame 1)), .popped (some (sample_frame 2))]).fault =
      some (.uncaught (.c_string "Failed to retrieve depth intrinsics width")) := by
  exact ⟨rfl, rfl, by decide⟩

/-! ## Construction -/

/-- An element the constructor cannot load makes its round of the loop throw. -/
theorem load_element_unloadable (env : Collaborators) (service_name : String) (i : Nat)
    (e : ConfigValue) (h : unloadable env e) :
    ∃ steps x, UdfManager.load_element env service_name i (some e) = (steps, .error x) := by
  cases e with
  | object fields =>
    simp only [UdfManager.load_element]
    cases hname : config_value_object_get (.object fields) "name" with
    | none => exact ⟨_, _, rfl⟩
    | some v =>
      cases v with
      | string name =>
        simp only []
        cases hcfg : env.config_new (.object fields) with
        | none => exact ⟨_, _, rfl⟩
        | some cfg =>
          simp only []
          cases hload : env.load name cfg 1 with
          | none => exact ⟨_, _, rfl⟩
          | some handle =>
            exfalso
            rcases h with h | h | ⟨v, h, hv⟩ | ⟨n, h, hl⟩
            · simp [ConfigValue.is_object] at h
            · rw [hname] at h; cases h
            · rw [hname] at h
              simp only [Option.some.injEq] at h
              rw [← h] at hv
              simp [ConfigValue.is_string] at hv
            · rw [hname] at h
              simp only [Option.some.injEq, ConfigValue.string.injEq] at h
              have := hl cfg hcfg
              rw [← h, hload] at this
              cases this
      | integer _ => exact ⟨_, _, rfl⟩
      | floating _ => exact ⟨_, _, rfl⟩
      | boolean _ => exact ⟨_, _, rfl⟩
      | object _ => exact ⟨_, _, rfl⟩
      | array _ => exact ⟨_, _, rfl⟩
      | none => exact ⟨_, _, rfl⟩
  | integer _ => exact ⟨_, _, rfl⟩
  | floating _ => exact ⟨_, _, rfl⟩
  | string _ => exact ⟨_, _, rfl⟩
  | boolean _ => exact ⟨_, _, rfl⟩
  | array _ => exact ⟨_, _, rfl⟩
  | none => exact ⟨_, _, rfl⟩

/-- The loop of the constructor throws when an element it has still to visit cannot be
loaded. -/
theorem load_udfs_unloadable (env : Collaborators) (service_name : String)
    (udfs : List ConfigValue) (remaining i : Nat) (m_udfs : List UdfHandle)
    (h : ∃ j e, i ≤ j ∧ j < i + remaining ∧ udfs.get? j = some e ∧ unloadable env e) :
    ∃ x, (UdfManager.load_udfs env service_name udfs remaining i m_udfs).2 = .error x := by
  induction remaining generalizing i m_udfs with
  | zero =>
    obtain ⟨j, _, h1, h2, _⟩ := h
    omega
  | succ n ih =>
    obtain ⟨j, e, h1, h2, hget, hbad⟩ := h
    simp only [UdfManager.load_udfs]
    cases hres : UdfManager.load_element env service_name i (udfs.get? i) with
    | mk steps res =>
      cases res with
      | error x => exact ⟨x, rfl⟩
      | ok handle =>
        simp only []
        apply ih
        refine ⟨j, e, ?_, by omega, hget, hbad⟩
        by_contra hlt
        have hji : j = i := by omega
        rw [hji] at hget
        rw [hget] at hres
        obtain ⟨s1, x1, hel⟩ := load_element_unloadable env service_name i e hbad
        rw [hel] at hres
        cases hres

/-- C9. Construction of the manager throws for every configuration in which `udfs` is
missing, `udfs` is not an array, `max_workers` is present and not an integer, or some element
of `udfs` is not an object, has no `name`, has a `name` that is not a string, or is one for
which the loader returns `NULL`. -/
theorem construction_fails_on_bad_config (env : Collaborators) (udf_cfg : config_t)
    (service_name : String) (enc_type : EncodeType) (enc_lvl : Int)
    (h : config_get udf_cfg "udfs" = Option.none ∨
      (∃ v, config_get udf_cfg "udfs" = some v ∧ v.is_array = false) ∨
      (∃ v, config_get udf_cfg "max_workers" = some v ∧ v.is_integer = false) ∨
      (∃ elems e, config_get udf_cfg "udfs" = some (.array elems) ∧ e ∈ elems ∧
        unloadable env e)) :
    ∃ x, (UdfManager.new env udf_cfg service_name enc_type enc_lvl).result = .error x := by
  unfold UdfManager.new
  cases hudfs : config_get udf_cfg "udfs" with
  | none => exact ⟨_, rfl⟩
  | some udfs =>
    cases udfs with
    | array elems =>
      simp only []
      cases hmw : UdfManager.read_max_workers udf_cfg with
      | error x => exact ⟨x, rfl⟩
      | ok max_workers =>
        simp only []
        rcases h with h | ⟨v, h, hv⟩ | ⟨v, h, hv⟩ | ⟨elems1, e, h, hmem, hbad⟩
        · rw [hudfs] at h; cases h
        · rw [hudfs] at h
          simp only [Option.some.injEq] at h
          rw [← h] at hv
          simp [ConfigValue.is_array] at hv
        · exfalso
          unfold UdfManager.read_max_workers at hmw
          rw [h] at hmw
          cases v with
          | integer _ => simp [ConfigValue.is_integer] at hv
          | floating _ => cases hmw
          | string _ => cases hmw
          | boolean _ => cases hmw
          | object _ => cases hmw
          | array _ => cases hmw
          | none => cases hmw
        · rw [hudfs] at h
          simp only [Option.some.injEq, ConfigValue.array.injEq] at h
          rw [← h] at hmem
          obtain ⟨j, hj⟩ := List.mem_iff_get?.mp hmem
          have hlt : j < elems.length := by
            by_contra hge
            rw [List.get?_eq_none.mpr (by omega)] at hj
            cases hj
          obtain ⟨x, hx⟩ := load_udfs_unloadable env service_name elems
            (config_value_array_len elems) 0 []
            ⟨j, e, by omega, by simpa [config_value_array_len] using hlt, hj, hbad⟩
          exact ⟨x, by rw [hx]⟩
    | integer _ => exact ⟨_, rfl⟩
    | floating _ => exact ⟨_, rfl⟩
    | string _ => exact ⟨_, rfl⟩
    | boolean _ => exact ⟨_, rfl⟩
    | object _ => exact ⟨_, rfl⟩
    | none => exact ⟨_, rfl⟩

/-- C9, at a concrete input: the second of two UDFs is unknown to the loader. -/
theorem construction_fails_on_bad_config_witness :
    ∃ x, (UdfManager.new sample_collaborators
      (sample_config [.object [("name", .string "dummy")],
        .object [("name", .string "missing")]] Option.none) "svc" .NONE 0).result = .error x :=
  construction_fails_on_bad_config sample_collaborators
    (sample_config [.object [("name", .string "dummy")],
      .object [("name", .string "missing")]] Option.none) "svc" .NONE 0
    (Or.inr (Or.inr (Or.inr ⟨[.object [("name", .string "dummy")],
        .object [("name", .string "missing")]], .object [("name", .string "missing")],
      rfl, by simp, Or.inr (Or.inr (Or.inr ⟨"missing", rfl, fun _ _ => rfl⟩))⟩)))

theorem load_element_steps (env : Collaborators) (service_name : String) (i : Nat)
    (elem : Option ConfigValue) (n : Int) :
    CtorStep.new_executor n ∉ (UdfManager.load_element env service_name i elem).1 := by
  unfold UdfManager.load_element
  split
  · simp
  · split
    · split
      · simp
      · split
        · simp
        · split <;> simp
      · simp
    · simp

theorem load_udfs_steps (env : Collaborators) (service_name : String)
    (udfs : List ConfigValue) (remaining i : Nat) (m_udfs : List UdfHandle) (n : Int) :
    CtorStep.new_executor n ∉
      (UdfManager.load_udfs env service_name udfs remaining i m_udfs).1 := by
  induction remaining generalizing i m_udfs with
  | zero => simp [UdfManager.load_udfs]
  | succ k ih =>
    simp only [UdfManager.load_udfs]
    have hel := load_element_steps env service_name i (udfs.get? i) n
    cases hres : UdfManager.load_element env service_name i (udfs.get? i) with
    | mk steps res =>
      rw [hres] at hel
      cases res with
      | error x => exact hel
      | ok handle =>
        simp only [List.mem_append, not_or]
        exact ⟨hel, ih (i + 1) (m_udfs ++ [handle])⟩

theorem to_int_of_int_range (v : Int) (h1 : -2147483648 ≤ v) (h2 : v ≤ 2147483647) :
    to_int v = v := by
  unfold to_int
  omega

/-- The pool size the constructor passes to the `ThreadExecutor`, for a configuration whose
`udfs` is an array: `max_workers` as read, which is also the size of the executor of the
manager when construction succeeds. -/
theorem new_executor_step (env : Collaborators) (udf_cfg : config_t) (service_name : String)
    (enc_type : EncodeType) (enc_lvl : Int) (elems : List ConfigValue) (max_workers : Int)
    (hudfs : config_get udf_cfg "udfs" = some (.array elems))
    (hmw : UdfManager.read_max_workers udf_cfg = .ok max_workers) :
    (∀ n, CtorStep.new_executor n ∈
        (UdfManager.new env udf_cfg service_name enc_type enc_lvl).steps ↔ n = max_workers) ∧
      ∀ m, (UdfManager.new env udf_cfg service_name enc_type enc_lvl).result = .ok m →
        m.m_executor.max_workers = max_workers := by
  unfold UdfManager.new
  simp only [hudfs, hmw]
  constructor
  · intro n
    have hno := load_udfs_steps env service_name elems (config_value_array_len elems) 0 [] n
    constructor
    · intro hmem
      simp only [List.cons_append, List.nil_append, List.mem_cons] at hmem
      rcases hmem with h | h | h
      · cases h; rfl
      · cases h
      · exact absurd h hno
    · intro hn
      rw [hn]
      simp
  · intro m hm
    cases hl : (UdfManager.load_udfs env service_name elems
        (config_value_array_len elems) 0 []).2 with
    | error x => rw [hl] at hm; cases hm
    | ok handles =>
      rw [hl] at hm
      simp only [Except.ok.injEq] at hm
      rw [← hm]

/-- C10, as amended. For a configuration whose `udfs` is an array, the pool size passed to
the `ThreadExecutor` is 4 when there is no `max_workers` key, and is the configured integer
when `max_workers` is an integer in the range of the C type `int`; for any integer it is
that integer converted to `int`. -/
theorem pool_size_of_config (env : Collaborators) (udf_cfg : config_t) (service_name : String)
    (enc_type : EncodeType) (enc_lvl : Int) (elems : List ConfigValue)
    (hudfs : config_get udf_cfg "udfs" = some (.array elems)) :
    (config_get udf_cfg "max_workers" = Option.none →
      ∀ n, CtorStep.new_executor n ∈
        (UdfManager.new env udf_cfg service_name enc_type enc_lvl).steps ↔ n = 4) ∧
    (∀ v, config_get udf_cfg "max_workers" = some (.integer v) →
      -2147483648 ≤ v → v ≤ 2147483647 →
      ∀ n, CtorStep.new_executor n ∈
        (UdfManager.new env udf_cfg service_name enc_type enc_lvl).steps ↔ n = v) ∧
    (∀ v, config_get udf_cfg "max_workers" = some (.integer v) →
      ∀ n, CtorStep.new_executor n ∈
        (UdfManager.new env udf_cfg service_name enc_type enc_lvl).steps ↔ n = to_int v) := by
  refine ⟨?_, ?_, ?_⟩
  · intro hnone
    have hmw : UdfManager.read_max_workers udf_cfg = .ok 4 := by
      simp [UdfManager.read_max_workers, hnone, DEFAULT_MAX_WORKERS]
    exact (new_executor_step env udf_cfg service_name enc_type enc_lvl elems 4 hudfs hmw).1
  · intro v hv h1 h2
    have hmw : UdfManager.read_max_workers udf_cfg = .ok v := by
      simp [UdfManager.read_max_workers, hv, to_int_of_int_range v h1 h2]
    exact (new_executor_step env udf_cfg service_name enc_type enc_lvl elems v hudfs hmw).1
  · intro v hv
    have hmw : UdfManager.read_max_workers udf_cfg = .ok (to_int v) := by
      simp [UdfManager.read_max_workers, hv]
    exact (new_executor_step env udf_cfg service_name enc_type enc_lvl elems _ hudfs hmw).1

/-- C10 as amended, at a concrete input: `max_workers` is 8. -/
theorem pool_size_of_config_witness :
    CtorStep.new_executor 8 ∈ (UdfManager.new sample_collaborators
      (sample_config [.object [("name", .string "dummy")]] (some (.integer 8)))
      "svc" .NONE 0).steps :=
  ((pool_size_of_config sample_collaborators
    (sample_config [.object [("name", .string "dummy")]] (some (.integer 8))) "svc" .NONE 0
    [.object [("name", .string "dummy")]] rfl).2.1 8 rfl (by decide) (by decide) 8).mpr rfl

/-- C10 as stated fails: with `max_workers` set to 4294967300, an integer, the constructor
creates the executor with 4 workers. -/
theorem pool_size_not_the_configured_integer :
    config_get (sample_config [] (some (.integer 4294967300))) "max_workers" =
        some (.integer 4294967300) ∧
      (UdfManager.new sample_collaborators (sample_config [] (some (.integer 4294967300)))
        "svc" .NONE 0).steps = [.new_executor 4, .new_profiling] := by
  exact ⟨rfl, by decide⟩

/-! ## The handle list after construction -/

theorem load_element_ok (env : Collaborators) (service_name : String) (i : Nat)
    (elem : Option ConfigValue) (steps : List CtorStep) (h : UdfHandle)
    (hres : UdfManager.load_element env service_name i elem = (steps, .ok h)) :
    ∃ e, elem = some e ∧ UdfManager.pushed_for env service_name i e h := by
  cases elem with
  | none => simp [UdfManager.load_element] at hres
  | some e =>
    refine ⟨e, rfl, ?_⟩
    cases e with
    | object fields =>
      simp only [UdfManager.load_element] at hres
      cases hname : config_value_object_get (.object fields) "name" with
      | none => rw [hname] at hres; simp at hres
      | some v =>
        rw [hname] at hres
        cases v with
        | string name =>
          simp only [] at hres
          cases hcfg : env.config_new (.object fields) with
          | none => rw [hcfg] at hres; simp at hres
          | some cfg =>
            rw [hcfg] at hres
            simp only [] at hres
            cases hload : env.load name cfg 1 with
            | none => rw [hload] at hres; simp at hres
            | some handle =>
              rw [hload] at hres
              simp only [Prod.mk.injEq, Except.ok.injEq] at hres
              exact ⟨name, cfg, handle, hname, hcfg, hload, hres.2.symm⟩
        | integer _ => simp at hres
        | floating _ => simp at hres
        | boolean _ => simp at hres
        | object _ => simp at hres
        | array _ => simp at hres
        | none => simp at hres
    | integer _ => simp [UdfManager.load_element] at hres
    | floating _ => simp [UdfManager.load_element] at hres
    | string _ => simp [UdfManager.load_element] at hres
    | boolean _ => simp [UdfManager.load_element] at hres
    | array _ => simp [UdfManager.load_element] at hres
    | none => simp [UdfManager.load_element] at hres

/-- When the loop of the constructor ends without a throw, it has pushed one handle per
round, in order: the handle for the element at the index of that round. -/
theorem load_udfs_ok (env : Collaborators) (service_name : String) (udfs : List ConfigValue)
    (remaining i : Nat) (m_udfs hs : List UdfHandle)
    (hres : (UdfManager.load_udfs env service_name udfs remaining i m_udfs).2 = .ok hs) :
    ∃ pushed, hs = m_udfs ++ pushed ∧ pushed.length = remaining ∧
      ∀ k, k < remaining → ∃ e h, udfs.get? (i + k) = some e ∧ pushed.get? k = some h ∧
        UdfManager.pushed_for env service_name (i + k) e h := by
  induction remaining generalizing i m_udfs with
  | zero =>
    simp only [UdfManager.load_udfs, Except.ok.injEq] at hres
    exact ⟨[], by simp [hres], rfl, fun k hk => absurd hk (by omega)⟩
  | succ n ih =>
    simp only [UdfManager.load_udfs] at hres
    cases hel : UdfManager.load_element env service_name i (udfs.get? i) with
    | mk steps res =>
      rw [hel] at hres
      cases res with
      | error x => simp at hres
      | ok handle =>
        simp only [] at hres
        obtain ⟨e, he, hpushed⟩ := load_element_ok env service_name i _ steps handle hel
        obtain ⟨rest, hhs, hlen, hall⟩ := ih (i + 1) (m_udfs ++ [handle]) hres
        refine ⟨handle :: rest, by simp [hhs], by simp [hlen], ?_⟩
        intro k hk
        cases k with
        | zero => exact ⟨e, handle, by simpa using he, by simp, hpushed⟩
        | succ j =>
          obtain ⟨e1, h1, hg, hp, hpf⟩ := hall j (by omega)
          have hidx : i + (j + 1) = i + 1 + j := by omega
          refine ⟨e1, h1, by rw [hidx]; exact hg, by simpa using hp, by rw [hidx]; exact hpf⟩

/-- The handle list of a manager whose construction succeeded. -/
theorem new_handles (env : Collaborators) (udf_cfg : config_t) (service_name : String)
    (enc_type : EncodeType) (enc_lvl : Int) (elems : List ConfigValue) (m : UdfManager)
    (hudfs : config_get udf_cfg "udfs" = some (.array elems))
    (hok : (UdfManager.new env udf_cfg service_name enc_type enc_lvl).result = .ok m) :
    m.m_udfs.length = elems.length ∧
      ∀ i e, elems.get? i = some e → ∃ h, m.m_udfs.get? i = some h ∧
        UdfManager.pushed_for env service_name i e h := by
  unfold UdfManager.new at hok
  simp only [hudfs] at hok
  cases hmw : UdfManager.read_max_workers udf_cfg with
  | error x => rw [hmw] at hok; simp at hok
  | ok max_workers =>
    rw [hmw] at hok
    simp only [] at hok
    cases hl : (UdfManager.load_udfs env service_name elems
        (config_value_array_len elems) 0 []).2 with
    | error x => rw [hl] at hok; simp at hok
    | ok hs =>
      rw [hl] at hok
      simp only [Except.ok.injEq] at hok
      obtain ⟨pushed, hhs, hlen, hall⟩ := load_udfs_ok env service_name elems _ 0 [] hs hl
      have hm : m.m_udfs = pushed := by rw [← hok]; simpa using hhs
      refine ⟨by rw [hm, hlen]; rfl, ?_⟩
      intro i e he
      have hi : i < config_value_array_len elems := by
        unfold config_value_array_len
        by_contra hge
        rw [List.get?_eq_none.mpr (by omega)] at he
        cases he
      obtain ⟨e1, h1, hg, hp, hpf⟩ := hall i hi
      simp only [Nat.zero_add] at hg hpf
      rw [he] at hg
      simp only [Option.some.injEq] at hg
      rw [← hg] at hpf
      exact ⟨h1, by rw [hm]; exact hp, hpf⟩

/-- C11. When construction succeeds, the handle list has as many handles as the `udfs` array
has elements, and the handle at index `i` is the one the loader returned when called with the
`name` of the element at index `i`, the configuration `config_new` made of that element, and
max-workers hint 1 (with profiling enabled, that handle with its two profiling keys set). -/
theorem handle_list_follows_udfs_array (env : Collaborators) (udf_cfg : config_t)
    (service_name : String) (enc_type : EncodeType) (enc_lvl : Int)
    (elems : List ConfigValue) (m : UdfManager)
    (hudfs : config_get udf_cfg "udfs" = some (.array elems))
    (hok : (UdfManager.new env udf_cfg service_name enc_type enc_lvl).result = .ok m) :
    m.m_udfs.length = elems.length ∧
      ∀ i e, elems.get? i = some e →
        ∃ name cfg handle, config_value_object_get e "name" = some (.string name) ∧
          env.config_new e = some cfg ∧ env.load name cfg 1 = some handle ∧
          m.m_udfs.get? i = some
            (if env.profiling.enabled then
              handle.with_prof_keys name (generate_rand_string RANDOM_STR_LENGTH (env.draw i))
                service_name i
            else handle) := by
  obtain ⟨hlen, hall⟩ := new_handles env udf_cfg service_name enc_type enc_lvl elems m hudfs hok
  refine ⟨hlen, ?_⟩
  intro i e he
  obtain ⟨h, hget, name, cfg, handle, hname, hcfg, hload, hh⟩ := hall i e he
  exact ⟨name, cfg, handle, hname, hcfg, hload, by rw [hget, hh]⟩

/-- C11, at a concrete input: two UDFs, `dummy` and `resize`. -/
theorem handle_list_follows_udfs_array_witness :
    (sample_built sample_collaborators ["dummy", "resize"]).m_udfs.length = 2 ∧
      ∃ name cfg handle,
        config_value_object_get (.object [("name", .string "resize")]) "name" =
          some (.string name) ∧
        sample_collaborators.config_new (.object [("name", .string "resize")]) = some cfg ∧
        sample_collaborators.load name cfg 1 = some handle ∧
        (sample_built sample_collaborators ["dummy", "resize"]).m_udfs.get? 1 = some
          (if sample_collaborators.profiling.enabled then
            handle.with_prof_keys name
              (generate_rand_string RANDOM_STR_LENGTH (sample_collaborators.draw 1)) "svc" 1
          else handle) :=
  have h := handle_list_follows_udfs_array sample_collaborators
    (sample_config [.object [("name", .string "dummy")], .object [("name", .string "resize")]]
      Option.none) "svc" .NONE 0
    [.object [("name", .string "dummy")], .object [("name", .string "resize")]]
    (sample_built sample_collaborators ["dummy", "resize"]) rfl rfl
  ⟨h.1, h.2 1 (.object [("name", .string "resize")]) rfl⟩

/-- C20. When construction succeeds with profiling enabled, the handle at index `i`, for the
element named `n` and service name `s`, has entry key `n_r_s_first_entry` and exit key
`n_r_s_first_exit` when `i = 0`, and `n_r_s_entry` and `n_r_s_exit` when `i > 0`, where `r`
is the one string `generate_rand_string(5)` returned for that handle. -/
theorem profiling_keys_of_handles (env : Collaborators) (udf_cfg : config_t)
    (service_name : String) (enc_type : EncodeType) (enc_lvl : Int)
    (elems : List ConfigValue) (m : UdfManager)
    (hudfs : config_get udf_cfg "udfs" = some (.array elems))
    (hok : (UdfManager.new env udf_cfg service_name enc_type enc_lvl).result = .ok m)
    (hprof : env.profiling.enabled = true) :
    ∀ i e h, elems.get? i = some e → m.m_udfs.get? i = some h →
      ∃ name, config_value_object_get e "name" = some (.string name) ∧
        (i = 0 →
          h.m_prof_entry_key = name ++ "_" ++ generate_rand_string 5 (env.draw i) ++ "_" ++
            service_name ++ "_first_entry" ∧
          h.m_prof_exit_key = name ++ "_" ++ generate_rand_string 5 (env.draw i) ++ "_" ++
            service_name ++ "_first_exit") ∧
        (0 < i →
          h.m_prof_entry_key = name ++ "_" ++ generate_rand_string 5 (env.draw i) ++ "_" ++
            service_name ++ "_entry" ∧
          h.m_prof_exit_key = name ++ "_" ++ generate_rand_string 5 (env.draw i) ++ "_" ++
            service_name ++ "_exit") := by
  obtain ⟨_, hall⟩ := new_handles env udf_cfg service_name enc_type enc_lvl elems m hudfs hok
  intro i e h he hget
  obtain ⟨h1, hget1, name, cfg, handle, hname, _, _, hh⟩ := hall i e he
  rw [hget] at hget1
  simp only [Option.some.injEq] at hget1
  rw [← hget1, hprof] at hh
  simp only [if_true] at hh
  refine ⟨name, hname, ?_, ?_⟩
  · intro hi
    rw [hh]
    simp only [UdfHandle.with_prof_keys, hi, if_true, RANDOM_STR_LENGTH]
    constructor
    · rw [String.append_assoc _ "_first" "_entry"]; rfl
    · rw [String.append_assoc _ "_first" "_exit"]; rfl
  · intro hi
    rw [hh]
    have hne : i ≠ 0 := by omega
    simp [UdfHandle.with_prof_keys, hne, RANDOM_STR_LENGTH]

/-- C20, at a concrete input: the first of two handles, for draws 0, 1, 2, 3, 4. -/
theorem profiling_keys_of_handles_witness :
    generate_rand_string 5 (sample_collaborators_profiling.draw 0) = "0001020304" ∧
    ∃ name, config_value_object_get (.object [("name", .string "dummy")]) "name" =
        some (.string name) ∧
      (0 = 0 →
        ((sample_built sample_collaborators_profiling ["dummy", "resize"]).m_udfs.headD
            (const_udf "" .UDF_OK)).m_prof_entry_key =
          name ++ "_" ++ generate_rand_string 5 (sample_collaborators_profiling.draw 0) ++ "_" ++
            "svc" ++ "_first_entry" ∧
        ((sample_built sample_collaborators_profiling ["dummy", "resize"]).m_udfs.headD
            (const_udf "" .UDF_OK)).m_prof_exit_key =
          name ++ "_" ++ generate_rand_string 5 (sample_collaborators_profiling.draw 0) ++ "_" ++
            "svc" ++ "_first_exit") ∧
      (0 < 0 →
        ((sample_built sample_collaborators_profiling ["dummy", "resize"]).m_udfs.headD
            (const_udf "" .UDF_OK)).m_prof_entry_key =
          name ++ "_" ++ generate_rand_string 5 (sample_collaborators_profiling.draw 0) ++ "_" ++
            "svc" ++ "_entry" ∧
        ((sample_built sample_collaborators_profiling ["dummy", "resize"]).m_udfs.headD
            (const_udf "" .UDF_OK)).m_prof_exit_key =
          name ++ "_" ++ generate_rand_string 5 (sample_collaborators_profiling.draw 0) ++ "_" ++
            "svc" ++ "_exit") :=
  ⟨by decide, profiling_keys_of_handles sample_collaborators_profiling
    (sample_config [.object [("name", .string "dummy")], .object [("name", .string "resize")]]
      Option.none) "svc" .NONE 0
    [.object [("name", .string "dummy")], .object [("name", .string "resize")]]
    (sample_built sample_collaborators_profiling ["dummy", "resize"]) rfl rfl rfl
    0 (.object [("name", .string "dummy")])
    ((sample_built sample_collaborators_profiling ["dummy", "resize"]).m_udfs.headD
      (const_udf "" .UDF_OK)) rfl rfl⟩

/-! ## Stopping the manager -/

theorem stop_stop (m : UdfManager) : m.stop.stop = m.stop := by
  unfold UdfManager.stop
  cases h : m.m_stop <;> simp [h]

theorem stop_iterate (m : UdfManager) (n : Nat) : UdfManager.stop^[n + 1] m = m.stop := by
  induction n with
  | zero => rfl
  | succ k ih =>
    rw [Function.iterate_succ_apply', ih, stop_stop]

/-- C17. Calling `stop()` `N` times in a row, `N ≥ 1`, leaves the manager in the state one
call leaves it in: the stop flag is set, and the executor of a manager whose flag was not
set has received exactly one `stop()`. -/
theorem stop_is_idempotent (m : UdfManager) (N : Nat) (hN : 1 ≤ N) :
    UdfManager.stop^[N] m = m.stop ∧
      (UdfManager.stop^[N] m).m_stop = true ∧
      (m.m_stop = false →
        (UdfManager.stop^[N] m).m_executor.stop_calls = m.m_executor.stop_calls + 1) := by
  obtain ⟨n, hn⟩ : ∃ n, N = n + 1 := ⟨N - 1, by omega⟩
  rw [hn, stop_iterate]
  refine ⟨rfl, ?_, ?_⟩
  · unfold UdfManager.stop
    cases h : m.m_stop <;> simp [h]
  · intro h
    simp [UdfManager.stop, h, ThreadExecutor.stop]

/-- C17, at a concrete input: three calls on a manager that was not stopped. -/
theorem stop_is_idempotent_witness :
    (UdfManager.stop^[3] (sample_manager [] false)).m_stop = true ∧
      (UdfManager.stop^[3] (sample_manager [] false)).m_executor.stop_calls = 1 :=
  have h := stop_is_idempotent (sample_manager [] false) 3 (by decide)
  ⟨h.2.1, h.2.2 rfl⟩

/-! ## The loader -/

/-- C12 (the code at the failing input). For a name whose native handle would initialize,
`load` creates and initializes a Python handle only: it returns `NULL` when the Python handle
does not initialize, and a Python handle when it does; no native handle is created. -/
theorem load_never_tries_native :
    (UdfLoader.load { native := fun _ _ _ => true, python := fun _ _ _ => false }
        "dummy" { cfg := .none } 1).result = none ∧
    (UdfLoader.load { native := fun _ _ _ => true, python := fun _ _ _ => true }
        "dummy" { cfg := .none } 1).result =
      some { backend := .python, m_name := "dummy", m_max_workers := 1 } ∧
    ∀ b name config max_workers name1 max_workers1,
      LoaderStep.new_handle .native name1 max_workers1 ∉
        (UdfLoader.load b name config max_workers).steps := by
  refine ⟨rfl, rfl, ?_⟩
  intro b name config max_workers name1 max_workers1
  unfold UdfLoader.load
  split <;> simp

/-- C13. `load` returns `NULL` if and only if no handle it initialized returned true (which
is when the Python handle returned false); a handle it returns was created with the given
name and max-workers hint, its `initialize` was called with the given configuration and
returned true, and it was not deleted; a handle whose `initialize` returned false is deleted
and is not the one returned. -/
theorem load_returns_initialized_handle_or_null (b : Backends) (name : String)
    (config : config_t) (max_workers : Int) :
    ((UdfLoader.load b name config max_workers).result = none ↔
        ∀ backend, LoaderStep.init_call backend config true ∉
          (UdfLoader.load b name config max_workers).steps) ∧
      ((UdfLoader.load b name config max_workers).result = none ↔
        b.python name max_workers config = false) ∧
      (∀ h, (UdfLoader.load b name config max_workers).result = some h →
        h.m_name = name ∧ h.m_max_workers = max_workers ∧
        LoaderStep.new_handle h.backend name max_workers ∈
          (UdfLoader.load b name config max_workers).steps ∧
        LoaderStep.init_call h.backend config true ∈
          (UdfLoader.load b name config max_workers).steps ∧
        LoaderStep.delete_handle h.backend ∉
          (UdfLoader.load b name config max_workers).steps) ∧
      (∀ backend, LoaderStep.init_call backend config false ∈
          (UdfLoader.load b name config max_workers).steps →
        LoaderStep.delete_handle backend ∈ (UdfLoader.load b name config max_workers).steps ∧
        ∀ h, (UdfLoader.load b name config max_workers).result = some h →
          h.backend ≠ backend) := by
  unfold UdfLoader.load
  cases hp : b.python name max_workers config <;> simp

/-- C18 (the code at the failing input). Two loaders are constructed and one of them is
destroyed: the interpreter has been finalized although a loader is still alive. -/
theorem destroying_one_loader_finalizes :
    (run_loader_ops [.construct, .construct, .destroy] Interpreter.start).live_loaders = 1 ∧
    (run_loader_ops [.construct, .construct, .destroy] Interpreter.start).py_finalize_calls = 1 ∧
    (run_loader_ops [.construct, .construct, .destroy] Interpreter.start).py_initialized =
      false := by
  decide

/-! ## Loading a native UDF -/

/-- The strings `getline` yields, each followed by the delimiter, make up the stream, up to
a delimiter after the last string. -/
theorem getline_tokens_rejoin (delim : Char) (cs cur : List Char) :
    ((getline_tokens delim cs cur).map (fun t => t.data ++ [delim])).flatten =
        cur.reverse ++ cs ∨
      ((getline_tokens delim cs cur).map (fun t => t.data ++ [delim])).flatten =
        cur.reverse ++ cs ++ [delim] := by
  induction cs generalizing cur with
  | nil =>
    by_cases hc : cur = []
    · left; simp [getline_tokens, hc]
    · right; simp [getline_tokens, hc]
  | cons c rest ih =>
    by_cases hd : c = delim
    · rcases ih [] with h | h
      · left
        simp only [List.reverse_nil, List.nil_append] at h
        simp [getline_tokens, hd, h]
      · right
        simp only [List.reverse_nil, List.nil_append] at h
        simp [getline_tokens, hd, h]
    · rcases ih (c :: cur) with h | h
      · left
        simp only [List.reverse_cons, List.append_assoc, List.singleton_append] at h
        simp [getline_tokens, hd, h]
      · right
        simp only [List.reverse_cons, List.append_assoc, List.singleton_append] at h
        simp [getline_tokens, hd, h]

/-- No string `getline` yields holds the delimiter. -/
theorem getline_tokens_no_delim (delim : Char) (cs cur : List Char) (hcur : delim ∉ cur) :
    ∀ t ∈ getline_tokens delim cs cur, delim ∉ t.toList := by
  induction cs generalizing cur with
  | nil =>
    intro t ht
    by_cases hc : cur = []
    · simp [getline_tokens, hc] at ht
    · simp [getline_tokens, hc] at ht
      rw [ht]
      simpa using hcur
  | cons c rest ih =>
    intro t ht
    by_cases hd : c = delim
    · simp only [getline_tokens, hd, if_true, List.mem_cons] at ht
      rcases ht with ht | ht
      · rw [ht]
        simpa using hcur
      · exact ih [] (by simp) t ht
    · simp only [getline_tokens, hd, if_false] at ht
      refine ih (c :: cur) ?_ t ht
      simp only [List.mem_cons, not_or]
      exact ⟨fun h => hd h.symm, hcur⟩

theorem find_library_first (access : String → Bool) (lib : String) (pre : List String)
    (d : String) (post : List String) (hd : d ≠ "")
    (hacc : access (d ++ "/" ++ lib) = true)
    (hpre : ∀ x ∈ pre, x = "" ∨ access (x ++ "/" ++ lib) = false) :
    (find_library access lib (pre ++ d :: post)).2 = some (d ++ "/" ++ lib) := by
  induction pre with
  | nil => simp [find_library, hd, hacc]
  | cons x rest ih =>
    have hrest := ih (fun y hy => hpre y (List.mem_cons_of_mem _ hy))
    rcases hpre x (List.mem_cons_self _ _) with hx | hx
    · simp [find_library, hx, hrest]
    · by_cases hxe : x = ""
      · simp [find_library, hxe, hrest]
      · simp [find_library, hxe, hx, hrest]

theorem find_library_none (access : String → Bool) (lib : String) (paths : List String)
    (h : ∀ x ∈ paths, x = "" ∨ access (x ++ "/" ++ lib) = false) :
    (find_library access lib paths).2 = none := by
  induction paths with
  | nil => rfl
  | cons x rest ih =>
    have hrest := ih (fun y hy => h y (List.mem_cons_of_mem _ hy))
    rcases h x (List.mem_cons_self _ _) with hx | hx
    · simp [find_library, hx, hrest]
    · by_cases hxe : x = ""
      · simp [find_library, hxe, hrest]
      · simp [find_library, hxe, hx, hrest]

theorem find_library_opens_nothing (access : String → Bool) (lib : String)
    (paths : List String) : opened_files (find_library access lib paths).1 = [] := by
  induction paths with
  | nil => rfl
  | cons x rest ih =>
    unfold find_library
    split
    · exact ih
    · split
      · simp [opened_files]
      · simpa [opened_files] using ih

theorem opened_files_append (s t : List NativeStep) :
    opened_files (s ++ t) = opened_files s ++ opened_files t := by
  simp [opened_files]

theorem native_initialize_base_failed (h : NativeUdfHandle) (w : NativeWorld)
    (config : config_t) (hbase : w.base_initialize config = false) :
    NativeUdfHandle.initialize h w config = { steps := [], handle := h, result := .ok false } := by
  unfold NativeUdfHandle.initialize
  simp [hbase]

theorem native_initialize_no_path (h : NativeUdfHandle) (w : NativeWorld)
    (config : config_t) (hbase : w.base_initialize config = true)
    (hld : w.ld_library_path = none) :
    NativeUdfHandle.initialize h w config =
      { steps := [], handle := h,
        result := .error
          (.c_string "Failed to retrieve LD_LIBRARY_PATH environmental variable") } := by
  unfold NativeUdfHandle.initialize
  simp [hbase, hld]

theorem native_initialize_not_found (h : NativeUdfHandle) (w : NativeWorld)
    (config : config_t) (ld : String) (hbase : w.base_initialize config = true)
    (hld : w.ld_library_path = some ld)
    (hs : (find_library w.access ("lib" ++ h.m_name ++ ".so") (getline_split ld ':')).2 = none) :
    NativeUdfHandle.initialize h w config =
      { steps := (find_library w.access ("lib" ++ h.m_name ++ ".so")
          (getline_split ld ':')).1,
        handle := h, result := .ok false } := by
  unfold NativeUdfHandle.initialize
  simp [hbase, hld, hs]

theorem native_initialize_dlopen_failed (h : NativeUdfHandle) (w : NativeWorld)
    (config : config_t) (ld lib : String) (hbase : w.base_initialize config = true)
    (hld : w.ld_library_path = some ld)
    (hs : (find_library w.access ("lib" ++ h.m_name ++ ".so") (getline_split ld ':')).2 =
      some lib)
    (hopen : w.dlopen lib = none) :
    NativeUdfHandle.initialize h w config =
      { steps := (find_library w.access ("lib" ++ h.m_name ++ ".so")
          (getline_split ld ':')).1 ++ [.dlopen lib none],
        handle := { h with m_lib_handle := none }, result := .ok false } := by
  unfold NativeUdfHandle.initialize
  simp [hbase, hld, hs, hopen]

theorem native_initialize_no_symbol (h : NativeUdfHandle) (w : NativeWorld)
    (config : config_t) (ld lib : String) (lh : Nat)
    (hbase : w.base_initialize config = true) (hld : w.ld_library_path = some ld)
    (hs : (find_library w.access ("lib" ++ h.m_name ++ ".so") (getline_split ld ':')).2 =
      some lib)
    (hopen : w.dlopen lib = some lh) (hsym : w.dlsym lh "initialize_udf" = none) :
    NativeUdfHandle.initialize h w config =
      { steps := (find_library w.access ("lib" ++ h.m_name ++ ".so")
          (getline_split ld ':')).1 ++ [.dlopen lib (some lh),
            .dlsym lh "initialize_udf" false, .dlclose lh],
        handle := { h with m_lib_handle := some lh }, result := .ok false } := by
  unfold NativeUdfHandle.initialize
  simp [hbase, hld, hs, hopen, hsym]

theorem native_initialize_threw (h : NativeUdfHandle) (w : NativeWorld)
    (config : config_t) (ld lib : String) (lh fn : Nat) (e : Thrown)
    (hbase : w.base_initialize config = true) (hld : w.ld_library_path = some ld)
    (hs : (find_library w.access ("lib" ++ h.m_name ++ ".so") (getline_split ld ':')).2 =
      some lib)
    (hopen : w.dlopen lib = some lh) (hsym : w.dlsym lh "initialize_udf" = some fn)
    (hcall : w.initialize_udf fn config = .error e) :
    NativeUdfHandle.initialize h w config =
      { steps := (find_library w.access ("lib" ++ h.m_name ++ ".so")
          (getline_split ld ':')).1 ++ [.dlopen lib (some lh),
            .dlsym lh "initialize_udf" true, .call_initialize_udf fn false],
        handle := { h with m_lib_handle := some lh },
        result := if e.is_std_exception then .ok false else .error e } := by
  unfold NativeUdfHandle.initialize
  simp [hbase, hld, hs, hopen, hsym, hcall]

theorem native_initialize_loaded (h : NativeUdfHandle) (w : NativeWorld)
    (config : config_t) (ld lib : String) (lh fn : Nat) (udf : Option BaseUdf)
    (hbase : w.base_initialize config = true) (hld : w.ld_library_path = some ld)
    (hs : (find_library w.access ("lib" ++ h.m_name ++ ".so") (getline_split ld ':')).2 =
      some lib)
    (hopen : w.dlopen lib = some lh) (hsym : w.dlsym lh "initialize_udf" = some fn)
    (hcall : w.initialize_udf fn config = .ok udf) :
    NativeUdfHandle.initialize h w config =
      { steps := (find_library w.access ("lib" ++ h.m_name ++ ".so")
          (getline_split ld ':')).1 ++ [.dlopen lib (some lh),
            .dlsym lh "initialize_udf" true, .call_initialize_udf fn true],
        handle := { h with m_lib_handle := some lh, m_udf := udf },
        result := .ok true } := by
  unfold NativeUdfHandle.initialize
  simp [hbase, hld, hs, hopen, hsym, hcall]

/-- What `initialize` opens and returns once the search along the path has ended. -/
theorem native_initialize_after_search (h : NativeUdfHandle) (w : NativeWorld)
    (config : config_t) (ld : String) (hbase : w.base_initialize config = true)
    (hld : w.ld_library_path = some ld) :
    (∀ lib, (find_library w.access ("lib" ++ h.m_name ++ ".so") (getline_split ld ':')).2 =
        some lib → opened_files ( NativeUdfHandle.initialize h w config).steps = [lib]) ∧
    ((find_library w.access ("lib" ++ h.m_name ++ ".so") (getline_split ld ':')).2 = none →
      opened_files ( NativeUdfHandle.initialize h w config).steps = [] ∧
      ( NativeUdfHandle.initialize h w config).result = .ok false) := by
  have hno := find_library_opens_nothing w.access ("lib" ++ h.m_name ++ ".so")
    (getline_split ld ':')
  constructor
  · intro lib hlib
    cases hopen : w.dlopen lib with
    | none =>
      rw [native_initialize_dlopen_failed h w config ld lib hbase hld hlib hopen]
      simp only [opened_files_append, hno]
      rfl
    | some lh =>
      cases hsym : w.dlsym lh "initialize_udf" with
      | none =>
        rw [native_initialize_no_symbol h w config ld lib lh hbase hld hlib hopen hsym]
        simp only [opened_files_append, hno]
        rfl
      | some fn =>
        cases hcall : w.initialize_udf fn config with
        | error e =>
          rw [native_initialize_threw h w config ld lib lh fn e hbase hld hlib hopen hsym hcall]
          simp only [opened_files_append, hno]
          rfl
        | ok udf =>
          rw [native_initialize_loaded h w config ld lib lh fn udf hbase hld hlib hopen hsym
            hcall]
          simp only [opened_files_append, hno]
          rfl
  · intro hnone
    rw [native_initialize_not_found h w config ld hbase hld hnone]
    exact ⟨hno, rfl⟩

/-- C15. For a handle named `n` whose base class initialized, with `LD_LIBRARY_PATH` set:
`initialize` calls `dlopen` exactly once, on the file `d/lib<n>.so`, where `d` is the first
non-empty string between colons of the path, in path order, for which that file exists; when
no such string has the file, it calls `dlopen` on nothing and returns false. -/
theorem native_initialize_opens_first_match (h : NativeUdfHandle) (w : NativeWorld)
    (config : config_t) (ld : String) (hbase : w.base_initialize config = true)
    (hld : w.ld_library_path = some ld) :
    (∀ pre d post, getline_split ld ':' = pre ++ d :: post → d ≠ "" →
      w.access (d ++ "/" ++ ("lib" ++ h.m_name ++ ".so")) = true →
      (∀ x ∈ pre, x = "" ∨ w.access (x ++ "/" ++ ("lib" ++ h.m_name ++ ".so")) = false) →
      opened_files ( NativeUdfHandle.initialize h w config).steps =
        [d ++ "/" ++ ("lib" ++ h.m_name ++ ".so")]) ∧
    ((∀ x ∈ getline_split ld ':',
        x = "" ∨ w.access (x ++ "/" ++ ("lib" ++ h.m_name ++ ".so")) = false) →
      opened_files ( NativeUdfHandle.initialize h w config).steps = [] ∧
      ( NativeUdfHandle.initialize h w config).result = .ok false) := by
  obtain ⟨hsome, hnone⟩ := native_initialize_after_search h w config ld hbase hld
  constructor
  · intro pre d post hsplit hd hacc hpre
    apply hsome
    rw [hsplit]
    exact find_library_first w.access _ pre d post hd hacc hpre
  · intro hall
    exact hnone (find_library_none w.access _ _ hall)

/-- C15, at a concrete input: the path `/usr/lib::/opt/udfs:/opt/more`, the file being in
`/opt/udfs`. -/
theorem native_initialize_opens_first_match_witness :
    opened_files ( NativeUdfHandle.initialize fresh_native
        (sample_world (some "/usr/lib::/opt/udfs:/opt/more")) { cfg := .none }).steps =
      ["/opt/udfs" ++ "/" ++ ("lib" ++ fresh_native.m_name ++ ".so")] :=
  (native_initialize_opens_first_match fresh_native
    (sample_world (some "/usr/lib::/opt/udfs:/opt/more")) { cfg := .none }
    "/usr/lib::/opt/udfs:/opt/more" rfl rfl).1 ["/usr/lib", ""] "/opt/udfs" ["/opt/more"]
    (by decide) (by decide) (by decide) (by decide)

/-- C14 as stated fails: with `LD_LIBRARY_PATH` not set, `initialize` throws a string. -/
theorem native_initialize_throws_without_path :
    ( NativeUdfHandle.initialize fresh_native (sample_world none) { cfg := .none }).result =
      .error (.c_string "Failed to retrieve LD_LIBRARY_PATH environmental variable") := by
  rfl

/-- C14, as amended. `NativeUdfHandle::initialize` throws a string when the base class
initialized and `LD_LIBRARY_PATH` is not set. With the variable set it returns false, and
does not throw, when the library is not found on the path, when `dlopen` fails, when the
symbol `initialize_udf` is missing, and when the constructor of the UDF throws an exception
derived from `std::exception`. -/
theorem native_initialize_failures (h : NativeUdfHandle) (w : NativeWorld)
    (config : config_t) :
    (w.base_initialize config = true → w.ld_library_path = none →
      ( NativeUdfHandle.initialize h w config).result =
        .error (.c_string "Failed to retrieve LD_LIBRARY_PATH environmental variable")) ∧
    (∀ ld, w.ld_library_path = some ld →
      ((find_library w.access ("lib" ++ h.m_name ++ ".so") (getline_split ld ':')).2 = none →
        ( NativeUdfHandle.initialize h w config).result = .ok false) ∧
      (∀ lib, (find_library w.access ("lib" ++ h.m_name ++ ".so")
            (getline_split ld ':')).2 = some lib →
        w.dlopen lib = none →
        ( NativeUdfHandle.initialize h w config).result = .ok false) ∧
      (∀ lib lh, (find_library w.access ("lib" ++ h.m_name ++ ".so")
            (getline_split ld ':')).2 = some lib →
        w.dlopen lib = some lh → w.dlsym lh "initialize_udf" = none →
        ( NativeUdfHandle.initialize h w config).result = .ok false) ∧
      (∀ lib lh fn what, (find_library w.access ("lib" ++ h.m_name ++ ".so")
            (getline_split ld ':')).2 = some lib →
        w.dlopen lib = some lh → w.dlsym lh "initialize_udf" = some fn →
        w.initialize_udf fn config = .error (.std_exception what) →
        ( NativeUdfHandle.initialize h w config).result = .ok false)) := by
  constructor
  · intro hbase hld
    rw [native_initialize_no_path h w config hbase hld]
  · intro ld hld
    cases hbase : w.base_initialize config with
    | false =>
      rw [native_initialize_base_failed h w config hbase]
      exact ⟨fun _ => rfl, fun _ _ _ => rfl, fun _ _ _ _ _ => rfl, fun _ _ _ _ _ _ _ _ => rfl⟩
    | true =>
      refine ⟨?_, ?_, ?_, ?_⟩
      · intro hs
        rw [native_initialize_not_found h w config ld hbase hld hs]
      · intro lib hs hopen
        rw [native_initialize_dlopen_failed h w config ld lib hbase hld hs hopen]
      · intro lib lh hs hopen hsym
        rw [native_initialize_no_symbol h w config ld lib lh hbase hld hs hopen hsym]
      · intro lib lh fn what hs hopen hsym hcall
        rw [native_initialize_threw h w config ld lib lh fn _ hbase hld hs hopen hsym hcall]
        rfl

/-! ## Views replaced by the native handle -/

/-- C16. When the UDF returns, `NativeUdfHandle::process` on a live frame returns the code of
the UDF unchanged. When the output matrix is not empty and its data pointer is not that of
the input matrix, view 0 becomes a view over the output matrix, with width the columns,
height the rows and channels the channels of that matrix, and the other views stay; else the
views of the frame are unchanged. -/
theorem native_process_replaces_view (h : NativeUdfHandle) (udf : BaseUdf)
    (out_addr free_fn : Nat) (frame : Frame) (v : FrameData) (ret : UdfRetCode) (output : Mat)
    (meta_data : MsgEnvelope) (hudf : h.m_udf = some udf)
    (hser : frame.m_serialized = false) (hv : frame.m_frames.head? = some v)
    (hret : udf.process
        { rows := v.m_meta.m_height, cols := v.m_meta.m_width,
          channels := v.m_meta.m_channels, data := v.m_data }
        Mat.new frame.get_meta_data = .returned ret output meta_data) :
    ∃ frame1, h.process out_addr free_fn frame = .ok (ret, frame1) ∧
      (output.empty = false ∧ output.data ≠ v.m_data →
        frame1.m_frames =
          { m_meta := { v.m_meta with m_width := output.cols, m_height := output.rows,
                                      m_channels := output.channels },
            m_frame := out_addr, m_data := output.data, m_free_frame := free_fn } ::
            frame.m_frames.tail) ∧
      (¬ (output.empty = false ∧ output.data ≠ v.m_data) →
        frame1.m_frames = frame.m_frames) := by
  obtain ⟨rest, hfr⟩ : ∃ rest, frame.m_frames = v :: rest := by
    cases hm : frame.m_frames with
    | nil => rw [hm] at hv; simp at hv
    | cons v0 rest => rw [hm] at hv; simp at hv; exact ⟨rest, by rw [hv]⟩
  have hd : frame.dim_view 0 = .ok v := by simp [Frame.dim_view, hfr]
  have hl : frame.live_view 0 = .ok v := by simp [Frame.live_view, hser, hfr]
  have hw : frame.with_meta_data meta_data = { frame with m_meta_data := meta_data } := by
    simp [Frame.with_meta_data, hser]
  have hl1 : ({ frame with m_meta_data := meta_data } : Frame).live_view 0 = .ok v := by
    simp [Frame.live_view, hser, hfr]
  unfold NativeUdfHandle.process
  simp only [hd, hl, hudf, hret, hw]
  by_cases hc : output.empty = false ∧ output.data ≠ v.m_data
  · have hcond : (!output.empty && decide (output.data ≠ v.m_data)) = true := by
      simp [hc.1, hc.2]
    simp only [hcond, if_true, Frame.set_data, hl1]
    refine ⟨_, rfl, ?_, fun hn => absurd hc hn⟩
    intro _
    simp [hfr]
  · have hcond : (!output.empty && decide (output.data ≠ v.m_data)) = false := by
      by_cases he : output.empty = false
      · have : output.data = v.m_data := by
          by_contra hne
          exact hc ⟨he, hne⟩
        simp [this]
      · simp at he
        simp [he]
    simp only [hcond]
    exact ⟨_, rfl, fun hy => absurd hy hc, fun _ => rfl⟩

/-- C16, at a concrete input: the UDF leaves a 4x5 matrix of 3 channels at address 50 in
`output`. -/
theorem native_process_replaces_view_witness :
    ∃ frame1, (sample_native (output_udf .UDF_FRAME_MODIFIED
        { rows := 4, cols := 5, channels := 3, data := 50 })).process 100 200
        (sample_frame 1).obj = .ok (.UDF_FRAME_MODIFIED, frame1) ∧
      (Mat.empty { rows := 4, cols := 5, channels := 3, data := 50 } = false ∧
          (50 : Nat) ≠ (sample_view 1).m_data →
        frame1.m_frames =
          { m_meta := { (sample_view 1).m_meta with m_width := 5, m_height := 4,
                                                    m_channels := 3 },
            m_frame := 100, m_data := 50, m_free_frame := 200 } ::
            (sample_frame 1).obj.m_frames.tail) ∧
      (¬ (Mat.empty { rows := 4, cols := 5, channels := 3, data := 50 } = false ∧
          (50 : Nat) ≠ (sample_view 1).m_data) →
        frame1.m_frames = (sample_frame 1).obj.m_frames) :=
  native_process_replaces_view
    (sample_native (output_udf .UDF_FRAME_MODIFIED
      { rows := 4, cols := 5, channels := 3, data := 50 }))
    (output_udf .UDF_FRAME_MODIFIED { rows := 4, cols := 5, channels := 3, data := 50 })
    100 200 (sample_frame 1).obj (sample_view 1) .UDF_FRAME_MODIFIED
    { rows := 4, cols := 5, channels := 3, data := 50 } [] rfl rfl rfl rfl

/-! ## The number of views of a frame -/

/-- C19 as stated fails: the frame the constructor `Frame()` makes has no view. -/
theorem empty_frame_has_no_view :
    ¬ (1 ≤ Frame.empty.get_number_of_frames) := by
  decide

/-- C19, as amended. The constructor that takes a view yields a frame with exactly one view;
the deserializing constructor yields one view per blob of the envelope; the constructor
`Frame()` yields a frame with no view; `add_frame` adds one view and `set_data` leaves the
number of views as it is, so neither lowers it. -/
theorem frame_view_count :
    (∀ img_handle frame free_frame data width height channels encode_type encode_level,
      (Frame.new img_handle frame free_frame data width height channels encode_type
        encode_level).get_number_of_frames = 1) ∧
    (∀ msg msg_addr release meta,
      (Frame.deserialize msg msg_addr release meta).get_number_of_frames =
        (envelope_blobs msg).length) ∧
    Frame.empty.get_number_of_frames = 0 ∧
    (∀ (f f1 : Frame) img_handle frame free_frame data width height channels encode_type
        encode_level,
      f.add_frame img_handle frame free_frame data width height channels encode_type
          encode_level = .ok f1 →
        f1.get_number_of_frames = f.get_number_of_frames + 1) ∧
    (∀ (f f1 : Frame) index frame free_frame data width height channels,
      f.set_data index frame free_frame data width height channels = .ok f1 →
        f1.get_number_of_frames = f.get_number_of_frames) := by
  refine ⟨fun _ _ _ _ _ _ _ _ _ => rfl, ?_, rfl, ?_, ?_⟩
  · intro msg msg_addr release meta
    simp [Frame.deserialize, Frame.get_number_of_frames]
  · intro f f1 img_handle frame free_frame data width height channels encode_type encode_level h
    unfold Frame.add_frame at h
    split at h
    · cases h
    · simp only [Except.ok.injEq] at h
      rw [← h]
      simp [Frame.get_number_of_frames]
  · intro f f1 index frame free_frame data width height channels h
    unfold Frame.set_data at h
    split at h
    · cases h
    · simp only [Except.ok.injEq] at h
      rw [← h]
      simp [Frame.get_number_of_frames]

/-! ## The blocked-queue timestamp -/

theorem profiling_events_enabled (p : Profiling) (addr : Nat) (key : String)
    (hp : p.enabled = true) : profiling_events p addr key = [.profiling addr key] := by
  simp [profiling_events, hp]

/-- C21 (the code does otherwise): when `push` returns `QUEUE_FULL` with profiling on, the
events of the push block are the push-entry timestamp, `push`, `push_wait`, `delete frame`
when `push_wait` did not return `SUCCESS`, and only then the blocked-queue timestamp: the
frame is annotated under `m_udf_push_block_key` after `push_wait` has returned, that is
after the queue took the frame or after the frame was deleted, and not before. -/
theorem blocked_timestamp_follows_push_wait (m : UdfManager) (q : FrameQueue) (addr : Nat)
    (w : Worker) (f : Frame) (hp : m.m_profile.enabled = true) (hn : w.fault = none)
    (hr : w.ret = .UDF_OK) (hf : w.frame = some f) (hq : q.push addr = .QUEUE_FULL) :
    (m.push_frame q addr w).trace =
      w.trace ++ [.profiling addr m.m_udf_push_entry_key, .push addr .QUEUE_FULL,
        .push_wait addr (q.push_wait addr)] ++
        (if q.push_wait addr = .SUCCESS then [] else [.delete_frame addr]) ++
        [.profiling addr m.m_udf_push_block_key] := by
  by_cases hpw : q.push_wait addr = .SUCCESS
  · rw [push_frame_full_success m q addr w f hn hr hf hq hpw]
    simp [profiling_events_enabled _ _ _ hp, hpw]
  · rw [push_frame_full_failed m q addr w f hn hr hf hq hpw]
    simp [profiling_events_enabled _ _ _ hp, hpw]

/-- C21, at a manager with profiling on whose output queue is full and whose blocking push
fails: the frame at address 1 is deleted, then annotated. -/
theorem blocked_timestamp_follows_push_wait_witness :
    ((sample_manager [] true).push_frame stuck_queue 1
        { Worker.start with frame := some (sample_frame 1).obj }).trace =
      [.profiling 1 "svc_UDF_output_queue_ts", .push 1 .QUEUE_FULL, .push_wait 1 (.other 2),
        .delete_frame 1, .profiling 1 "svc_UDF_output_queue_blocked_ts"] :=
  blocked_timestamp_follows_push_wait (sample_manager [] true) stuck_queue 1
    { Worker.start with frame := some (sample_frame 1).obj } (sample_frame 1).obj
    rfl rfl rfl rfl rfl

/-! ## The guarded call of `set_encoding` -/

theorem set_encodings_append (s t : List Event) :
    set_encodings (s ++ t) = set_encodings s ++ set_encodings t := by
  simp [set_encodings]

theorem set_encodings_profiling_events (p : Profiling) (addr : Nat) (key : String) :
    set_encodings (profiling_events p addr key) = [] := by
  unfold profiling_events
  split <;> simp [set_encodings]

theorem check_ret_set_encodings (addr : Nat) (ret : UdfRetCode) (f : Frame) (w : Worker) :
    set_encodings (check_ret addr ret f w).trace = set_encodings w.trace := by
  cases ret <;> simp [check_ret, set_encodings_append, set_encodings]

theorem run_handle_set_encodings (m : UdfManager) (addr : Nat) (h : UdfHandle) (w : Worker) :
    set_encodings (m.run_handle addr h w).trace = set_encodings w.trace := by
  by_cases hidle : w.frame = none ∨ w.fault ≠ none
  · rw [run_handle_idle m addr h w hidle]
  · obtain ⟨hf, hn⟩ := not_or.mp hidle
    obtain ⟨f, hf⟩ := Option.ne_none_iff_exists'.mp hf
    have hn : w.fault = none := not_not.mp hn
    cases hp : h.process (DO_PROFILING m.m_profile f h.m_prof_entry_key) with
    | error e =>
      rw [run_handle_threw m addr h w f e hf hn hp]
      simp only [set_encodings_append, set_encodings_profiling_events]
      simp [set_encodings]
    | ok r =>
      obtain ⟨ret, f2⟩ := r
      rw [run_handle_returned m addr h w f f2 ret hf hn hp, check_ret_set_encodings]
      simp only [set_encodings_append, set_encodings_profiling_events]
      simp [set_encodings]

theorem run_handles_set_encodings (m : UdfManager) (addr : Nat) (hs : List UdfHandle)
    (w : Worker) : set_encodings (m.run_handles addr hs w).trace = set_encodings w.trace := by
  induction hs generalizing w with
  | nil => rfl
  | cons h rest ih =>
    show set_encodings (m.run_handles addr rest (m.run_handle addr h w)).trace = _
    rw [ih, run_handle_set_encodings]

theorem push_frame_set_encodings (m : UdfManager) (q : FrameQueue) (addr : Nat) (w : Worker) :
    set_encodings (m.push_frame q addr w).trace = set_encodings w.trace := by
  rcases push_frame_cases q addr w with hfault | hret | ⟨hn, hr, hnull | ⟨f, hf, hq⟩⟩
  · rw [push_frame_of_fault m q addr w hfault]
  · rw [push_frame_of_ret m q addr w hret]
  · rw [push_frame_null m q addr w hn hr hnull]
  · rcases hq with hq | ⟨hq1, hq2⟩ | ⟨hq, hpw⟩ | ⟨hq, hpw⟩
    · rw [push_frame_success m q addr w f hn hr hf hq]
      simp only [set_encodings_append, set_encodings_profiling_events]
      simp [set_encodings]
    · rw [push_frame_refused m q addr w f hn hr hf hq1 hq2]
      simp only [set_encodings_append, set_encodings_profiling_events]
      simp [set_encodings]
    · rw [push_frame_full_success m q addr w f hn hr hf hq hpw]
      simp only [set_encodings_append, set_encodings_profiling_events]
      simp [set_encodings]
    · rw [push_frame_full_failed m q addr w f hn hr hf hq hpw]
      simp only [set_encodings_append, set_encodings_profiling_events]
      simp [set_encodings]

theorem fix_encoding_set_encodings (m : UdfManager) (addr : Nat) (f : Frame) (t : EncodeType)
    (l : Int) :
    set_encodings (m.fix_encoding addr f t l).2 =
      if t ≠ m.m_enc_type ∨ l ≠ m.m_enc_lvl then
        [(addr, m.m_enc_type, m.m_enc_lvl,
          (f.set_encoding m.set_encoding_rejects m.m_enc_type m.m_enc_lvl 0).isOk)]
      else [] := by
  unfold UdfManager.fix_encoding
  by_cases hd : t ≠ m.m_enc_type ∨ l ≠ m.m_enc_lvl
  · rw [if_pos hd, if_pos hd]
    cases f.set_encoding m.set_encoding_rejects m.m_enc_type m.m_enc_lvl 0 <;>
      simp [set_encodings, Except.isOk, Except.toBool]
  · rw [if_neg hd, if_neg hd]
    simp [set_encodings]

theorem fix_encoding_failed (m : UdfManager) (addr : Nat) (f : Frame) (t : EncodeType)
    (l : Int) (e : Thrown) (hd : t ≠ m.m_enc_type ∨ l ≠ m.m_enc_lvl)
    (he : f.set_encoding m.set_encoding_rejects m.m_enc_type m.m_enc_lvl 0 = .error e) :
    m.fix_encoding addr f t l = (f, [.set_encoding addr m.m_enc_type m.m_enc_lvl false]) := by
  unfold UdfManager.fix_encoding
  rw [if_pos hd, he]

theorem run_handles_first_call (m : UdfManager) (addr : Nat) (h : UdfHandle)
    (rest : List UdfHandle) (w : Worker) (f : Frame) (hf : w.frame = some f)
    (hn : w.fault = none) :
    ∃ c tail, calls (m.run_handles addr (h :: rest) w).trace =
      calls w.trace ++ (h.m_name, c) :: tail := by
  obtain ⟨evs, r, htr, hcalls, -⟩ := run_handle_active m addr h w f hf hn
  obtain ⟨evs2, htr2, -⟩ := run_handles_calls m addr rest (m.run_handle addr h w)
  refine ⟨r, calls evs2, ?_⟩
  show calls (m.run_handles addr rest (m.run_handle addr h w)).trace = _
  rw [htr2, htr, calls_append, calls_append, hcalls]
  simp

/-- C22: for a frame popped from the input queue whose view 0 has encoding type `t` and level
`l`, one pass of the worker body calls `set_encoding(m_enc_type, m_enc_lvl)` on the frame
exactly when `t` differs from `m_enc_type` or `l` from `m_enc_lvl`, and then once; when that
call throws, the pass goes on with the frame as it was popped; and in every case the first
handle of the chain is called on the frame. -/
theorem set_encoding_iff_encoding_differs (m : UdfManager) (q : FrameQueue) (w : Worker)
    (p : FramePtr) (t : EncodeType) (l : Int) (hn : w.fault = none)
    (ht : p.obj.get_encode_type 0 = .ok t) (hl : p.obj.get_encode_level 0 = .ok l) :
    set_encodings (m.process_frame q w (some p)).trace =
        set_encodings w.trace ++
          (if t ≠ m.m_enc_type ∨ l ≠ m.m_enc_lvl then
            [(p.addr, m.m_enc_type, m.m_enc_lvl,
              (p.obj.set_encoding m.set_encoding_rejects m.m_enc_type m.m_enc_lvl 0).isOk)]
          else []) ∧
      (∀ e, (t ≠ m.m_enc_type ∨ l ≠ m.m_enc_lvl) →
        p.obj.set_encoding m.set_encoding_rejects m.m_enc_type m.m_enc_lvl 0 = .error e →
        m.process_frame q w (some p) =
          m.push_frame q p.addr (m.run_handles p.addr m.m_udfs
            { w with frame := some p.obj,
                     trace := w.trace ++
                       [.set_encoding p.addr m.m_enc_type m.m_enc_lvl false] })) ∧
      (∀ h rest, m.m_udfs = h :: rest →
        ∃ c tail, calls (m.process_frame q w (some p)).trace =
          calls w.trace ++ (h.m_name, c) :: tail) := by
  refine ⟨?_, ?_, ?_⟩
  · rw [process_frame_ok m q w p t l ht hl, push_frame_set_encodings,
      run_handles_set_encodings]
    show set_encodings (w.trace ++ (m.fix_encoding p.addr p.obj t l).2) = _
    rw [set_encodings_append, fix_encoding_set_encodings]
  · intro e hd he
    rw [process_frame_ok m q w p t l ht hl, fix_encoding_failed m p.addr p.obj t l e hd he]
  · intro h rest hudfs
    rw [process_frame_ok m q w p t l ht hl, hudfs]
    obtain ⟨evs, htr, hcalls, -⟩ := push_frame_events m q p.addr
      (m.run_handles p.addr (h :: rest)
        { w with frame := some (m.fix_encoding p.addr p.obj t l).1,
                 trace := w.trace ++ (m.fix_encoding p.addr p.obj t l).2 })
    obtain ⟨c, tail, hfirst⟩ := run_handles_first_call m p.addr h rest
      { w with frame := some (m.fix_encoding p.addr p.obj t l).1,
               trace := w.trace ++ (m.fix_encoding p.addr p.obj t l).2 }
      (m.fix_encoding p.addr p.obj t l).1 rfl hn
    refine ⟨c, tail, ?_⟩
    rw [htr, calls_append, hcalls, hfirst]
    show calls (w.trace ++ (m.fix_encoding p.addr p.obj t l).2) ++ _ ++ [] = _
    rw [calls_append, (fix_encoding_events m p.addr p.obj t l).1]
    simp

/-- C22, at a manager with target `JPEG` at level 50 whose `set_encoding` throws, for a frame
that is not encoded: `set_encoding` is called once and fails, and the handle `a` is still
called on the frame. -/
theorem set_encoding_iff_encoding_differs_witness :
    set_encodings (strict_manager.process_frame open_queue Worker.start
        (some (sample_frame 1))).trace = [(1, .JPEG, 50, false)] ∧
      ∃ c tail, calls (strict_manager.process_frame open_queue Worker.start
        (some (sample_frame 1))).trace = [] ++ ("a", c) :: tail :=
  ⟨(set_encoding_iff_encoding_differs strict_manager open_queue Worker.start (sample_frame 1)
      .NONE 0 rfl rfl rfl).1,
    (set_encoding_iff_encoding_differs strict_manager open_queue Worker.start (sample_frame 1)
      .NONE 0 rfl rfl rfl).2.2 (const_udf "a" .UDF_OK) [] rfl⟩

/-! ## The order of the destructor of the manager -/

theorem drain_split (queue : QueueId) (l : List (Option Nat)) (a : Nat) (ha : some a ∈ l) :
    ∃ p1 p2, drain queue l = p1 ++ .delete_frame a :: p2 := by
  induction l with
  | nil => simp at ha
  | cons x rest ih =>
    rcases List.mem_cons.mp ha with hx | hrest
    · subst hx
      exact ⟨[.pop queue (some a)], drain queue rest, rfl⟩
    · obtain ⟨p1, p2, h⟩ := ih hrest
      cases x with
      | none => exact ⟨.pop queue none :: p1, p2, by simp [drain, h]⟩
      | some b => exact ⟨.pop queue (some b) :: .delete_frame b :: p1, p2, by simp [drain, h]⟩

theorem drain_count (queue : QueueId) (l : List (Option Nat)) (a : Nat) :
    (drain queue l).count (.delete_frame a) = l.count (some a) := by
  induction l with
  | nil => rfl
  | cons x rest ih =>
    cases x with
    | none => simp [drain, ih, List.count_cons]
    | some b =>
      by_cases hb : b = a
      · subst hb
        simp [drain, ih, List.count_cons]
      · have hb2 : ¬ a = b := fun h => hb h.symm
        simp [drain, ih, List.count_cons, hb, hb2]

theorem count_delete_frame_handles (hs : List UdfHandle) (a : Nat) :
    (hs.map (fun handle => DtorStep.delete_handle handle.m_name)).count (.delete_frame a) = 0 := by
  induction hs with
  | nil => rfl
  | cons h rest ih => simp [List.count_cons, ih]

/-- C23 (the code does otherwise): in the destructor of the manager every frame left in a
queue is deleted once per place it holds in the two queues, those of the input queue before
those of the output queue; but `delete m_executor`, the `delete handle` of every handle and
`delete m_profile` all come before the first residual frame is deleted, not after the queues
are drained. -/
theorem handles_deleted_before_queues_drained (m : UdfManager) (input output : List (Option Nat))
    (a : Nat) (ha : some a ∈ input ++ output) :
    (∃ pre post, m.dtor input output = pre ++ .delete_frame a :: post ∧
        .delete_executor ∈ pre ∧ (∀ h ∈ m.m_udfs, .delete_handle h.m_name ∈ pre) ∧
        .delete_profile ∈ pre ∧ (m.m_stop = false → pre.head? = some .stop_executor)) ∧
      (∀ b, (m.dtor input output).count (.delete_frame b) = (input ++ output).count (some b)) ∧
      (∃ mid, m.dtor input output =
        (if !m.m_stop then [.stop_executor] else []) ++ [.delete_executor] ++
          m.m_udfs.map (fun handle => .delete_handle handle.m_name) ++ [.delete_profile] ++
          drain .input input ++ mid ++ drain .output output ++
          [.delete_queue .output, .config_destroy]) := by
  refine ⟨?_, ?_, ⟨[.delete_queue .input], by simp [UdfManager.dtor]⟩⟩
  · rcases List.mem_append.mp ha with hin | hout
    · obtain ⟨p1, p2, h⟩ := drain_split .input input a hin
      refine ⟨(if !m.m_stop then [.stop_executor] else []) ++ [.delete_executor] ++
          m.m_udfs.map (fun handle => .delete_handle handle.m_name) ++ [.delete_profile] ++ p1,
        p2 ++ [.delete_queue .input] ++ drain .output output ++ [.delete_queue .output] ++
          [.config_destroy], ?_, ?_, ?_, ?_, ?_⟩
      · simp [UdfManager.dtor, h]
      · simp
      · intro hd hhd
        simp only [List.mem_append, List.mem_map]
        exact Or.inl (Or.inl (Or.inr ⟨hd, hhd, rfl⟩))
      · simp
      · intro hs
        simp [hs]
    · obtain ⟨p1, p2, h⟩ := drain_split .output output a hout
      refine ⟨(if !m.m_stop then [.stop_executor] else []) ++ [.delete_executor] ++
          m.m_udfs.map (fun handle => .delete_handle handle.m_name) ++ [.delete_profile] ++
          drain .input input ++ [.delete_queue .input] ++ p1,
        p2 ++ [.delete_queue .output] ++ [.config_destroy], ?_, ?_, ?_, ?_, ?_⟩
      · simp [UdfManager.dtor, h]
      · simp
      · intro hd hhd
        simp only [List.mem_append, List.mem_map]
        exact Or.inl (Or.inl (Or.inl (Or.inl (Or.inr ⟨hd, hhd, rfl⟩))))
      · simp
      · intro hs
        simp [hs]
  · intro b
    unfold UdfManager.dtor
    simp only [List.count_append, drain_count, count_delete_frame_handles]
    split <;> simp [List.count_cons]

/-- C23, at a manager with the handle `a` whose input queue holds the frame at address 1 and
whose output queue holds the frame at address 2: the handle and the profiling hook are
deleted before either frame. -/
theorem handles_deleted_before_queues_drained_witness :
    (sample_manager [const_udf "a" .UDF_OK] false).dtor [some 1] [some 2] =
      [.stop_executor, .delete_executor, .delete_handle "a", .delete_profile,
        .pop .input (some 1), .delete_frame 1, .delete_queue .input,
        .pop .output (some 2), .delete_frame 2, .delete_queue .output, .config_destroy] ∧
      ∃ pre post, (sample_manager [const_udf "a" .UDF_OK] false).dtor [some 1] [some 2] =
        pre ++ .delete_frame 2 :: post ∧ .delete_executor ∈ pre ∧
        (∀ h ∈ (sample_manager [const_udf "a" .UDF_OK] false).m_udfs,
          .delete_handle h.m_name ∈ pre) ∧
        .delete_profile ∈ pre ∧
        ((sample_manager [const_udf "a" .UDF_OK] false).m_stop = false →
          pre.head? = some .stop_executor) :=
  ⟨by decide, (handles_deleted_before_queues_drained
    (sample_manager [const_udf "a" .UDF_OK] false) [some 1] [some 2] 2 (by decide)).1⟩

/-! ## Where the worker reads the stop flag -/

theorem stop_load_first_head (set_at : Moment) (i : Nat) :
    set_at.stop_load i = decide (set_at.first_head ≤ i) := by
  cases set_at <;> simp [Moment.stop_load, Moment.first_head, Nat.lt_iff_add_one_le]

theorem run_loop_tick (m : UdfManager) (q : FrameQueue) (wait : Wait) (s t : List Tick)
    (h : ∀ w, m.run_loop q s w = m.run_loop q t w) (w : Worker) :
    m.run_loop q (wait.tick :: s) w = m.run_loop q (wait.tick :: t) w := by
  cases hf : w.fault with
  | some e => simp [UdfManager.run_loop, hf]
  | none =>
    cases wait with
    | timeout =>
      show m.run_loop q (.timeout :: s) w = m.run_loop q (.timeout :: t) w
      rw [run_loop_timeout m q s w hf, run_loop_timeout m q t w hf, h]
    | popped frame =>
      show m.run_loop q (.popped frame :: s) w = m.run_loop q (.popped frame :: t) w
      rw [run_loop_popped m q s w frame hf, run_loop_popped m q t w frame hf, h]

theorem run_loop_nil (m : UdfManager) (q : FrameQueue) (w : Worker) :
    m.run_loop q [] w = w := rfl

theorem run_loop_observed (m : UdfManager) (q : FrameQueue) (set_at : Moment)
    (waits : List Wait) :
    ∀ (i : Nat) (w : Worker), m.run_loop q (observed set_at i waits) w =
      m.run_loop q ((waits.take (set_at.first_head - i)).map Wait.tick) w := by
  induction waits with
  | nil => intro i w; simp [observed]
  | cons wait rest ih =>
    intro i w
    by_cases hle : set_at.first_head ≤ i
    · have hs : set_at.stop_load i = true := by rw [stop_load_first_head]; simpa using hle
      have h0 : set_at.first_head - i = 0 := Nat.sub_eq_zero_of_le hle
      simp only [observed, hs, if_true, h0, List.take_zero, List.map_nil]
      rw [run_loop_stop, run_loop_nil]
    · have hs : set_at.stop_load i = false := by rw [stop_load_first_head]; simpa using hle
      have h1 : set_at.first_head - i = (set_at.first_head - (i + 1)) + 1 := by omega
      simp only [observed, hs, h1, List.take_succ_cons, List.map_cons]
      exact run_loop_tick m q wait _ _ (ih (i + 1)) w

theorem popped_frames_tick (wait : Wait) (s t : List Tick)
    (h : popped_frames s = popped_frames t) :
    popped_frames (wait.tick :: s) = popped_frames (wait.tick :: t) := by
  cases wait with
  | timeout => simpa [Wait.tick, popped_frames] using h
  | popped frame =>
    cases frame with
    | none => simpa [Wait.tick, popped_frames] using h
    | some p => simpa [Wait.tick, popped_frames] using h

theorem popped_frames_observed (set_at : Moment) (waits : List Wait) :
    ∀ i : Nat, popped_frames (observed set_at i waits) =
      popped_frames ((waits.take (set_at.first_head - i)).map Wait.tick) := by
  induction waits with
  | nil => intro i; simp [observed]
  | cons wait rest ih =>
    intro i
    by_cases hle : set_at.first_head ≤ i
    · have hs : set_at.stop_load i = true := by rw [stop_load_first_head]; simpa using hle
      have h0 : set_at.first_head - i = 0 := Nat.sub_eq_zero_of_le hle
      simp [observed, hs, h0, popped_frames]
    · have hs : set_at.stop_load i = false := by rw [stop_load_first_head]; simpa using hle
      have h1 : set_at.first_head - i = (set_at.first_head - (i + 1)) + 1 := by omega
      simp only [observed, hs, h1, List.take_succ_cons, List.map_cons]
      exact popped_frames_tick wait _ _ (ih (i + 1))

/-- C24, as the code has it: the worker body reads the stop flag at the head of its loop and
nowhere else. Whenever the flag is set, be it before a loop head, during the timed wait of a
pass or while a call of `process` of a pass is in flight, the worker does exactly what it
does on the passes before the first loop head that follows that moment, each carried through
in full, and it takes exactly the frames of those passes from the input queue. -/
theorem stop_flag_read_at_loop_head (m : UdfManager) (q : FrameQueue) (set_at : Moment)
    (waits : List Wait) :
    m.run q (observed set_at 0 waits) =
        m.run q ((waits.take set_at.first_head).map Wait.tick) ∧
      popped_frames (observed set_at 0 waits) =
        popped_frames ((waits.take set_at.first_head).map Wait.tick) :=
  ⟨run_loop_observed m q set_at waits 0 Worker.start, popped_frames_observed set_at waits 0⟩

/-- C24 as stated does not hold: with the handles `a` and `b`, a flag set while the call of
`a` on the frame at address 1 is in flight does not keep the worker from calling `b` on that
frame; and a flag set during the timed wait of the first pass does not keep the worker from
taking the frame from the input queue and calling both handles on it. -/
theorem flag_set_mid_pass_is_not_seen :
    calls ((sample_manager [const_udf "a" .UDF_OK, const_udf "b" .UDF_OK] false).run open_queue
        (observed (.during_call 0 0) 0 [.popped (some (sample_frame 1))])).trace =
      [("a", some .UDF_OK), ("b", some .UDF_OK)] ∧
    popped_frames (observed (.during_wait 0) 0 [.popped (some (sample_frame 1))]) =
      [sample_frame 1] ∧
    calls ((sample_manager [const_udf "a" .UDF_OK, const_udf "b" .UDF_OK] false).run open_queue
        (observed (.during_wait 0) 0 [.popped (some (sample_frame 1))])).trace =
      [("a", some .UDF_OK), ("b", some .UDF_OK)] := by
  refine ⟨?_, ?_, ?_⟩ <;> decide

/-! ## The executor and the loads -/

/-- C25 (the code does otherwise): by the time the constructor reaches the loop that loads the
UDFs, it has created the `ThreadExecutor`: `new ThreadExecutor` is the first step of a
construction, every call of the loader comes after it, and when an element of `udfs` cannot be
loaded the constructor throws with the executor already created. -/
theorem executor_created_before_loads (env : Collaborators) (udf_cfg : config_t)
    (service_name : String) (enc_type : EncodeType) (enc_lvl : Int) (elems : List ConfigValue)
    (max_workers : Int) (hudfs : config_get udf_cfg "udfs" = some (.array elems))
    (hmw : UdfManager.read_max_workers udf_cfg = .ok max_workers) :
    (∃ loads, (UdfManager.new env udf_cfg service_name enc_type enc_lvl).steps =
        .new_executor max_workers :: .new_profiling :: loads ∧
        (∀ n, CtorStep.new_executor n ∉ loads) ∧
        loads = (UdfManager.load_udfs env service_name elems
          (config_value_array_len elems) 0 []).1) ∧
      ((∃ j e, j < elems.length ∧ elems.get? j = some e ∧ unloadable env e) →
        (∃ x, (UdfManager.new env udf_cfg service_name enc_type enc_lvl).result = .error x) ∧
          CtorStep.new_executor max_workers ∈
            (UdfManager.new env udf_cfg service_name enc_type enc_lvl).steps) := by
  have hsteps : (UdfManager.new env udf_cfg service_name enc_type enc_lvl).steps =
      .new_executor max_workers :: .new_profiling ::
        (UdfManager.load_udfs env service_name elems (config_value_array_len elems) 0 []).1 := by
    simp [UdfManager.new, hudfs, hmw]
  refine ⟨⟨_, hsteps, fun n => load_udfs_steps env service_name elems _ 0 [] n, rfl⟩, ?_⟩
  rintro ⟨j, e, hj, hget, hun⟩
  refine ⟨?_, by rw [hsteps]; simp⟩
  obtain ⟨x, hx⟩ := load_udfs_unloadable env service_name elems (config_value_array_len elems)
    0 [] ⟨j, e, Nat.zero_le j, by simpa [config_value_array_len] using hj, hget, hun⟩
  refine ⟨x, ?_⟩
  simp [UdfManager.new, hudfs, hmw, hx]

/-- C25, at a configuration whose only UDF, `missing`, the loader cannot find: the executor is
created with 4 workers, then the load fails and the constructor throws. -/
theorem executor_created_before_loads_witness :
    (UdfManager.new sample_collaborators
        (sample_config [.object [("name", .string "missing")]] Option.none) "svc" .NONE 0).steps =
      [.new_executor 4, .new_profiling, .load 0 "missing" 1 false] ∧
    ∃ x, (UdfManager.new sample_collaborators
        (sample_config [.object [("name", .string "missing")]] Option.none) "svc" .NONE 0).result =
      .error x :=
  ⟨by
      obtain ⟨loads, hsteps, -, hloads⟩ := (executor_created_before_loads sample_collaborators
        (sample_config [.object [("name", .string "missing")]] Option.none) "svc" .NONE 0
        [.object [("name", .string "missing")]] 4 rfl rfl).1
      rw [hsteps, hloads]
      rfl,
    ((executor_created_before_loads sample_collaborators
        (sample_config [.object [("name", .string "missing")]] Option.none) "svc" .NONE 0
        [.object [("name", .string "missing")]] 4 rfl rfl).2
      ⟨0, .object [("name", .string "missing")], by decide, rfl,
        Or.inr (Or.inr (Or.inr ⟨"missing", rfl, fun cfg _ => rfl⟩))⟩).1⟩

/-! ## The frame in the push block -/

theorem run_handles_ok_frame (m : UdfManager) (addr : Nat) (hs : List UdfHandle) (w : Worker)
    (f : Frame) (hf : w.frame = some f) (hn : w.fault = none)
    (hfault : (m.run_handles addr hs w).fault = none)
    (hret : (m.run_handles addr hs w).ret = .UDF_OK) :
    (m.run_handles addr hs w).frame ≠ none := by
  obtain ⟨evs, -, -, -, hcase⟩ := run_handles_outcome m addr hs w f hf hn
  rcases hcase with ⟨-, -, hfr, -⟩ | ⟨init, udf, r, -, -, hr, -, -, -, hrr, -⟩ |
    ⟨init, udf, e, -, -, he, -⟩
  · exact hfr
  · exact absurd (hrr.symm.trans hret) hr
  · rw [hfault] at he
    exact absurd he (by simp)

theorem run_handles_fault_kind (m : UdfManager) (addr : Nat) (hs : List UdfHandle) (w : Worker)
    (f : Frame) (hf : w.frame = some f) (hn : w.fault = none) :
    (m.run_handles addr hs w).fault ≠ some .null_frame := by
  obtain ⟨evs, -, -, -, hcase⟩ := run_handles_outcome m addr hs w f hf hn
  rcases hcase with ⟨-, -, -, hfa, -⟩ | ⟨init, udf, r, -, -, -, -, -, hfa, -⟩ |
    ⟨init, udf, e, -, -, he, -⟩
  · rw [hfa]; simp
  · rw [hfa]; simp
  · rw [he]; simp

theorem push_frame_fault_of_frame (m : UdfManager) (q : FrameQueue) (addr : Nat) (w : Worker)
    (hf : w.frame ≠ none) : (m.push_frame q addr w).fault = w.fault := by
  rcases push_frame_cases q addr w with hfault | hret | ⟨hn, hr, hnull | ⟨f, hf, hq⟩⟩
  · rw [push_frame_of_fault m q addr w hfault]
  · rw [push_frame_of_ret m q addr w hret]
  · exact absurd hnull hf
  · rcases hq with hq | ⟨hq1, hq2⟩ | ⟨hq, hpw⟩ | ⟨hq, hpw⟩
    · rw [push_frame_success m q addr w f hn hr hf hq]
    · rw [push_frame_refused m q addr w f hn hr hf hq1 hq2]
    · rw [push_frame_full_success m q addr w f hn hr hf hq hpw]
    · rw [push_frame_full_failed m q addr w f hn hr hf hq hpw]

theorem push_frame_after_chain (m : UdfManager) (q : FrameQueue) (addr : Nat)
    (hs : List UdfHandle) (w : Worker) (f : Frame) (hf : w.frame = some f)
    (hn : w.fault = none) :
    (m.push_frame q addr (m.run_handles addr hs w)).fault ≠ some .null_frame := by
  by_cases hfault : (m.run_handles addr hs w).fault = none
  · by_cases hret : (m.run_handles addr hs w).ret = .UDF_OK
    · rw [push_frame_fault_of_frame m q addr _
        (run_handles_ok_frame m addr hs w f hf hn hfault hret), hfault]
      simp
    · rw [push_frame_of_ret m q addr _ hret, hfault]
      simp
  · rw [push_frame_of_fault m q addr _ hfault]
    exact run_handles_fault_kind m addr hs w f hf hn

theorem process_frame_no_null_frame (m : UdfManager) (q : FrameQueue) (w : Worker)
    (x : Option FramePtr) (hw : w.fault ≠ some .null_frame) :
    (m.process_frame q w x).fault ≠ some .null_frame := by
  cases x with
  | none => exact hw
  | some p =>
    cases ht : p.obj.get_encode_type 0 with
    | error e => rw [process_frame_type_error m q w p e ht]; simp
    | ok t =>
      cases hl : p.obj.get_encode_level 0 with
      | error e => rw [process_frame_level_error m q w p t e ht hl]; simp
      | ok l =>
        rw [process_frame_ok m q w p t l ht hl]
        by_cases hn : w.fault = none
        · exact push_frame_after_chain m q p.addr m.m_udfs _ _ rfl hn
        · obtain ⟨w0, hw0⟩ : ∃ w0 : Worker, w0 =
              { w with frame := some (m.fix_encoding p.addr p.obj t l).1,
                       trace := w.trace ++ (m.fix_encoding p.addr p.obj t l).2 } := ⟨_, rfl⟩
          have hn0 : w0.fault ≠ none := by rw [hw0]; exact hn
          have hw1 : w0.fault ≠ some .null_frame := by rw [hw0]; exact hw
          rw [← hw0, run_handles_idle m p.addr m.m_udfs w0 (Or.inr hn0),
            push_frame_of_fault m q p.addr w0 hn0]
          exact hw1

theorem run_loop_no_null_frame (m : UdfManager) (q : FrameQueue) (ticks : List Tick) :
    ∀ w : Worker, w.fault ≠ some .null_frame →
      (m.run_loop q ticks w).fault ≠ some .null_frame := by
  induction ticks with
  | nil => intro w hw; exact hw
  | cons tick rest ih =>
    intro w hw
    cases hf : w.fault with
    | some e =>
      have : m.run_loop q (tick :: rest) w = w := by simp [UdfManager.run_loop, hf]
      rw [this]; exact hw
    | none =>
      cases tick with
      | stop => rw [run_loop_stop]; exact hw
      | timeout => rw [run_loop_timeout m q rest w hf]; exact ih w hw
      | popped frame =>
        rw [run_loop_popped m q rest w frame hf]
        exact ih _ (process_frame_no_null_frame m q w frame hw)

/-- C26: after the loop over the handles on a frame, whatever the handles and whatever value
the local `ret` had before, the test `ret == UDF_OK` holds only with the pointer `frame` not
`NULL`; when the loop deleted the frame the push block does nothing; and no run of the worker
body ever enters the push block with `frame` equal to `NULL`. -/
theorem push_block_frame_not_null (m : UdfManager) (q : FrameQueue) (addr : Nat)
    (hs : List UdfHandle) (w : Worker) (f : Frame) (hf : w.frame = some f)
    (hn : w.fault = none) :
    ((m.run_handles addr hs w).fault = none → (m.run_handles addr hs w).ret = .UDF_OK →
        (m.run_handles addr hs w).frame ≠ none) ∧
      ((m.run_handles addr hs w).frame = none →
        m.push_frame q addr (m.run_handles addr hs w) = m.run_handles addr hs w) ∧
      (∀ ticks, (m.run q ticks).fault ≠ some .null_frame) := by
  refine ⟨run_handles_ok_frame m addr hs w f hf hn, ?_, ?_⟩
  · intro hnone
    by_cases hfault : (m.run_handles addr hs w).fault = none
    · by_cases hret : (m.run_handles addr hs w).ret = .UDF_OK
      · exact absurd hnone (run_handles_ok_frame m addr hs w f hf hn hfault hret)
      · exact push_frame_of_ret m q addr _ hret
    · exact push_frame_of_fault m q addr _ hfault
  · intro ticks
    exact run_loop_no_null_frame m q ticks Worker.start (by simp [Worker.start])

/-- C26, at a chain whose first handle drops the frame and whose second would return
`UDF_OK`: the frame is deleted, `ret` is `UDF_DROP_FRAME` and the push block adds nothing. -/
theorem push_block_frame_not_null_witness :
    ((sample_manager [] false).run_handles 1
        [const_udf "a" .UDF_DROP_FRAME, const_udf "b" .UDF_OK]
        { Worker.start with frame := some (sample_frame 1).obj }).frame = none ∧
      (sample_manager [] false).push_frame open_queue 1
          ((sample_manager [] false).run_handles 1
            [const_udf "a" .UDF_DROP_FRAME, const_udf "b" .UDF_OK]
            { Worker.start with frame := some (sample_frame 1).obj }) =
        (sample_manager [] false).run_handles 1
          [const_udf "a" .UDF_DROP_FRAME, const_udf "b" .UDF_OK]
          { Worker.start with frame := some (sample_frame 1).obj } :=
  ⟨rfl, (push_block_frame_not_null (sample_manager [] false) open_queue 1
      [const_udf "a" .UDF_DROP_FRAME, const_udf "b" .UDF_OK]
      { Worker.start with frame := some (sample_frame 1).obj } (sample_frame 1).obj
      rfl rfl).2.1 rfl⟩

/-! ## The verdict kept across passes -/

theorem worker_eq (w w' : Worker) (hfr : w.frame = w'.frame) (hr : w.ret = w'.ret)
    (ht : w.trace = w'.trace) (ho : w.output = w'.output) (hfa : w.fault = w'.fault) :
    w = w' := by
  cases w; cases w'
  simp only at hfr hr ht ho hfa
  simp [hfr, hr, ht, ho, hfa]

theorem push_frame_ret (m : UdfManager) (q : FrameQueue) (addr : Nat) (w : Worker) :
    (m.push_frame q addr w).ret = w.ret := by
  rcases push_frame_cases q addr w with hfault | hret | ⟨hn, hr, hnull | ⟨f, hf, hq⟩⟩
  · rw [push_frame_of_fault m q addr w hfault]
  · rw [push_frame_of_ret m q addr w hret]
  · rw [push_frame_null m q addr w hn hr hnull]
  · rcases hq with hq | ⟨hq1, hq2⟩ | ⟨hq, hpw⟩ | ⟨hq, hpw⟩
    · rw [push_frame_success m q addr w f hn hr hf hq]
    · rw [push_frame_refused m q addr w f hn hr hf hq1 hq2]
    · rw [push_frame_full_success m q addr w f hn hr hf hq hpw]
    · rw [push_frame_full_failed m q addr w f hn hr hf hq hpw]

theorem run_handles_output (m : UdfManager) (addr : Nat) (hs : List UdfHandle) (w : Worker) :
    (m.run_handles addr hs w).output = w.output := by
  by_cases hidle : w.frame = none ∨ w.fault ≠ none
  · rw [run_handles_idle m addr hs w hidle]
  · obtain ⟨hf, hn⟩ := not_or.mp hidle
    obtain ⟨f, hf⟩ := Option.ne_none_iff_exists'.mp hf
    exact (run_handles_outcome m addr hs w f hf (not_not.mp hn)).choose_spec.2.1

theorem chain_and_push_agree (m : UdfManager) (q : FrameQueue) (addr : Nat)
    (hs : List UdfHandle) (w1 w2 : Worker) (hfr : w1.frame = w2.frame)
    (hfa : w1.fault = w2.fault) (htr : w1.trace = w2.trace) (hou : w1.output = w2.output)
    (hf1 : w1.frame ≠ none) (hn1 : w1.fault = none) (hret : hs = [] → w1.ret = w2.ret) :
    (m.push_frame q addr (m.run_handles addr hs w1)).trace =
        (m.push_frame q addr (m.run_handles addr hs w2)).trace ∧
      (m.push_frame q addr (m.run_handles addr hs w1)).output =
        (m.push_frame q addr (m.run_handles addr hs w2)).output ∧
      (m.push_frame q addr (m.run_handles addr hs w1)).fault =
        (m.push_frame q addr (m.run_handles addr hs w2)).fault ∧
      (m.push_frame q addr (m.run_handles addr hs w1)).frame =
        (m.push_frame q addr (m.run_handles addr hs w2)).frame ∧
      ((m.push_frame q addr (m.run_handles addr hs w1)).fault = none →
        (m.push_frame q addr (m.run_handles addr hs w1)).ret =
          (m.push_frame q addr (m.run_handles addr hs w2)).ret) := by
  obtain ⟨cfr, cfa, cret, evs, ctr1, ctr2⟩ := run_handles_congr m addr hs w1 w2 hfr hfa
  have ctr : (m.run_handles addr hs w1).trace = (m.run_handles addr hs w2).trace := by
    rw [ctr1, ctr2, htr]
  have cou : (m.run_handles addr hs w1).output = (m.run_handles addr hs w2).output := by
    rw [run_handles_output, run_handles_output, hou]
  by_cases hfault : (m.run_handles addr hs w1).fault = none
  · have hr : (m.run_handles addr hs w1).ret = (m.run_handles addr hs w2).ret := by
      by_cases hempty : hs = []
      · exact cret (Or.inl (hret hempty))
      · exact cret (Or.inr ⟨hempty, hf1, hn1, hfault⟩)
    have heq : m.run_handles addr hs w1 = m.run_handles addr hs w2 :=
      worker_eq _ _ cfr hr ctr cou cfa
    rw [← heq]
    exact ⟨rfl, rfl, rfl, rfl, fun _ => rfl⟩
  · have hfault2 : (m.run_handles addr hs w2).fault ≠ none := by
      rw [← cfa]; exact hfault
    rw [push_frame_of_fault m q addr _ hfault, push_frame_of_fault m q addr _ hfault2]
    exact ⟨ctr, cou, cfa, cfr, fun h => absurd h hfault⟩

theorem process_frame_ret_of_empty (m : UdfManager) (q : FrameQueue) (w : Worker)
    (x : Option FramePtr) (hempty : m.m_udfs = [])
    (hfault : (m.process_frame q w x).fault = none) : (m.process_frame q w x).ret = w.ret := by
  cases x with
  | none => rfl
  | some p =>
    cases ht : p.obj.get_encode_type 0 with
    | error e =>
      rw [process_frame_type_error m q w p e ht] at hfault
      exact absurd hfault (by simp)
    | ok t =>
      cases hl : p.obj.get_encode_level 0 with
      | error e =>
        rw [process_frame_level_error m q w p t e ht hl] at hfault
        exact absurd hfault (by simp)
      | ok l =>
        rw [process_frame_ok m q w p t l ht hl, push_frame_ret, hempty]
        rfl

theorem process_frame_reset_step (m : UdfManager) (q : FrameQueue) (w : Worker)
    (x : Option FramePtr) (hn : w.fault = none) (hinv : m.m_udfs = [] → w.ret = .UDF_OK) :
    (m.process_frame q w x).trace = (m.process_frame_reset q w x).trace ∧
      (m.process_frame q w x).output = (m.process_frame_reset q w x).output ∧
      (m.process_frame q w x).fault = (m.process_frame_reset q w x).fault ∧
      (m.process_frame q w x).frame = (m.process_frame_reset q w x).frame ∧
      ((m.process_frame q w x).fault = none →
        (m.process_frame q w x).ret = (m.process_frame_reset q w x).ret ∧
          (m.m_udfs = [] → (m.process_frame q w x).ret = .UDF_OK)) := by
  have hlast : (m.process_frame q w x).fault = none → m.m_udfs = [] →
      (m.process_frame q w x).ret = .UDF_OK := fun hfault hempty => by
    rw [process_frame_ret_of_empty m q w x hempty hfault, hinv hempty]
  cases x with
  | none => exact ⟨rfl, rfl, rfl, rfl, fun _ => ⟨rfl, hinv⟩⟩
  | some p =>
    have hstep : m.process_frame_reset q w (some p) =
        m.process_frame q { w with ret := .UDF_OK } (some p) := rfl
    rw [hstep]
    cases ht : p.obj.get_encode_type 0 with
    | error e =>
      rw [process_frame_type_error m q w p e ht, process_frame_type_error m q _ p e ht]
      exact ⟨rfl, rfl, rfl, rfl, fun h => absurd h (by simp)⟩
    | ok t =>
      cases hl : p.obj.get_encode_level 0 with
      | error e =>
        rw [process_frame_level_error m q w p t e ht hl,
          process_frame_level_error m q _ p t e ht hl]
        exact ⟨rfl, rfl, rfl, rfl, fun h => absurd h (by simp)⟩
      | ok l =>
        have hl0 := hlast
        rw [process_frame_ok m q w p t l ht hl] at hl0 ⊢
        rw [process_frame_ok m q _ p t l ht hl]
        obtain ⟨a1, a2, a3, a4, a5⟩ := chain_and_push_agree m q p.addr m.m_udfs
          { w with frame := some (m.fix_encoding p.addr p.obj t l).1,
                   trace := w.trace ++ (m.fix_encoding p.addr p.obj t l).2 }
          { w with ret := .UDF_OK, frame := some (m.fix_encoding p.addr p.obj t l).1,
                   trace := w.trace ++ (m.fix_encoding p.addr p.obj t l).2 }
          rfl rfl rfl rfl (by simp) hn (fun hempty => hinv hempty)
        exact ⟨a1, a2, a3, a4, fun h => ⟨a5 h, hl0 h⟩⟩

theorem run_loop_reset_agrees (m : UdfManager) (q : FrameQueue) (ticks : List Tick) :
    ∀ w w' : Worker, w.trace = w'.trace → w.output = w'.output → w.fault = w'.fault →
      w.frame = w'.frame →
      (w.fault = none → w.ret = w'.ret ∧ (m.m_udfs = [] → w.ret = .UDF_OK)) →
      (m.run_loop q ticks w).trace = (m.run_loop_reset q ticks w').trace ∧
        (m.run_loop q ticks w).output = (m.run_loop_reset q ticks w').output ∧
        (m.run_loop q ticks w).fault = (m.run_loop_reset q ticks w').fault ∧
        (m.run_loop q ticks w).frame = (m.run_loop_reset q ticks w').frame ∧
        ((m.run_loop q ticks w).fault = none →
          (m.run_loop q ticks w).ret = (m.run_loop_reset q ticks w').ret) := by
  induction ticks with
  | nil =>
    intro w w' ht ho hfa hfr hret
    exact ⟨ht, ho, hfa, hfr, fun h => (hret h).1⟩
  | cons tick rest ih =>
    intro w w' ht ho hfa hfr hret
    cases hf : w.fault with
    | some e =>
      have h1 : m.run_loop q (tick :: rest) w = w := by simp [UdfManager.run_loop, hf]
      have h2 : m.run_loop_reset q (tick :: rest) w' = w' := by
        simp [UdfManager.run_loop_reset, ← hfa, hf]
      rw [h1, h2]
      exact ⟨ht, ho, hfa, hfr, fun h => (hret h).1⟩
    | none =>
      have heq : w = w' := worker_eq w w' hfr (hret hf).1 ht ho hfa
      subst heq
      cases tick with
      | stop =>
        have h2 : m.run_loop_reset q (.stop :: rest) w = w := by
          simp [UdfManager.run_loop_reset, hf]
        rw [run_loop_stop, h2]
        exact ⟨rfl, rfl, rfl, rfl, fun _ => rfl⟩
      | timeout =>
        have h2 : m.run_loop_reset q (.timeout :: rest) w = m.run_loop_reset q rest w := by
          simp [UdfManager.run_loop_reset, hf]
        rw [run_loop_timeout m q rest w hf, h2]
        exact ih w w rfl rfl rfl rfl hret
      | popped frame =>
        have h2 : m.run_loop_reset q (.popped frame :: rest) w =
            m.run_loop_reset q rest (m.process_frame_reset q w frame) := by
          simp [UdfManager.run_loop_reset, hf]
        rw [run_loop_popped m q rest w frame hf, h2]
        obtain ⟨s1, s2, s3, s4, s5⟩ := process_frame_reset_step m q w frame hf (hret hf).2
        exact ih _ _ s1 s2 s3 s4 s5

/-- C27: for every manager, output queue and sequence of observations, the worker body, which
keeps the local `ret` from one pass of its loop to the next, and the variant that sets `ret`
to `UDF_OK` at the start of each frame have the same events, hand the same frames to the output
queue, end with the same fault or none, and hold the same frame; and while the thread has not
ended by a fault they also hold the same `ret`. -/
theorem stale_ret_same_as_reset (m : UdfManager) (q : FrameQueue) (ticks : List Tick) :
    (m.run q ticks).trace = (m.run_reset q ticks).trace ∧
      (m.run q ticks).output = (m.run_reset q ticks).output ∧
      (m.run q ticks).fault = (m.run_reset q ticks).fault ∧
      (m.run q ticks).frame = (m.run_reset q ticks).frame ∧
      ((m.run q ticks).fault = none → (m.run q ticks).ret = (m.run_reset q ticks).ret) :=
  run_loop_reset_agrees m q ticks Worker.start Worker.start rfl rfl rfl rfl
    (fun _ => ⟨rfl, fun _ => rfl⟩)

/-! ## A library whose `initialize_udf` returns `NULL` -/

theorem native_process_null_udf (h : NativeUdfHandle) (out_addr free_fn : Nat) (frame : Frame)
    (hlive : frame.live) (hudf : h.m_udf = none) :
    h.process out_addr free_fn frame = .error .null_udf := by
  obtain ⟨v, hv, hhead⟩ := live_view_of_live frame hlive
  have hdim : frame.dim_view 0 = .ok v := by
    unfold Frame.dim_view
    cases hfr : frame.m_frames with
    | nil => rw [hfr] at hhead; simp at hhead
    | cons x rest =>
      rw [hfr] at hhead
      simp only [List.head?_cons, Option.some.injEq] at hhead
      simp [hhead]
  unfold NativeUdfHandle.process
  simp only [hdim, hv, hudf]

/-- C28 (the code does otherwise): when the function `initialize_udf` of the library returns
`NULL`, `initialize` stores the pointer in `m_udf` and returns true all the same; `process`
of the handle so initialized then calls through the null `m_udf` on every frame the queues
can hold. -/
theorem native_initialize_true_with_null_udf (h : NativeUdfHandle) (w : NativeWorld)
    (config : config_t) (ld lib : String) (lh fn : Nat)
    (hbase : w.base_initialize config = true) (hld : w.ld_library_path = some ld)
    (hs : (find_library w.access ("lib" ++ h.m_name ++ ".so") (getline_split ld ':')).2 =
      some lib)
    (hopen : w.dlopen lib = some lh) (hsym : w.dlsym lh "initialize_udf" = some fn)
    (hcall : w.initialize_udf fn config = .ok none) :
    ( NativeUdfHandle.initialize h w config).result = .ok true ∧
      ( NativeUdfHandle.initialize h w config).handle.m_udf = none ∧
      ∀ out_addr free_fn frame, frame.live →
        ( NativeUdfHandle.initialize h w config).handle.process out_addr free_fn frame =
          .error .null_udf := by
  have hinit := native_initialize_loaded h w config ld lib lh fn none hbase hld hs hopen hsym
    hcall
  refine ⟨by rw [hinit], by rw [hinit], ?_⟩
  intro out_addr free_fn frame hlive
  exact native_process_null_udf _ out_addr free_fn frame hlive (by rw [hinit])

/-- C28, at a library found on the path whose `initialize_udf` returns `NULL`: `initialize`
returns true, and `process` on a frame with one view faults on the null `m_udf`. -/
theorem native_initialize_true_with_null_udf_witness :
    ( NativeUdfHandle.initialize fresh_native null_world { cfg := .none }).result = .ok true ∧
      ( NativeUdfHandle.initialize fresh_native null_world { cfg := .none }).handle.process 100 0
        (sample_frame 1).obj = .error .null_udf :=
  ⟨(native_initialize_true_with_null_udf fresh_native null_world { cfg := .none } "/opt/udfs"
      "/opt/udfs/libudf.so" 7 9 rfl rfl (by decide) rfl rfl rfl).1,
    (native_initialize_true_with_null_udf fresh_native null_world { cfg := .none } "/opt/udfs"
      "/opt/udfs/libudf.so" 7 9 rfl rfl (by decide) rfl rfl rfl).2.2 100 0 (sample_frame 1).obj
      (by decide)⟩

/-! ## The library handle over the life of a native handle -/

theorem closes_append (lib : Nat) (s t : List NativeStep) :
    closes lib (s ++ t) = closes lib s + closes lib t := by
  simp [closes]

theorem find_library_closes_nothing (access : String → Bool) (file : String)
    (paths : List String) (lib : Nat) : closes lib (find_library access file paths).1 = 0 := by
  induction paths with
  | nil => simp [find_library, closes]
  | cons path rest ih =>
    unfold find_library
    by_cases hp : path = ""
    · rw [if_pos hp]; exact ih
    · rw [if_neg hp]
      by_cases ha : access (path ++ "/" ++ file) = true
      · rw [if_pos ha]; simp [closes]
      · rw [if_neg ha]
        have hc := ih
        simp only [closes] at hc ⊢
        simp [List.count_cons, hc]

/-- C29 (the code does otherwise on one path): over `initialize` followed by the destructor,
for a handle that has opened the library `lh`: when the symbol `initialize_udf` is missing,
`dlclose(lh)` is called twice, by `initialize` and again by the destructor; when the symbol is
found it is called once, whether `initialize_udf` returns or throws, and when it returns a UDF
object the last two steps are `delete m_udf`, then `dlclose(lh)`. -/
theorem library_closed_twice_without_symbol (h : NativeUdfHandle) (w : NativeWorld)
    (config : config_t) (ld lib : String) (lh : Nat)
    (hbase : w.base_initialize config = true) (hld : w.ld_library_path = some ld)
    (hs : (find_library w.access ("lib" ++ h.m_name ++ ".so") (getline_split ld ':')).2 =
      some lib)
    (hopen : w.dlopen lib = some lh) (hudf : h.m_udf = none) :
    (w.dlsym lh "initialize_udf" = none →
        closes lh (h.life w config) = 2 ∧
        h.life w config =
          (find_library w.access ("lib" ++ h.m_name ++ ".so") (getline_split ld ':')).1 ++
            [.dlopen lib (some lh), .dlsym lh "initialize_udf" false, .dlclose lh,
              .dlclose lh]) ∧
      (∀ fn, w.dlsym lh "initialize_udf" = some fn →
        closes lh (h.life w config) = 1 ∧
        ∀ udf, w.initialize_udf fn config = .ok (some udf) →
          h.life w config =
            (find_library w.access ("lib" ++ h.m_name ++ ".so") (getline_split ld ':')).1 ++
              [.dlopen lib (some lh), .dlsym lh "initialize_udf" true,
                .call_initialize_udf fn true, .delete_udf, .dlclose lh]) := by
  refine ⟨?_, ?_⟩
  · intro hsym
    have hinit := native_initialize_no_symbol h w config ld lib lh hbase hld hs hopen hsym
    have hlife : h.life w config =
        (find_library w.access ("lib" ++ h.m_name ++ ".so") (getline_split ld ':')).1 ++
          [.dlopen lib (some lh), .dlsym lh "initialize_udf" false, .dlclose lh,
            .dlclose lh] := by
      unfold NativeUdfHandle.life
      rw [hinit]
      simp [ NativeUdfHandle.dtor, hudf]
    refine ⟨?_, hlife⟩
    rw [hlife, closes_append, find_library_closes_nothing]
    simp [closes, List.count_cons]
  · intro fn hsym
    cases hcall : w.initialize_udf fn config with
    | error e =>
      have hinit := native_initialize_threw h w config ld lib lh fn e hbase hld hs hopen hsym
        hcall
      refine ⟨?_, fun udf hu => by simp at hu⟩
      unfold NativeUdfHandle.life
      rw [hinit]
      simp only [ NativeUdfHandle.dtor, hudf, closes_append, find_library_closes_nothing]
      simp [closes, List.count_cons]
    | ok u =>
      have hinit := native_initialize_loaded h w config ld lib lh fn u hbase hld hs hopen hsym
        hcall
      refine ⟨?_, ?_⟩
      · unfold NativeUdfHandle.life
        rw [hinit]
        simp only [ NativeUdfHandle.dtor, closes_append, find_library_closes_nothing]
        cases u <;> simp [closes, List.count_cons]
      · intro udf hu
        have hu2 : u = some udf := by simpa using hu
        subst hu2
        unfold NativeUdfHandle.life
        rw [hinit]
        simp [ NativeUdfHandle.dtor]

/-- C29, at a library found on the path that has no symbol `initialize_udf`: the handle 7 that
`dlopen` returned is closed twice. -/
theorem library_closed_twice_without_symbol_witness :
    closes 7 (fresh_native.life bare_world { cfg := .none }) = 2 ∧
      fresh_native.life bare_world { cfg := .none } =
        [.access "/opt/udfs/libudf.so" true, .dlopen "/opt/udfs/libudf.so" (some 7),
          .dlsym 7 "initialize_udf" false, .dlclose 7, .dlclose 7] :=
  ⟨((library_closed_twice_without_symbol fresh_native bare_world { cfg := .none } "/opt/udfs"
      "/opt/udfs/libudf.so" 7 rfl rfl (by decide) rfl rfl).1 rfl).1, by decide⟩

/-! ## The type checks of the RealSense UDF -/

theorem body_floating_of_not_floating (elem : MsgEnvElem) (h : elem.is_floating = false) :
    elem.body_floating = .punned elem := by
  cases elem <;> first | rfl | simp [MsgEnvElem.is_floating] at h

theorem rs_fetch_thrown (meta : MsgEnvelope) (key missing : String) (u : RealSenseUdf)
    (k : MsgEnvElem → RsRun) (t : Thrown) (hm : Thrown.c_string missing ≠ t)
    (hk : ∀ elem, (k elem).thrown ≠ some t) : (rs_fetch meta key missing u k).thrown ≠ some t := by
  unfold rs_fetch
  cases msgbus_msg_envelope_get meta key with
  | none => simpa using hm
  | some elem => exact hk elem

theorem rs_check_thrown (tag_ok : Bool) (wrong : String) (u : RealSenseUdf) (k : RsRun)
    (t : Thrown) (hw : tag_ok = false → Thrown.c_string wrong ≠ t)
    (hk : tag_ok = true → k.thrown ≠ some t) : (rs_check tag_ok wrong u k).thrown ≠ some t := by
  unfold rs_check
  cases tag_ok with
  | false => simpa using hw rfl
  | true => simpa using hk rfl

theorem rs_array_floating_thrown (array_get_at : MsgEnvElem → Nat → Option MsgEnvElem)
    (arr : MsgEnvElem) (index : Nat) (missing wrong : String) (u : RealSenseUdf) (k : RsRun)
    (t : Thrown) (hm : Thrown.c_string missing ≠ t) (hw : Thrown.c_string wrong ≠ t)
    (hk : k.thrown ≠ some t) :
    (rs_array_floating array_get_at arr index missing wrong u k).thrown ≠ some t := by
  unfold rs_array_floating
  cases array_get_at arr index with
  | none => simpa using hm
  | some elem =>
    show (if elem.is_floating then k
      else ({ udf := u, thrown := some (.c_string wrong) } : RsRun)).thrown ≠ some t
    cases elem.is_floating with
    | false => simpa using hw
    | true => simpa using hk

theorem fy_type_error_never_thrown (array_get_at : MsgEnvElem → Nat → Option MsgEnvElem)
    (u : RealSenseUdf) (meta : MsgEnvelope) :
    (u.set_rs2_intrinsics_and_extrinsics array_get_at meta).thrown ≠ some fy_type_error := by
  unfold RealSenseUdf.set_rs2_intrinsics_and_extrinsics
  by_cases hfirst : u.m_frame_number < 1
  swap
  · rw [if_neg hfirst]; simp
  rw [if_pos hfirst]
  refine rs_fetch_thrown _ _ _ _ _ _ (by decide) (fun dw => ?_)
  refine rs_check_thrown _ _ _ _ _ (fun _ => by decide) (fun hdw => ?_)
  refine rs_fetch_thrown _ _ _ _ _ _ (by decide) (fun dh => ?_)
  refine rs_check_thrown _ _ _ _ _ (fun _ => by decide) (fun hdh => ?_)
  refine rs_fetch_thrown _ _ _ _ _ _ (by decide) (fun dppx => ?_)
  refine rs_check_thrown _ _ _ _ _ (fun _ => by decide) (fun hdppx => ?_)
  refine rs_fetch_thrown _ _ _ _ _ _ (by decide) (fun dppy => ?_)
  refine rs_check_thrown _ _ _ _ _ (fun _ => by decide) (fun hdppy => ?_)
  refine rs_fetch_thrown _ _ _ _ _ _ (by decide) (fun dfx => ?_)
  refine rs_check_thrown _ _ _ _ _ (fun _ => by decide) (fun hdfx => ?_)
  refine rs_fetch_thrown _ _ _ _ _ _ (by decide) (fun dfy => ?_)
  refine rs_check_thrown _ _ _ _ _ (fun hf => absurd (hdppy.symm.trans hf) (by decide)) (fun _ => ?_)
  refine rs_fetch_thrown _ _ _ _ _ _ (by decide) (fun dm => ?_)
  refine rs_check_thrown _ _ _ _ _ (fun _ => by decide) (fun hdm => ?_)
  refine rs_fetch_thrown _ _ _ _ _ _ (by decide) (fun cw => ?_)
  refine rs_check_thrown _ _ _ _ _ (fun _ => by decide) (fun hcw => ?_)
  refine rs_fetch_thrown _ _ _ _ _ _ (by decide) (fun ch => ?_)
  refine rs_check_thrown _ _ _ _ _ (fun _ => by decide) (fun hch => ?_)
  refine rs_fetch_thrown _ _ _ _ _ _ (by decide) (fun cppx => ?_)
  refine rs_check_thrown _ _ _ _ _ (fun _ => by decide) (fun hcppx => ?_)
  refine rs_fetch_thrown _ _ _ _ _ _ (by decide) (fun cppy => ?_)
  refine rs_check_thrown _ _ _ _ _ (fun _ => by decide) (fun hcppy => ?_)
  refine rs_fetch_thrown _ _ _ _ _ _ (by decide) (fun cfx => ?_)
  refine rs_check_thrown _ _ _ _ _ (fun _ => by decide) (fun hcfx => ?_)
  refine rs_fetch_thrown _ _ _ _ _ _ (by decide) (fun cfy => ?_)
  refine rs_check_thrown _ _ _ _ _ (fun hf => absurd (hcppy.symm.trans hf) (by decide)) (fun _ => ?_)
  refine rs_fetch_thrown _ _ _ _ _ _ (by decide) (fun cm => ?_)
  refine rs_check_thrown _ _ _ _ _ (fun _ => by decide) (fun hcm => ?_)
  refine rs_fetch_thrown _ _ _ _ _ _ (by decide) (fun ra => ?_)
  refine rs_array_floating_thrown _ _ _ _ _ _ _ _ (by decide) (by decide) ?_
  refine rs_array_floating_thrown _ _ _ _ _ _ _ _ (by decide) (by decide) ?_
  refine rs_array_floating_thrown _ _ _ _ _ _ _ _ (by decide) (by decide) ?_
  refine rs_array_floating_thrown _ _ _ _ _ _ _ _ (by decide) (by decide) ?_
  refine rs_array_floating_thrown _ _ _ _ _ _ _ _ (by decide) (by decide) ?_
  refine rs_array_floating_thrown _ _ _ _ _ _ _ _ (by decide) (by decide) ?_
  refine rs_array_floating_thrown _ _ _ _ _ _ _ _ (by decide) (by decide) ?_
  refine rs_array_floating_thrown _ _ _ _ _ _ _ _ (by decide) (by decide) ?_
  refine rs_array_floating_thrown _ _ _ _ _ _ _ _ (by decide) (by decide) ?_
  refine rs_fetch_thrown _ _ _ _ _ _ (by decide) (fun ta => ?_)
  refine rs_array_floating_thrown _ _ _ _ _ _ _ _ (by decide) (by decide) ?_
  refine rs_array_floating_thrown _ _ _ _ _ _ _ _ (by decide) (by decide) ?_
  refine rs_array_floating_thrown _ _ _ _ _ _ _ _ (by decide) (by decide) ?_
  simp

/-- C30 (the code does otherwise): on its first frame, for an envelope whose other twelve
intrinsics and whose extrinsics have the types the UDF expects, the function returns without
throwing whatever the elements under `rs2_depth_intrinsics_fy` and `rs2_color_intrinsics_fy`
are, and `m_depth_fy` and `m_color_fy` are read from `body.floating` of these elements: for
an element that is not floating, a read of the wrong member. The two blocks test the type of
the y-principal-point elements, so for no envelope at all does the function throw the
y-focal-point type error. -/
theorem fy_read_without_type_check (array_get_at : MsgEnvElem → Nat → Option MsgEnvElem)
    (u : RealSenseUdf) (meta : MsgEnvelope)
    (dw dh dm cw ch cm : Int) (dppx dppy dfx cppx cppy cfx : Nat) (dfy cfy ra ta : MsgEnvElem)
    (r t : Nat → Nat) (hfirst : u.m_frame_number < 1)
    (h1 : msgbus_msg_envelope_get meta "rs2_depth_intrinsics_width" = some (.integer dw))
    (h2 : msgbus_msg_envelope_get meta "rs2_depth_intrinsics_height" = some (.integer dh))
    (h3 : msgbus_msg_envelope_get meta "rs2_depth_intrinsics_ppx" = some (.floating dppx))
    (h4 : msgbus_msg_envelope_get meta "rs2_depth_intrinsics_ppy" = some (.floating dppy))
    (h5 : msgbus_msg_envelope_get meta "rs2_depth_intrinsics_fx" = some (.floating dfx))
    (h6 : msgbus_msg_envelope_get meta "rs2_depth_intrinsics_fy" = some dfy)
    (h7 : msgbus_msg_envelope_get meta "rs2_depth_intrinsics_model" = some (.integer dm))
    (h8 : msgbus_msg_envelope_get meta "rs2_color_intrinsics_width" = some (.integer cw))
    (h9 : msgbus_msg_envelope_get meta "rs2_color_intrinsics_height" = some (.integer ch))
    (h10 : msgbus_msg_envelope_get meta "rs2_color_intrinsics_ppx" = some (.floating cppx))
    (h11 : msgbus_msg_envelope_get meta "rs2_color_intrinsics_ppy" = some (.floating cppy))
    (h12 : msgbus_msg_envelope_get meta "rs2_color_intrinsics_fx" = some (.floating cfx))
    (h13 : msgbus_msg_envelope_get meta "rs2_color_intrinsics_fy" = some cfy)
    (h14 : msgbus_msg_envelope_get meta "rs2_color_intrinsics_model" = some (.integer cm))
    (h15 : msgbus_msg_envelope_get meta "rotation_arr" = some ra)
    (h16 : ∀ i, i < 9 → array_get_at ra i = some (.floating (r i)))
    (h17 : msgbus_msg_envelope_get meta "translation_arr" = some ta)
    (h18 : ∀ i, i < 3 → array_get_at ta i = some (.floating (t i))) :
    (u.set_rs2_intrinsics_and_extrinsics array_get_at meta).thrown = none ∧
      (u.set_rs2_intrinsics_and_extrinsics array_get_at meta).udf.m_depth_fy =
        dfy.body_floating ∧
      (u.set_rs2_intrinsics_and_extrinsics array_get_at meta).udf.m_color_fy =
        cfy.body_floating ∧
      (dfy.is_floating = false →
        (u.set_rs2_intrinsics_and_extrinsics array_get_at meta).udf.m_depth_fy = .punned dfy) ∧
      (cfy.is_floating = false →
        (u.set_rs2_intrinsics_and_extrinsics array_get_at meta).udf.m_color_fy = .punned cfy) ∧
      ∀ g u1 meta1,
        ( RealSenseUdf.set_rs2_intrinsics_and_extrinsics g u1 meta1).thrown ≠
          some fy_type_error := by
  have hrun : u.set_rs2_intrinsics_and_extrinsics array_get_at meta =
      { udf := { u with
          m_depth_width := .value (to_int dw), m_depth_height := .value (to_int dh),
          m_depth_ppx := .value dppx, m_depth_ppy := .value dppy, m_depth_fx := .value dfx,
          m_depth_fy := dfy.body_floating, m_depth_model := .value (to_int dm),
          m_color_width := .value (to_int cw), m_color_height := .value (to_int ch),
          m_color_ppx := .value cppx, m_color_ppy := .value cppy, m_color_fx := .value cfx,
          m_color_fy := cfy.body_floating, m_color_model := .value (to_int cm) },
        thrown := none } := by
    unfold RealSenseUdf.set_rs2_intrinsics_and_extrinsics
    rw [if_pos hfirst]
    simp only [rs_fetch, rs_check, rs_array_floating, h1, h2, h3, h4, h5, h6, h7, h8, h9, h10,
      h11, h12, h13, h14, h15, h17, h16 0 (by decide), h16 1 (by decide), h16 2 (by decide),
      h16 3 (by decide), h16 4 (by decide), h16 5 (by decide), h16 6 (by decide),
      h16 7 (by decide), h16 8 (by decide), h18 0 (by decide), h18 1 (by decide),
      h18 2 (by decide), MsgEnvElem.is_int, MsgEnvElem.is_floating, MsgEnvElem.body_integer,
      MsgEnvElem.body_floating, if_true]
  rw [hrun]
  exact ⟨rfl, rfl, rfl, body_floating_of_not_floating dfy, body_floating_of_not_floating cfy,
    fy_type_error_never_thrown⟩

/-- C30, at an envelope in which the depth y-focal-point is the integer 580 and the color
y-focal-point is the string `x`: the function returns without throwing and both members are
read from `body.floating` of an element that is not floating. -/
theorem fy_read_without_type_check_witness :
    ( RealSenseUdf.set_rs2_intrinsics_and_extrinsics sample_array_get_at RealSenseUdf.new
        (sample_rs_meta (.integer 580) (.string "x"))).thrown = none ∧
      ( RealSenseUdf.set_rs2_intrinsics_and_extrinsics sample_array_get_at RealSenseUdf.new
        (sample_rs_meta (.integer 580) (.string "x"))).udf.m_depth_fy =
          .punned (.integer 580) ∧
      ( RealSenseUdf.set_rs2_intrinsics_and_extrinsics sample_array_get_at RealSenseUdf.new
        (sample_rs_meta (.integer 580) (.string "x"))).udf.m_color_fy =
          .punned (.string "x") :=
  have h := fy_read_without_type_check sample_array_get_at RealSenseUdf.new
    (sample_rs_meta (.integer 580) (.string "x"))
    640 480 0 640 480 0 11 12 13 21 22 23 (.integer 580) (.string "x") (.array 1) (.array 2)
    (fun i => 30 + i) (fun i => 40 + i) (by decide)
    rfl rfl rfl rfl rfl rfl rfl rfl rfl rfl rfl rfl rfl rfl rfl
    (fun i hi => by simp [sample_array_get_at, hi]) rfl
    (fun i hi => by simp [sample_array_get_at, hi])
  ⟨h.1, h.2.1, h.2.2.1⟩

end VideoCommon
